import Mathlib

/-!
# saucectl: suite filtering, docker image resolution and the container backend

A shallow embedding of parts of `cli/command/run/espresso.go`,
`cli/command/run/playwright.go`, `internal/docker/cypress.go`,
`cli/command/init/initiator.go` and `internal/sauceignore/matcher.go`.

Conventions of the embedding.

* A Go `error` is an `Option String`: `none` is `nil`, `some msg` is an error whose
  `Error()` text is `msg`.
* A Go function that mutates its receiver or a pointer argument returns the
  updated value next to its Go result.
* A Go slice is a `List`; a `for _, s := range xs` loop is a structural recursion
  over the list, in order.
* Package-level variables (`gFlags`, `espFlags`) are passed as arguments.
* Constants, types and functions of packages outside the embedded files are
  parameters (`docker.Deps`, `EspressoDeps`); structures list the fields the
  embedded code reads or writes.
* Logging and console output are left out: they do not enter any result.
* A Go `int` is an `Int`; the only arithmetic is a counter bounded by the length
  of a slice.
* The cloud dispatcher of `internal/saucecloud` is modelled from the
  specification: its definitions say so, and count in natural numbers.
-/

set_option linter.dupNamespace false

namespace Saucectl

/-! ## Data model -/

namespace config

/-- Go `config.Device`. -/
structure Device where
  ID : String
  Name : String
  PlatformName : String
  PlatformVersion : String
  deriving DecidableEq, Repr

/-- Go `config.Emulator`. -/
structure Emulator where
  Name : String
  Orientation : String
  PlatformVersions : List String
  deriving DecidableEq, Repr

/-- Go `config.SauceConfig`, the fields the embedded code reads. -/
structure SauceConfig where
  Region : String
  Concurrency : Int
  deriving DecidableEq, Repr

/-- Go `config.Image`: name and tag of a container image. -/
structure Image where
  Name : String
  Tag : String
  deriving DecidableEq, Repr

/-- Go `config.Docker`. -/
structure Docker where
  Image : Image
  deriving DecidableEq, Repr

end config

namespace config

/-- Go `config.TypeDef`, the result of `config.Describe`. -/
structure TypeDef where
  APIVersion : String
  Kind : String
  deriving DecidableEq, Repr

end config

namespace flags

/-- Go `flags.Emulator`: the `--emulator` flag and whether it was given. -/
structure Emulator where
  Emulator : config.Emulator
  Changed : Bool
  deriving DecidableEq, Repr

/-- Go `flags.Device`: the `--device` flag and whether it was given. -/
structure Device where
  Device : config.Device
  Changed : Bool
  deriving DecidableEq, Repr

end flags

namespace espresso

/-- Go `espresso.TestOptions`, with the fields bound to flags in `NewEspressoCmd`. -/
structure TestOptions where
  Class : List String
  NotClass : List String
  Package : String
  Size : String
  Annotation : String
  ShardIndex : Int
  NumShards : Int
  deriving DecidableEq, Repr

/-- Go `espresso.Suite`. -/
structure Suite where
  Name : String
  Devices : List config.Device
  Emulators : List config.Emulator
  TestOptions : TestOptions
  deriving DecidableEq, Repr

/-- Go `espresso.Espresso`. -/
structure Espresso where
  App : String
  TestApp : String
  deriving DecidableEq, Repr

/-- Go `espresso.Project`. -/
structure Project where
  Sauce : config.SauceConfig
  Espresso : Espresso
  Suites : List Suite
  deriving DecidableEq, Repr

end espresso

namespace playwright

/-- Go `playwright.Suite`. `Env` is a Go map: `none` is the nil map, `some kvs` a
map holding the bindings `kvs`. -/
structure Suite where
  Name : String
  Mode : String
  Env : Option (List (String × String))
  deriving DecidableEq, Repr

/-- Go `playwright.Defaults`. -/
structure Defaults where
  Mode : String
  deriving DecidableEq, Repr

/-- Go `playwright.Project`. -/
structure Project where
  ShowConsoleLog : Bool
  RunnerVersion : String
  Sauce : config.SauceConfig
  Defaults : Defaults
  Suites : List Suite
  deriving DecidableEq, Repr

end playwright

namespace cypress

/-- Go `cypress.Cypress`. -/
structure Cypress where
  ConfigFile : String
  ProjectPath : String
  EnvFile : String
  Version : String
  deriving DecidableEq, Repr

/-- Go `cypress.SuiteConfig`; `Env` is a Go map, `none` the nil map. -/
structure SuiteConfig where
  Env : Option (List (String × String))
  deriving DecidableEq, Repr

/-- Go `cypress.Suite`. -/
structure Suite where
  Name : String
  Config : SuiteConfig
  deriving DecidableEq, Repr

/-- Go `cypress.Project`. -/
structure Project where
  Sauce : config.SauceConfig
  Cypress : Cypress
  Suites : List Suite
  BeforeExec : List String
  Docker : config.Docker
  deriving DecidableEq, Repr

end cypress

/-! ## `--suite` filtering (`cli/command/run`) -/

/-- The value of `fmt.Errorf("suite name '%s' is invalid", suiteName)`. -/
def invalidSuiteName (suiteName : String) : String :=
  "suite name '" ++ suiteName ++ "' is invalid"

/-- The `for` loop of `filterEspressoSuite` over the suites not yet visited: the
first suite named `suiteName` replaces `c.Suites`; with none left the error is
returned and `c` is as it was. -/
def filterEspressoSuiteLoop (suiteName : String) (c : espresso.Project) :
    List espresso.Suite → Option String × espresso.Project
  | [] => (some (invalidSuiteName suiteName), c)
  | s :: rest =>
    if s.Name = suiteName then
      (none, { c with Suites := [s] })
    else
      filterEspressoSuiteLoop suiteName c rest

/-- Go `filterEspressoSuite(c *espresso.Project) error`; `suiteName` is
`gFlags.suiteName`. -/
def filterEspressoSuite (suiteName : String) (c : espresso.Project) :
    Option String × espresso.Project :=
  filterEspressoSuiteLoop suiteName c c.Suites

/-- The `for` loop of `filterPlaywrightSuite` over the suites not yet visited. -/
def filterPlaywrightSuiteLoop (suiteName : String) (c : playwright.Project) :
    List playwright.Suite → Option String × playwright.Project
  | [] => (some (invalidSuiteName suiteName), c)
  | s :: rest =>
    if s.Name = suiteName then
      (none, { c with Suites := [s] })
    else
      filterPlaywrightSuiteLoop suiteName c rest

/-- Go `filterPlaywrightSuite(c *playwright.Project) error`; `suiteName` is
`gFlags.suiteName`. -/
def filterPlaywrightSuite (suiteName : String) (c : playwright.Project) :
    Option String × playwright.Project :=
  filterPlaywrightSuiteLoop suiteName c c.Suites

/-! ## The espresso `run` command (`cli/command/run/espresso.go`) -/

/-- Go `espressoFlags`. -/
structure espressoFlags where
  Name : String
  App : String
  TestApp : String
  TestOptions : espresso.TestOptions
  Emulator : flags.Emulator
  Device : flags.Device
  deriving DecidableEq, Repr

/-- Go `setAdhocSuite(p *espresso.Project)`; `espFlags` is the package variable. -/
def setAdhocSuite (espFlags : espressoFlags) (p : espresso.Project) : espresso.Project :=
  let dd : List config.Device := []
  let dd := if espFlags.Device.Changed then dd ++ [espFlags.Device.Device] else dd
  let ee : List config.Emulator := []
  let ee := if espFlags.Emulator.Changed then ee ++ [espFlags.Emulator.Emulator] else ee
  let s : espresso.Suite :=
    { Name := espFlags.Name, Devices := dd, Emulators := ee, TestOptions := espFlags.TestOptions }
  { p with Suites := [s] }

/-- Go `applyEspressoFlags(p *espresso.Project)`; `espFlags` is the package variable. -/
def applyEspressoFlags (espFlags : espressoFlags) (p : espresso.Project) : espresso.Project :=
  let p := if espFlags.App ≠ "" then { p with Espresso := { p.Espresso with App := espFlags.App } } else p
  let p :=
    if espFlags.TestApp ≠ "" then { p with Espresso := { p.Espresso with TestApp := espFlags.TestApp } }
    else p
  if espFlags.Name ≠ "" then setAdhocSuite espFlags p else p

/-- What the espresso `run` command takes from outside the embedded sources: the
package variables it reads and the results of the collaborators it calls. -/
structure EspressoDeps where
  /-- Go `credentials.Get().IsValid()`. -/
  credsValid : Bool
  /-- Go `config.Describe(gFlags.cfgFilePath)`. -/
  Describe : config.TypeDef × Option String
  /-- Go constant `config.KindEspresso`. -/
  KindEspresso : String
  /-- Go constant `config.VersionV1Alpha`. -/
  VersionV1Alpha : String
  /-- Go `espresso.FromFile(gFlags.cfgFilePath)`. -/
  FromFile : espresso.Project × Option String
  /-- Go `applyDefaultValues(&p.Sauce)`. -/
  applyDefaultValues : config.SauceConfig → config.SauceConfig
  /-- Go `overrideCliParameters(cmd, &p.Sauce, &p.Artifacts)`, on `p.Sauce`. -/
  overrideCliParameters : config.SauceConfig → config.SauceConfig
  /-- Go `region.FromString(s) != region.None`. -/
  regionKnown : String → Bool
  /-- Go `espresso.Validate(p)`. -/
  Validate : espresso.Project → Option String
  /-- Go `cmd.Flags().Lookup("suite").Changed`. -/
  suiteChanged : Bool
  /-- Go `gFlags.suiteName`. -/
  suiteName : String
  /-- Go package variable `espFlags`. -/
  espFlags : espressoFlags
  /-- Go `saucecloud.EspressoRunner.RunProject` of the runner that
  `runEspressoInCloud` builds for a project. -/
  RunProject : espresso.Project → Int × Option String

/-- Go `runEspressoInCloud`: build the cloud runner and return its `RunProject()`. -/
def runEspressoInCloud (E : EspressoDeps) (p : espresso.Project) : Int × Option String :=
  E.RunProject p

/-- Go `runEspresso`. Of the project only `p.Sauce` goes through
`applyDefaultValues` and `overrideCliParameters`; the metadata and the artifact
settings are not part of the embedded project. -/
def runEspresso (E : EspressoDeps) : Int × Option String :=
  match E.FromFile with
  | (_, some err) => (1, some err)
  | (p, none) =>
    let p := { p with Sauce := E.overrideCliParameters (E.applyDefaultValues p.Sauce) }
    let p := applyEspressoFlags E.espFlags p
    if E.regionKnown p.Sauce.Region = false then
      (1, some "no sauce region set")
    else
      match E.Validate p with
      | some err => (1, some err)
      | none =>
        if E.suiteChanged then
          match filterEspressoSuite E.suiteName p with
          | (some err, _) => (1, some err)
          | (none, p) => runEspressoInCloud E p
        else
          runEspressoInCloud E p

/-- Go `runEspressoCmd`. The update check, the goroutine awaiting the global
timeout and the log directory do not enter the result and are left out. -/
def runEspressoCmd (E : EspressoDeps) : Int × Option String :=
  if E.credsValid = false then
    (1, some "no credentials set")
  else
    match E.Describe with
    | (_, some err) => (1, some err)
    | (d, none) =>
      if d.Kind = E.KindEspresso ∧ d.APIVersion = E.VersionV1Alpha then
        runEspresso E
      else
        (1, some "unknown framework configuration")

/-- The `Run` function of the command built by `NewEspressoCmd`: the value handed
to `os.Exit`. The error, when there is one, is logged and reported and does not
enter the exit code. -/
def NewEspressoCmd_Run (E : EspressoDeps) : Int :=
  match runEspressoCmd E with
  | (exitCode, _) => exitCode

/-! ## A concrete espresso command, for the examples -/

/-- An espresso project with one suite. -/
def exampleEspressoProject : espresso.Project :=
  { Sauce := ⟨"us-west-1", 1⟩
    Espresso := ⟨"app.apk", "testApp.apk"⟩
    Suites := [⟨"smoke", [], [⟨"Android GoogleApi Emulator", "", ["11.0"]⟩], ⟨[], [], "", "", "", 0, 0⟩⟩] }

/-- A valid espresso command line and configuration, on a backend whose
`RunProject` returns `result` for every project. -/
def exampleEspressoDeps (result : Int × Option String) : EspressoDeps :=
  { credsValid := true
    Describe := (⟨"v1alpha", "espresso"⟩, none)
    KindEspresso := "espresso"
    VersionV1Alpha := "v1alpha"
    FromFile := (exampleEspressoProject, none)
    applyDefaultValues := fun sauce => sauce
    overrideCliParameters := fun sauce => sauce
    regionKnown := fun region => region = "us-west-1" || region = "eu-central-1"
    Validate := fun _ => none
    suiteChanged := false
    suiteName := ""
    espFlags := ⟨"", "", "", ⟨[], [], "", "", "", 0, 0⟩, ⟨⟨"", "", []⟩, false⟩, ⟨⟨"", "", "", ""⟩, false⟩⟩
    RunProject := fun _ => result }

/-! ## The container backend (`internal/docker/cypress.go`)

`CypressRunner` reaches the outside world (the docker daemon, the file system and
the `ContainerRunner` methods `pullImage`, `beforeExec` and `run`, which are not
part of the embedded sources) only through calls. Each call is recorded, with
the reply it got, in the runner's `events`, oldest first; the reply to a call is
given by `Deps.respond` as a function of everything that happened before it.
The three `ContainerRunner` methods are taken to leave `containerID` and
`containerConfig` alone; `r.Project` is out of their reach. -/

namespace docker

/-- The calls `CypressRunner` makes to its collaborators, with their arguments. -/
inductive Call where
  | ValidateDependency
  | pullImage (img : config.Image)
  | StartContainer (files : List String) (options : config.Docker)
  | ProjectDir (imageName : String)
  | TempDir
  | WriteFile (path : String) (project : cypress.Project)
  | CopyToContainer (containerID srcFile targetDir : String)
  | beforeExec (tasks : List String)
  | Execute (containerID : String) (cmd : List String)
  | RemoveAll (path : String)
  | run (cmd : List String) (env : Option (List (String × String)))
  deriving DecidableEq, Repr

/-- What a call returns: a Go `(value, err)` pair. `value` is the container ID
for `StartContainer`, the directory for `ProjectDir` and `TempDir`, and is not
read for the calls that return an `error` only. -/
structure Reply where
  value : String
  err : Option String
  deriving DecidableEq, Repr

/-- One call together with the reply it got. -/
structure Event where
  call : Call
  reply : Reply
  deriving DecidableEq, Repr

/-- What `internal/docker/cypress.go` takes from outside the embedded sources:
two constants, three pure helpers and the behaviour of the collaborators. -/
structure Deps where
  /-- Go constant `cypress.DefaultDockerImage`. -/
  DefaultDockerImage : String
  /-- Go constant `docker.SauceRunnerConfigFile`. -/
  SauceRunnerConfigFile : String
  /-- Go `config.Image.String`. -/
  imageString : config.Image → String
  /-- Go `filepath.Join` on two elements. -/
  filepathJoin : String → String → String
  /-- Go `path.Join` on two elements. -/
  pathJoin : String → String → String
  /-- The reply to a call, given the events so far. -/
  respond : List Event → Call → Reply

/-- Go `docker.containerConfig`. -/
structure containerConfig where
  sauceRunnerConfigPath : String
  deriving DecidableEq, Repr

/-- Go `docker.CypressRunner` with the fields of the embedded `ContainerRunner`
that `cypress.go` uses, and the events so far. -/
structure CypressRunner where
  Project : cypress.Project
  containerID : String
  containerConfig : containerConfig
  events : List Event
  deriving DecidableEq, Repr

/-- Perform one call: ask `respond` with the events so far and record the event. -/
def call (D : Deps) (r : CypressRunner) (c : Call) : Reply × CypressRunner :=
  let reply := D.respond r.events c
  (reply, { r with events := r.events ++ [⟨c, reply⟩] })

/-- The value of the `fmt.Errorf` in `defineDockerImage`. -/
def missingCypressVersion : String :=
  "Missing cypress version. Check available versions here: https://docs.staging.saucelabs.net/testrunner-toolkit#supported-frameworks-and-browsers"

/-- Assignment `r.Project.Docker.Image.Tag = tag`. -/
def setImageTag (r : CypressRunner) (tag : String) : CypressRunner :=
  { r with Project := { r.Project with
      Docker := { r.Project.Docker with Image := { r.Project.Docker.Image with Tag := tag } } } }

/-- Assignment `r.Project.Docker.Image.Name = name`. -/
def setImageName (r : CypressRunner) (name : String) : CypressRunner :=
  { r with Project := { r.Project with
      Docker := { r.Project.Docker with Image := { r.Project.Docker.Image with Name := name } } } }

/-- Go `(r *CypressRunner) defineDockerImage() error`. -/
def defineDockerImage (DefaultDockerImage : String) (r : CypressRunner) :
    Option String × CypressRunner :=
  if r.Project.Docker.Image.Name ≠ "" ∧ r.Project.Docker.Image.Tag ≠ "" then
    (none, r)
  else if r.Project.Cypress.Version = "" then
    (some missingCypressVersion, r)
  else
    let r1 :=
      if r.Project.Docker.Image.Name = DefaultDockerImage ∧ r.Project.Docker.Image.Tag = "" then
        setImageTag r ("v" ++ r.Project.Cypress.Version)
      else r
    let r2 :=
      if r1.Project.Docker.Image.Name = "" then
        setImageTag (setImageName r1 DefaultDockerImage) ("v" ++ r1.Project.Cypress.Version)
      else r1
    (none, r2)

/-- The text after the `%v` in the `fmt.Errorf` of `setup`. -/
def dockerGuide : String :=
  ",  follow the guide at https://docs.docker.com/get-docker/"

/-- The value of the `fmt.Errorf` in `setup` for the dependency error `err`. -/
def dockerNotRunning (err : String) : String :=
  "please verify that docker is installed and running: " ++ err ++ dockerGuide

/-- The part of `setup` after `defer os.RemoveAll(tmpDir)`: write the run
configuration, copy it into the container, run the hooks, start port forwarding. -/
def setupInTmpDir (D : Deps) (r : CypressRunner) (pDir tmpDir : String) :
    Option String × CypressRunner :=
  let rcPath := D.filepathJoin tmpDir D.SauceRunnerConfigFile
  let (written, r) := call D r (.WriteFile rcPath r.Project)
  match written.err with
  | some err => (some err, r)
  | none =>
  let (copied, r) := call D r (.CopyToContainer r.containerID rcPath pDir)
  match copied.err with
  | some err => (some err, r)
  | none =>
  let r := { r with containerConfig :=
    { r.containerConfig with sauceRunnerConfigPath := D.pathJoin pDir D.SauceRunnerConfigFile } }
  let (hooks, r) := call D r (.beforeExec r.Project.BeforeExec)
  match hooks.err with
  | some err => (some err, r)
  | none =>
  let sockatCmd := ["socat", "tcp-listen:9222,reuseaddr,fork", "tcp:localhost:9223"]
  let (forwarded, r) := call D r (.Execute r.containerID sockatCmd)
  match forwarded.err with
  | some err => (some err, r)
  | none => (none, r)

/-- Go `(r *CypressRunner) setup() error`. -/
def setup (D : Deps) (r : CypressRunner) : Option String × CypressRunner :=
  let (dep, r) := call D r .ValidateDependency
  match dep.err with
  | some err => (some (dockerNotRunning err), r)
  | none =>
  let (pulled, r) := call D r (.pullImage r.Project.Docker.Image)
  match pulled.err with
  | some err => (some err, r)
  | none =>
  let files := [r.Project.Cypress.ConfigFile, r.Project.Cypress.ProjectPath]
  let files := if r.Project.Cypress.EnvFile ≠ "" then files ++ [r.Project.Cypress.EnvFile] else files
  let (container, r) := call D r (.StartContainer files r.Project.Docker)
  match container.err with
  | some err => (some err, r)
  | none =>
  let r := { r with containerID := container.value }
  let (pDir, r) := call D r (.ProjectDir (D.imageString r.Project.Docker.Image))
  match pDir.err with
  | some err => (some err, r)
  | none =>
  let (tmpDir, r) := call D r .TempDir
  match tmpDir.err with
  | some err => (some err, r)
  | none =>
  let (result, r) := setupInTmpDir D r pDir.value tmpDir.value
  let (_, r) := call D r (.RemoveAll tmpDir.value)
  (result, r)

/-- The command `RunProject` runs for a suite. -/
def testCommand (r : CypressRunner) (suite : cypress.Suite) : List String :=
  ["npm", "test", "--", "-r", r.containerConfig.sauceRunnerConfigPath, "-s", suite.Name]

/-- The `for` loop of `RunProject` over the suites not yet visited, with the
value of `errorCount` so far. -/
def runSuitesLoop (D : Deps) :
    List cypress.Suite → CypressRunner → Int → (Int × Option String) × CypressRunner
  | [], r, errorCount => ((errorCount, none), r)
  | suite :: rest, r, errorCount =>
    match setup D r with
    | (some err, r) => ((1, some err), r)
    | (none, r) =>
      match call D r (.run (testCommand r suite) suite.Config.Env) with
      | (ran, r) =>
        match ran.err with
        | some _ => runSuitesLoop D rest r (errorCount + 1)
        | none => runSuitesLoop D rest r errorCount

/-- Go `(r *CypressRunner) RunProject() (int, error)`. -/
def RunProject (D : Deps) (r : CypressRunner) : (Int × Option String) × CypressRunner :=
  match defineDockerImage D.DefaultDockerImage r with
  | (some err, r) => ((1, some err), r)
  | (none, r) => runSuitesLoop D r.Project.Suites r 0

/-! ## Reading the events of a run -/

/-- Is the event a call of `run`? -/
def isRun : Event → Bool
  | ⟨.run _ _, _⟩ => true
  | _ => false

/-- Is the event a call of `run` that returned an error? -/
def isFailedRun : Event → Bool
  | ⟨.run _ _, ⟨_, some _⟩⟩ => true
  | _ => false

/-- The suite a `run` event ran: the name after `-s` in its command, and the
environment passed with it. -/
def ranSuite : Event → Option (String × Option (List (String × String)))
  | ⟨.run [_, _, _, _, _, _, name] env, _⟩ => some (name, env)
  | _ => none

/-- The setup of every suite succeeds: going through `suites` from runner `r` as
the loop of `RunProject` does, `setup` returns nil for each suite in turn. -/
def setupsSucceed (D : Deps) : List cypress.Suite → CypressRunner → Bool
  | [], _ => true
  | suite :: rest, r =>
    match setup D r with
    | (some _, _) => false
    | (none, r) => setupsSucceed D rest (call D r (.run (testCommand r suite) suite.Config.Env)).2

/-- Runner `r2` is `r1` after some calls, none of them a `run`, on the same project. -/
def QuietStep (r1 r2 : CypressRunner) : Prop :=
  ∃ evs, r2.events = r1.events ++ evs ∧ (∀ e ∈ evs, isRun e = false) ∧ r2.Project = r1.Project

/-! ## Concrete runners and collaborators, for the examples -/

/-- A runner as `NewCypress` builds it, for a project with the given image,
Cypress version and suites, before any call was made. -/
def freshRunner (image : config.Image) (version : String) (suites : List cypress.Suite) :
    CypressRunner :=
  { Project :=
      { Sauce := ⟨"us-west-1", 1⟩
        Cypress := ⟨"cypress.json", "cypress", "", version⟩
        Suites := suites
        BeforeExec := []
        Docker := ⟨image⟩ }
    containerID := ""
    containerConfig := ⟨""⟩
    events := [] }

/-- Collaborators for the examples: every call succeeds, except that `run` fails
for the suites named in `failingSuites`, and that the docker daemon is down once
`downAfter` suites have been run. -/
def exampleRespond (failingSuites : List String) (downAfter : Nat) : List Event → Call → Reply
  | evs, .ValidateDependency =>
    if downAfter ≤ (evs.filter isRun).length then
      ⟨"", some "Cannot connect to the Docker daemon"⟩
    else ⟨"", none⟩
  | _, .StartContainer _ _ => ⟨"c0ffee", none⟩
  | _, .ProjectDir _ => ⟨"/home/seluser", none⟩
  | _, .TempDir => ⟨"/tmp/saucectl1", none⟩
  | _, .run cmd _ =>
    match cmd.getLast? with
    | some name => if failingSuites.contains name then ⟨"", some "exit status 1"⟩ else ⟨"", none⟩
    | none => ⟨"", none⟩
  | _, _ => ⟨"", none⟩

/-- The dependencies of the examples, around `exampleRespond`. -/
def exampleDeps (failingSuites : List String) (downAfter : Nat) : Deps :=
  { DefaultDockerImage := "saucelabs/stt-cypress-mocha-node"
    SauceRunnerConfigFile := "sauce-runner.json"
    imageString := fun img => img.Name ++ ":" ++ img.Tag
    filepathJoin := fun dir file => dir ++ "/" ++ file
    pathJoin := fun dir file => dir ++ "/" ++ file
    respond := exampleRespond failingSuites downAfter }

/-- Three suites, without environment. -/
def exampleSuites : List cypress.Suite :=
  [⟨"login", ⟨none⟩⟩, ⟨"cart", ⟨none⟩⟩, ⟨"checkout", ⟨none⟩⟩]

end docker

/-! ## The `init` command (`cli/command/init/initiator.go`) -/

namespace config

/-- Modelled from the spec: Go type `config.When` with its constants `WhenNever`,
`WhenAlways`, `WhenPass` and `WhenFail`, declared in `internal/config`, which is
not among the embedded sources. The spec enumerates the artifact download policy
as `{Never, Always, OnPass, OnFail}`; `zero` is the zero value of the type, as an
unset field or a missing map key has it. -/
inductive When where
  | zero
  | WhenNever
  | WhenAlways
  | WhenPass
  | WhenFail
  deriving DecidableEq, Repr

/-- Modelled from the spec: Go constant `config.KindEspresso`, declared in
`internal/config`, which is not among the embedded sources; the value is the name
for which `Test_frameworkSpecificSettings` expects `needsEmulator` to hold. -/
def KindEspresso : String := "espresso"

/-- Modelled from the spec: Go constant `config.KindXcuitest`, declared in
`internal/config`; the value is the second name for which
`Test_frameworkSpecificSettings` expects `isNativeFramework` to hold. -/
def KindXcuitest : String := "xcuitest"

/-- Modelled from the spec: Go constant `config.KindCypress`, declared in
`internal/config`; the value is the name for which
`Test_frameworkSpecificSettings` expects `needsCypressJson` to hold. -/
def KindCypress : String := "cypress"

end config

namespace framework

/-- Go `framework.Platform`. -/
structure Platform where
  PlatformName : String
  BrowserNames : List String
  deriving DecidableEq, Repr

/-- Go `framework.Metadata`. -/
structure Metadata where
  FrameworkName : String
  FrameworkVersion : String
  DockerImage : String
  Platforms : List Platform
  deriving DecidableEq, Repr

/-- Go `framework.Framework`, an element of what `MetadataService.Frameworks`
returns. -/
structure Framework where
  Name : String
  deriving DecidableEq, Repr

end framework

namespace vmd

/-- Go `vmd.VirtualDevice`. -/
structure VirtualDevice where
  Name : String
  deriving DecidableEq, Repr

end vmd

namespace initcmd

/-- Go `androidDevicesPatterns`. -/
def androidDevicesPatterns : List String :=
  ["Amazon Kindle Fire .*", "Google Pixel .*", "HTC .*", "Huawei .*",
    "LG .*", "Motorola .*", "OnePlus .*", "Samsung .*", "Sony .*"]

/-- Go `iOSDevicesPatterns`. -/
def iOSDevicesPatterns : List String := ["iPad .*", "iPhone .*"]

/-- Go `isNativeFramework`. -/
def isNativeFramework (framework : String) : Bool :=
  framework == config.KindEspresso || framework == config.KindXcuitest

/-- Go `needsApps`. -/
def needsApps (framework : String) : Bool :=
  isNativeFramework framework

/-- Go `needsCypressJson`. -/
def needsCypressJson (framework : String) : Bool :=
  framework == config.KindCypress

/-- Go `needsDevice`. -/
def needsDevice (framework : String) : Bool :=
  isNativeFramework framework

/-- Go `needsEmulator`. -/
def needsEmulator (framework : String) : Bool :=
  framework == config.KindEspresso

/-- Go `needsPlatform`. -/
def needsPlatform (framework : String) : Bool :=
  !isNativeFramework framework

/-- Go `needsRootDir`. -/
def needsRootDir (framework : String) : Bool :=
  !isNativeFramework framework

/-- Go `needsVersion`. -/
def needsVersion (framework : String) : Bool :=
  !isNativeFramework framework

/-- Go `metaToVersions`: the loop appends the version of every entry. -/
def metaToVersions (metadatas : List framework.Metadata) : List String :=
  metadatas.foldl (fun versions v => versions ++ [v.FrameworkVersion]) []

/-- Go `metaToPlatforms`: the outer loop goes through the entries with the
`platforms` collected so far, the inner loop through the platforms of an entry of
the requested version. -/
def metaToPlatforms (metadatas : List framework.Metadata) (version : String) : List String :=
  metadatas.foldl
    (fun platforms m =>
      if m.FrameworkVersion = version then
        let platforms := m.Platforms.foldl (fun platforms p => platforms ++ [p.PlatformName]) platforms
        if m.DockerImage ≠ "" then platforms ++ ["docker"] else platforms
      else platforms)
    []

/-- Go `dockerBrowsers`. -/
def dockerBrowsers (framework : String) : List String :=
  if framework = "playwright" then ["chromium", "firefox"] else ["chrome", "firefox"]

/-- The inner loop of `metaToBrowsers` over the platforms of entry `v` not yet
visited: `some` browsers when the loop returns, `none` when it runs out. -/
def metaToBrowsersInner (v : framework.Metadata) (frameworkVersion platformName : String) :
    List framework.Platform → Option (List String)
  | [] => none
  | p :: rest =>
    if v.FrameworkVersion = frameworkVersion ∧ p.PlatformName = platformName then
      some p.BrowserNames
    else
      metaToBrowsersInner v frameworkVersion platformName rest

/-- The outer loop of `metaToBrowsers` over the entries not yet visited. -/
def metaToBrowsersOuter (frameworkVersion platformName : String) :
    List framework.Metadata → Option (List String)
  | [] => none
  | v :: rest =>
    match metaToBrowsersInner v frameworkVersion platformName v.Platforms with
    | some browsers => some browsers
    | none => metaToBrowsersOuter frameworkVersion platformName rest

/-- Go `metaToBrowsers`. -/
def metaToBrowsers (metadatas : List framework.Metadata)
    (frameworkName frameworkVersion platformName : String) : List String :=
  if platformName = "docker" then
    dockerBrowsers frameworkName
  else
    match metaToBrowsersOuter frameworkVersion platformName metadatas with
    | some browsers => browsers
    | none => []

/-- Go `whenStrings`. -/
def whenStrings : List String :=
  ["when tests are failing", "when tests are passing", "never", "always"]

/-- Go `mapWhen`, a map literal, as the list of its entries. -/
def mapWhen : List (String × config.When) :=
  [("when tests are failing", config.When.WhenFail),
    ("when tests are passing", config.When.WhenPass),
    ("never", config.When.WhenNever),
    ("always", config.When.WhenAlways)]

/-- Go `mapWhen[when]`: the value of the key, the zero value for a missing key. -/
def mapWhenAt (when : String) : config.When :=
  match mapWhen.lookup when with
  | some policy => policy
  | none => config.When.zero

/-- Go `initConfig`, the answers collected by the questions. Its declaration is
not among the embedded sources; the fields are those the embedded code and its
tests read or write, and the default of each is the zero value of its type, so
that `{}` is Go `initConfig{}`. -/
structure initConfig where
  frameworkName : String := ""
  frameworkVersion : String := ""
  cypressJson : String := ""
  app : String := ""
  testApp : String := ""
  platformName : String := ""
  mode : String := ""
  browserName : String := ""
  region : String := ""
  rootDir : String := ""
  artifactWhen : config.When := config.When.zero
  device : config.Device := ⟨"", "", "", ""⟩
  emulator : config.Emulator := ⟨"", "", []⟩
  deriving DecidableEq, Repr

/-- A question put to the user: a `survey.Select` with its message, options and
default, or a `survey.Input` with its message and the framework whose
`extValidator` checks the answer. -/
inductive Prompt where
  | Select (Message : String) (Options : List String) (Default : String)
  | Input (Message : String) (validatedFor : String)
  deriving DecidableEq, Repr

/-- A question that was asked, with what `survey.AskOne` left in the target and
the error it returned. -/
structure Asked where
  prompt : Prompt
  answer : String
  err : Option String
  deriving DecidableEq, Repr

/-- Go `initiator`: the collaborators behind `infoReader`, `vmdReader` and
`stdio`, together with the library functions and the constant the embedded code
takes from elsewhere. The questions asked so far are passed next to it. -/
structure initiator where
  /-- Go `ini.infoReader.Frameworks(ctx)`. -/
  Frameworks : List framework.Framework × Option String
  /-- Go `ini.infoReader.Versions(ctx, frameworkName)`. -/
  Versions : String → List framework.Metadata × Option String
  /-- Go `ini.vmdReader.GetVirtualDevices(ctx, kind)`. -/
  GetVirtualDevices : String → List vmd.VirtualDevice × Option String
  /-- Go constant `vmd.AndroidEmulator`. -/
  AndroidEmulator : String
  /-- Go `survey.AskOne(prompt, &target, ...)` on `ini.stdio`: given the questions
  asked so far, the prompt and the value of the target, the value it leaves in
  the target and the error it returns. -/
  AskOne : List Asked → Prompt → String → String × Option String
  /-- Go `strings.ToLower`. -/
  ToLower : String → String
  /-- Go `uniqSorted`. -/
  uniqSorted : List String → List String

/-- Ask one question and record it. -/
def ask (ini : initiator) (asked : List Asked) (prompt : Prompt) (target : String) :
    (String × Option String) × List Asked :=
  let reply := ini.AskOne asked prompt target
  (reply, asked ++ [⟨prompt, reply.1, reply.2⟩])

/-- Go `(ini *initiator) askFramework(cfg *initConfig) error`. -/
def askFramework (ini : initiator) (asked : List Asked) (cfg : initConfig) :
    Option String × initConfig × List Asked :=
  match ini.Frameworks with
  | (_, some err) => (some err, cfg, asked)
  | (values, none) =>
    let frameworks := values.foldl (fun frameworks f => frameworks ++ [f.Name]) []
    let p := Prompt.Select "Select framework:" frameworks ""
    match ask ini asked p cfg.frameworkName with
    | ((answer, err), asked) =>
      let cfg := { cfg with frameworkName := answer }
      if cfg.frameworkName = "" then
        (some "interrupting configuration", cfg, asked)
      else
        (err, { cfg with frameworkName := ini.ToLower cfg.frameworkName }, asked)

/-- Go `(ini *initiator) askDownloadWhen(cfg *initConfig) error`. -/
def askDownloadWhen (ini : initiator) (asked : List Asked) (cfg : initConfig) :
    Option String × initConfig × List Asked :=
  let q := Prompt.Select "Download artifacts:" whenStrings (whenStrings.getD 0 "")
  let when := ""
  match ask ini asked q when with
  | ((_, some err), asked) => (some err, cfg, asked)
  | ((when, none), asked) => (none, { cfg with artifactWhen := mapWhenAt when }, asked)

/-- Go `(ini *initiator) askDevice(cfg *initConfig, suggestions []string) error`. -/
def askDevice (ini : initiator) (asked : List Asked) (cfg : initConfig)
    (suggestions : List String) : Option String × initConfig × List Asked :=
  let q := Prompt.Select "Select device pattern:" suggestions ""
  match ask ini asked q cfg.device.Name with
  | ((name, err), asked) => (err, { cfg with device := { cfg.device with Name := name } }, asked)

/-- Go `(ini *initiator) askEmulator(cfg *initConfig, vmds []vmd.VirtualDevice) error`. -/
def askEmulator (ini : initiator) (asked : List Asked) (cfg : initConfig)
    (vmds : List vmd.VirtualDevice) : Option String × initConfig × List Asked :=
  let vmdNames := vmds.foldl (fun vmdNames v => vmdNames ++ [v.Name]) []
  let q := Prompt.Select "Select emulator:" (ini.uniqSorted vmdNames) ""
  match ask ini asked q cfg.emulator.Name with
  | ((name, err), asked) =>
    (err, { cfg with emulator := { cfg.emulator with Name := name } }, asked)

/-- Go `(ini *initiator) askPlatform(cfg *initConfig, metadatas []framework.Metadata) error`. -/
def askPlatform (ini : initiator) (asked : List Asked) (cfg : initConfig)
    (metadatas : List framework.Metadata) : Option String × initConfig × List Asked :=
  let platformChoices := metaToPlatforms metadatas cfg.frameworkVersion
  let q := Prompt.Select "Select platform:" platformChoices ""
  match ask ini asked q cfg.platformName with
  | ((platformName, some err), asked) => (some err, { cfg with platformName := platformName }, asked)
  | ((platformName, none), asked) =>
    let cfg := { cfg with platformName := platformName }
    let browserChoices :=
      metaToBrowsers metadatas cfg.frameworkName cfg.frameworkVersion cfg.platformName
    let q := Prompt.Select "Select Browser:" browserChoices ""
    match ask ini asked q cfg.browserName with
    | ((browserName, some err), asked) => (some err, { cfg with browserName := browserName }, asked)
    | ((browserName, none), asked) =>
      let cfg := { cfg with browserName := browserName }
      let cfg := { cfg with mode := "sauce" }
      if cfg.platformName = "docker" then
        (none, { cfg with platformName := "", mode := "docker" }, asked)
      else
        (none, cfg, asked)

/-- Go `(ini *initiator) askVersion(cfg *initConfig, metadatas []framework.Metadata) error`. -/
def askVersion (ini : initiator) (asked : List Asked) (cfg : initConfig)
    (metadatas : List framework.Metadata) : Option String × initConfig × List Asked :=
  let versions := metaToVersions metadatas
  let q := Prompt.Select ("Select " ++ cfg.frameworkName ++ " version:") versions ""
  match ask ini asked q cfg.frameworkVersion with
  | ((version, err), asked) => (err, { cfg with frameworkVersion := version }, asked)

/-- Go `(ini *initiator) askFile(message, val, comp, targetValue *string) error`:
the error and the value left in `*targetValue`. The validator is
`extValidator(validatedFor)`; the completor does not enter the result. -/
def askFile (ini : initiator) (asked : List Asked) (message validatedFor : String)
    (targetValue : String) : Option String × String × List Asked :=
  let q := Prompt.Input message validatedFor
  match ask ini asked q targetValue with
  | ((value, err), asked) => (err, value, asked)

/-- The `needsApps` block of `configure`. -/
def configureApps (ini : initiator) (asked : List Asked) (cfg : initConfig) :
    Option String × initConfig × List Asked :=
  match askFile ini asked "Application to test:" cfg.frameworkName cfg.app with
  | (some err, app, asked) => (some err, { cfg with app := app }, asked)
  | (none, app, asked) =>
    let cfg := { cfg with app := app }
    match askFile ini asked "Test application:" cfg.frameworkName cfg.testApp with
    | (err, testApp, asked) => (err, { cfg with testApp := testApp }, asked)

/-- The `needsDevice` block of `configure`. Its first `if err != nil` tests the
error of the preceding step, which is nil there. -/
def configureDevice (ini : initiator) (asked : List Asked) (cfg : initConfig) :
    Option String × initConfig × List Asked :=
  let patterns := androidDevicesPatterns
  let patterns := if cfg.frameworkName = config.KindXcuitest then iOSDevicesPatterns else patterns
  askDevice ini asked cfg patterns

/-- The `needsEmulator` block of `configure`. -/
def configureEmulator (ini : initiator) (asked : List Asked) (cfg : initConfig) :
    Option String × initConfig × List Asked :=
  let vmdKind := ini.AndroidEmulator
  match ini.GetVirtualDevices vmdKind with
  | (_, some err) => (some err, cfg, asked)
  | (virtualDevices, none) => askEmulator ini asked cfg virtualDevices

/-- Go `(ini *initiator) configure() (*initConfig, error)`; `asked` holds the
questions asked before the call, the result those asked up to the return. -/
def configure (ini : initiator) (asked : List Asked) :
    (initConfig × Option String) × List Asked :=
  let cfg : initConfig := {}
  match askFramework ini asked cfg with
  | (some err, _, asked) => (({}, some err), asked)
  | (none, cfg, asked) =>
  match ini.Versions cfg.frameworkName with
  | (_, some err) => (({}, some err), asked)
  | (frameworkMetadatas, none) =>
  match (if needsVersion cfg.frameworkName then askVersion ini asked cfg frameworkMetadatas
    else (none, cfg, asked)) with
  | (some err, _, asked) => (({}, some err), asked)
  | (none, cfg, asked) =>
  match (if needsCypressJson cfg.frameworkName then
      match askFile ini asked "Cypress configuration file:" cfg.frameworkName cfg.cypressJson with
      | (err, cypressJson, asked) => (err, { cfg with cypressJson := cypressJson }, asked)
    else (none, cfg, asked)) with
  | (some err, _, asked) => (({}, some err), asked)
  | (none, cfg, asked) =>
  match (if needsPlatform cfg.frameworkName then askPlatform ini asked cfg frameworkMetadatas
    else (none, cfg, asked)) with
  | (some err, _, asked) => (({}, some err), asked)
  | (none, cfg, asked) =>
  match (if needsApps cfg.frameworkName then configureApps ini asked cfg
    else (none, cfg, asked)) with
  | (some err, _, asked) => (({}, some err), asked)
  | (none, cfg, asked) =>
  match (if needsDevice cfg.frameworkName then configureDevice ini asked cfg
    else (none, cfg, asked)) with
  | (some err, _, asked) => (({}, some err), asked)
  | (none, cfg, asked) =>
  match (if needsEmulator cfg.frameworkName then configureEmulator ini asked cfg
    else (none, cfg, asked)) with
  | (some err, _, asked) => (({}, some err), asked)
  | (none, cfg, asked) =>
  match askDownloadWhen ini asked cfg with
  | (some err, _, asked) => (({}, some err), asked)
  | (none, cfg, asked) => ((cfg, none), asked)

/-- The message of a question. -/
def Prompt.message : Prompt → String
  | .Select m _ _ => m
  | .Input m _ => m

/-! ### A concrete `init` session, for the examples -/

/-- The answers of the examples, by the message of the question: the user picks
`framework`, then answers as in `TestConfigure`; a question with any other
message, such as one for the root project directory, gets the answer `.`. -/
def exampleAskOne (framework : String) : List Asked → Prompt → String → String × Option String
  | _, prompt, _ =>
    match prompt.message with
    | "Select framework:" => (framework, none)
    | "Select cypress version:" => ("7.5.0", none)
    | "Cypress configuration file:" => ("cypress.json", none)
    | "Select platform:" => ("windows 10", none)
    | "Select Browser:" => ("googlechrome", none)
    | "Application to test:" => ("android-app.apk", none)
    | "Test application:" => ("android-test-app.apk", none)
    | "Select device pattern:" => ("Google Pixel .*", none)
    | "Select emulator:" => ("Google Pixel Emulator", none)
    | "Download artifacts:" => ("when tests are passing", none)
    | _ => (".", none)

/-- The collaborators of the examples, with the frameworks and the metadata of
`TestConfigure`. -/
def exampleInitiator (framework : String) : initiator :=
  { Frameworks := ([⟨"cypress"⟩, ⟨"espresso"⟩], none)
    Versions := fun _ =>
      ([⟨"cypress", "7.5.0", "dummy-docker-image",
          [⟨"windows 10", ["googlechrome", "firefox", "microsoftedge"]⟩]⟩], none)
    GetVirtualDevices := fun _ => ([⟨"Google Pixel Emulator"⟩], none)
    AndroidEmulator := "android"
    AskOne := exampleAskOne framework
    ToLower := fun name => ⟨name.data.map Char.toLower⟩
    uniqSorted := fun names => names }

/-- The metadata of `TestAskPlatform`. -/
def exampleMetadatas : List framework.Metadata :=
  [⟨"testcafe", "1.5.0", "dummy-docker-image",
      [⟨"Windows 10", ["googlechrome", "firefox", "microsoftedge"]⟩,
        ⟨"macOS 11.00", ["safari", "googlechrome", "firefox", "microsoftedge"]⟩]⟩,
    ⟨"testcafe", "1.3.0", "",
      [⟨"Windows 10", ["googlechrome", "firefox", "microsoftedge"]⟩,
        ⟨"macOS 11.00", ["safari", "googlechrome", "firefox", "microsoftedge"]⟩]⟩]

end initcmd

/-! ## The ignore file (`internal/sauceignore/matcher.go`) -/

namespace gitignore

/-- The result of go-git `gitignore.ParsePattern(p, domain)`, held as its
arguments. -/
structure Pattern where
  pattern : String
  domain : List String
  deriving DecidableEq, Repr

/-- The result of go-git `gitignore.NewMatcher(ps)`, held as its argument. -/
structure Matcher where
  patterns : List Pattern
  deriving DecidableEq, Repr

end gitignore

namespace sauceignore

/-- Go `commentPrefix`. -/
def commentPrefix : String := "#"

/-- Go `sauceignore.Pattern`. -/
structure Pattern where
  P : String
  deriving DecidableEq, Repr

/-- Go `NewPattern`. -/
def NewPattern (p : String) : Pattern := { P := p }

/-- Go `unicode.IsSpace`, which `strings.TrimSpace` trims by. -/
def isSpace (c : Char) : Bool :=
  c.val = 0x09 || c.val = 0x0A || c.val = 0x0B || c.val = 0x0C || c.val = 0x0D || c.val = 0x20 ||
  c.val = 0x85 || c.val = 0xA0 || c.val = 0x1680 || (0x2000 ≤ c.val && c.val ≤ 0x200A) ||
  c.val = 0x2028 || c.val = 0x2029 || c.val = 0x202F || c.val = 0x205F || c.val = 0x3000

/-- Go `strings.TrimSpace`, on the characters of the string. -/
def TrimSpace (s : String) : String :=
  ⟨((s.data.dropWhile isSpace).reverse.dropWhile isSpace).reverse⟩

/-- Go `strings.HasPrefix`. -/
def HasPrefix (s pre : String) : Bool :=
  pre.data.isPrefixOf s.data

/-- What `matcher.go` takes from the operating system and the libraries. -/
structure Deps where
  /-- Go `filepath.Join` on one element. -/
  Join : String → String
  /-- Go `os.Open`: the content of the file and the error. -/
  Open : String → String × Option String
  /-- Go `os.IsNotExist`, on the error of `os.Open`. -/
  IsNotExist : String → Bool
  /-- The successive values of `scanner.Text()` of a `bufio.Scanner` on a file of
  the given content. -/
  Scan : String → List String

/-- The scanning loop of `patternsFromFile` over the lines not yet read, with the
patterns `ps` collected so far. -/
def patternsFromLines : List String → List Pattern → List Pattern
  | [], ps => ps
  | s :: rest, ps =>
    if !HasPrefix s commentPrefix && (TrimSpace s).length > 0 then
      patternsFromLines rest (ps ++ [NewPattern s])
    else
      patternsFromLines rest ps

/-- Go `patternsFromFile`. -/
def patternsFromFile (D : Deps) (path : String) : List Pattern × Option String :=
  let fPath := D.Join path
  match D.Open fPath with
  | (_, some err) =>
    if D.IsNotExist err then ([], none) else ([], some err)
  | (f, none) => (patternsFromLines (D.Scan f) [], none)

/-- Go `convPtrnsToGitignorePtrns`: `res[i]` is the parse of `pp[i].P` without a
domain. -/
def convPtrnsToGitignorePtrns (pp : List Pattern) : List gitignore.Pattern :=
  pp.map (fun p => { pattern := p.P, domain := [] })

/-- Go `sauceignore.matcher`. -/
structure matcher where
  matcher : gitignore.Matcher
  deriving DecidableEq, Repr

/-- Go `NewMatcher`. -/
def NewMatcher (ps : List Pattern) : matcher :=
  let gps := convPtrnsToGitignorePtrns ps
  { matcher := { patterns := gps } }

/-- Go `NewMatcherFromFile`; `none` is the nil `Matcher`. -/
def NewMatcherFromFile (D : Deps) (path : String) : Option matcher × Option String :=
  match patternsFromFile D path with
  | (_, some err) => (none, some err)
  | (ps, none) => (some (NewMatcher ps), none)

/-- A line scanner for the examples, after `bufio.ScanLines`: a line ends at a
line feed, loses one carriage return before it, and a last line without a line
feed counts when it is not empty. `cur` holds the current line, reversed. -/
def exampleScan : List Char → List Char → List String
  | [], cur => if cur = [] then [] else [⟨cur.reverse⟩]
  | c :: rest, cur =>
    if c = '\n' then
      (match cur with
        | '\r' :: line => (⟨line.reverse⟩ : String)
        | line => ⟨line.reverse⟩) :: exampleScan rest []
    else
      exampleScan rest (c :: cur)

/-- A file system for the examples: `.sauceignore` can be read, `locked` cannot
be opened, no other file exists. -/
def exampleDeps : Deps :=
  { Join := fun path => path
    Open := fun path =>
      if path = ".sauceignore" then ("# comment\nnode_modules/\n\n #kept\n", none)
      else if path = "locked" then ("", some "open locked: permission denied")
      else ("", some ("open " ++ path ++ ": no such file or directory"))
    IsNotExist := fun err => "no such file or directory".data.isSuffixOf err.data
    Scan := fun content => exampleScan content.data [] }

end sauceignore

/-! ## `runPlaywright`: command-line environment (`cli/command/run/playwright.go`) -/

/-- Go `m[k] = v` on a map held as the list of its entries. -/
def mapSet : List (String × String) → String → String → List (String × String)
  | [], k, v => [(k, v)]
  | (k', v') :: m, k, v => if k' = k then (k, v) :: m else (k', v') :: mapSet m k v

/-- The inner loop of the env merge of `runPlaywright`, for one entry `k, v` of
`gFlags.env`. The loop variable `s` is a copy of the suite, and a Go map is a
reference. When `s.Env` is nil, the fresh map is stored in the copy and the entry
is written to that map, which nothing refers to once the iteration ends: the
suite in `p.Suites` keeps its nil map. Otherwise the entry is written to the map
the suite in `p.Suites` refers to as well. Distinct suites are taken to hold
distinct maps. -/
def mergeEnvSuites (k v : String) : List playwright.Suite → List playwright.Suite
  | [] => []
  | s :: rest =>
    (match s.Env with
      | none => s
      | some m => { s with Env := some (mapSet m k v) }) :: mergeEnvSuites k v rest

/-- The env merge loop of `runPlaywright`; `env` is `gFlags.env`, by its entries. -/
def mergeEnv (env : List (String × String)) (p : playwright.Project) : playwright.Project :=
  env.foldl (fun p kv => { p with Suites := mergeEnvSuites kv.1 kv.2 p.Suites }) p

/-- A playwright project for the examples: the first suite has no `env` in its
configuration, the second sets `MODE` and `HOST`. -/
def examplePlaywrightProject : playwright.Project :=
  { ShowConsoleLog := false
    RunnerVersion := ""
    Sauce := ⟨"us-west-1", 1⟩
    Defaults := ⟨""⟩
    Suites := [⟨"chromium", "", none⟩, ⟨"firefox", "", some [("MODE", "ci"), ("HOST", "a")]⟩] }

/-! ## `runPlaywright` (`cli/command/run/playwright.go`) -/

/-- The first mode loop of `runPlaywright`: a suite without a mode gets the
default mode; `p.Suites[i] = s` writes every suite back. -/
def defaultModeLoop (defaultMode : String) : List playwright.Suite → List playwright.Suite
  | [] => []
  | s :: rest =>
    (if s.Mode = "" then { s with Mode := defaultMode } else s) :: defaultModeLoop defaultMode rest

/-- The second mode loop of `runPlaywright`, run when `gFlags.testEnv` is not
empty: every suite gets the mode of the flag. -/
def testEnvLoop (testEnv : String) : List playwright.Suite → List playwright.Suite
  | [] => []
  | s :: rest => { s with Mode := testEnv } :: testEnvLoop testEnv rest

/-- The mode defaulting steps of `runPlaywright`, from `if p.Defaults.Mode == ""`
to the end of the `gFlags.testEnv` block. -/
def defaultModes (testEnv : String) (p : playwright.Project) : playwright.Project :=
  let p := if p.Defaults.Mode = "" then { p with Defaults := { p.Defaults with Mode := "sauce" } } else p
  let p := { p with Suites := defaultModeLoop p.Defaults.Mode p.Suites }
  if testEnv ≠ "" then { p with Suites := testEnvLoop testEnv p.Suites } else p

/-- A backend `runPlaywright` handed a project to. -/
inductive Launched where
  | docker (p : playwright.Project)
  | sauce (p : playwright.Project)
  deriving DecidableEq, Repr

/-- What `runPlaywright` takes from outside the embedded sources: the package
variables it reads and the results of the collaborators it calls. -/
structure PlaywrightDeps where
  /-- Go `playwright.FromFile(gFlags.cfgFilePath)`. -/
  FromFile : playwright.Project × Option String
  /-- Go `applyDefaultValues(&p.Sauce)`. -/
  applyDefaultValues : config.SauceConfig → config.SauceConfig
  /-- Go `overrideCliParameters(cmd, &p.Sauce, &p.Artifacts)`, on `p.Sauce`. -/
  overrideCliParameters : config.SauceConfig → config.SauceConfig
  /-- Go `gFlags.env`, by its entries. -/
  env : List (String × String)
  /-- Go `gFlags.showConsoleLog`. -/
  showConsoleLog : Bool
  /-- Go `gFlags.runnerVersion`. -/
  runnerVersion : String
  /-- Go `cmd.Flags().Lookup("suite").Changed`. -/
  suiteChanged : Bool
  /-- Go `gFlags.suiteName`. -/
  suiteName : String
  /-- Go `gFlags.testEnv`. -/
  testEnv : String
  /-- Go `region.FromString(s) != region.None`. -/
  regionKnown : String → Bool
  /-- Go `playwright.SplitSuites(p)`: the docker part and the sauce part. -/
  SplitSuites : playwright.Project → playwright.Project × playwright.Project
  /-- The error of Go `docker.NewPlaywright(p, ...)`. -/
  NewPlaywright : playwright.Project → Option String
  /-- Go `RunProject()` of the docker runner built for a project. -/
  DockerRunProject : playwright.Project → Int × Option String
  /-- Go `RunProject()` of the `saucecloud.PlaywrightRunner` built for a project. -/
  SauceRunProject : playwright.Project → Int × Option String

/-- Go `runPlaywrightInDocker`. -/
def runPlaywrightInDocker (P : PlaywrightDeps) (p : playwright.Project) : Int × Option String :=
  match P.NewPlaywright p with
  | some err => (1, some err)
  | none => P.DockerRunProject p

/-- Go `runPlaywrightInSauce`. -/
def runPlaywrightInSauce (P : PlaywrightDeps) (p : playwright.Project) : Int × Option String :=
  P.SauceRunProject p

/-- The end of `runPlaywright`, from `playwright.SplitSuites(p)` on: the result
and the backends the project parts were handed to, in order. -/
def runSplitSuites (P : PlaywrightDeps) (p : playwright.Project) :
    (Int × Option String) × List Launched :=
  match P.SplitSuites p with
  | (dockerProject, sauceProject) =>
    match (if dockerProject.Suites.length ≠ 0 then
        match runPlaywrightInDocker P dockerProject with
        | (exitCode, err) =>
          if err ≠ none ∨ exitCode ≠ 0 then (some (exitCode, err), [Launched.docker dockerProject])
          else (none, [Launched.docker dockerProject])
      else (none, [])) with
    | (some result, launched) => (result, launched)
    | (none, launched) =>
      if sauceProject.Suites.length ≠ 0 then
        (runPlaywrightInSauce P sauceProject, launched ++ [Launched.sauce sauceProject])
      else
        ((0, none), launched)

/-- Go `runPlaywright`, with the backends the project parts were handed to. -/
def runPlaywright (P : PlaywrightDeps) : (Int × Option String) × List Launched :=
  match P.FromFile with
  | (_, some err) => ((1, some err), [])
  | (p, none) =>
    let p := { p with Sauce := P.overrideCliParameters (P.applyDefaultValues p.Sauce) }
    let p := mergeEnv P.env p
    let p := if P.showConsoleLog then { p with ShowConsoleLog := true } else p
    let p := if P.runnerVersion ≠ "" then { p with RunnerVersion := P.runnerVersion } else p
    match (if P.suiteChanged then filterPlaywrightSuite P.suiteName p else (none, p)) with
    | (some err, _) => ((1, some err), [])
    | (none, p) =>
      let p := defaultModes P.testEnv p
      if P.regionKnown p.Sauce.Region = false then
        ((1, some "no sauce region set"), [])
      else
        runSplitSuites P p

/-- Collaborators for the examples: the suites are split by their mode, the
docker runner returns `dockerResult` and the sauce runner `sauceResult`. -/
def examplePlaywrightDeps (dockerResult sauceResult : Int × Option String) : PlaywrightDeps :=
  { FromFile := (examplePlaywrightProject, none)
    applyDefaultValues := fun sauce => sauce
    overrideCliParameters := fun sauce => sauce
    env := []
    showConsoleLog := false
    runnerVersion := ""
    suiteChanged := false
    suiteName := ""
    testEnv := ""
    regionKnown := fun region => region = "us-west-1" || region = "eu-central-1"
    SplitSuites := fun p =>
      ({ p with Suites := p.Suites.filter (fun s => s.Mode = "docker") },
        { p with Suites := p.Suites.filter (fun s => s.Mode ≠ "docker") })
    NewPlaywright := fun _ => none
    DockerRunProject := fun _ => dockerResult
    SauceRunProject := fun _ => sauceResult }

/-- A playwright project with one docker suite and one sauce suite. -/
def exampleMixedProject : playwright.Project :=
  { ShowConsoleLog := false
    RunnerVersion := ""
    Sauce := ⟨"us-west-1", 1⟩
    Defaults := ⟨""⟩
    Suites := [⟨"local", "docker", none⟩, ⟨"cloud", "", none⟩] }

namespace initcmd

/-- Where an error returned by `configure` comes from: it is the error of
`askFramework` for an empty selection, the error of one of the readers, or the
error returned by one of the questions `evs` asked during the call. -/
def Origin (ini : initiator) (e : String) (evs : List Asked) : Prop :=
  e = "interrupting configuration" ∨ ini.Frameworks.2 = some e ∨
  (∃ f, (ini.Versions f).2 = some e) ∨ (∃ k, (ini.GetVirtualDevices k).2 = some e) ∨
  ∃ a ∈ evs, a.err = some e

/-- What a successful step of `configure` carries over from `cfg`, having asked
the questions `evs`: the framework name, no error from any question and, for a
native framework, the answers that only the other frameworks give. -/
def Carries (native : Bool) (cfg cfg2 : initConfig) (evs : List Asked) : Prop :=
  cfg2.frameworkName = cfg.frameworkName ∧
  (∀ a ∈ evs, a.err = none) ∧
  (native = true →
    cfg2.frameworkVersion = cfg.frameworkVersion ∧ cfg2.platformName = cfg.platformName ∧
    cfg2.browserName = cfg.browserName ∧ cfg2.mode = cfg.mode ∧
    cfg2.cypressJson = cfg.cypressJson)

end initcmd

namespace initcmd

/-- What every step of `configure` does, seen from outside: it asks the questions
`evs`; when it succeeds it carries the configuration over, and when it fails its
error has its origin in the step. -/
def StepSpec (native : Bool) (ini : initiator) (cfg : initConfig) (asked : List Asked)
    (step : Option String × initConfig × List Asked) : Prop :=
  ∃ evs, step.2.2 = asked ++ evs ∧
    (step.1 = none → Carries native cfg step.2.1 evs) ∧
    (∀ e, step.1 = some e → Origin ini e evs)

end initcmd

namespace initcmd

/-- All or nothing: what a result of `configure` satisfies, `asked` being the
questions asked before the call. The call asks the questions `evs`. With an
error, the configuration is empty and the error has its origin in the call.
Without one, no question returned an error, the framework name is the lower-cased
answer to the first question, which is not empty, the download policy is that of
the answer to the last question and, for a native framework, the answers that
only the other frameworks give are empty. -/
def ConfigureSpec (ini : initiator) (asked : List Asked)
    (res : (initConfig × Option String) × List Asked) : Prop :=
  ∃ evs, res.2 = asked ++ evs ∧
    (∀ e, res.1.2 = some e → res.1.1 = {} ∧ Origin ini e evs) ∧
    (res.1.2 = none →
      (∀ a ∈ evs, a.err = none) ∧
      (∃ first, evs.head? = some first ∧ first.answer ≠ "" ∧
        res.1.1.frameworkName = ini.ToLower first.answer) ∧
      (∃ last, evs.getLast? = some last ∧ res.1.1.artifactWhen = mapWhenAt last.answer) ∧
      (isNativeFramework res.1.1.frameworkName = true →
        res.1.1.frameworkVersion = "" ∧ res.1.1.platformName = "" ∧
        res.1.1.browserName = "" ∧ res.1.1.mode = "" ∧ res.1.1.cypressJson = ""))

end initcmd

namespace docker

/-- The kinds of call: the steps of `setup`, named in the order in which the
source performs them, the removal of the temporary directory, and `run`. -/
inductive Step where
  | dependencyCheck
  | imagePull
  | containerStart
  | projectDirLookup
  | tempDir
  | writeConfig
  | copyConfig
  | hooks
  | portForward
  | removeTempDir
  | run
  deriving DecidableEq, Repr

/-- The kind of a call. -/
def Call.step : Call → Step
  | .ValidateDependency => Step.dependencyCheck
  | .pullImage _ => Step.imagePull
  | .StartContainer _ _ => Step.containerStart
  | .ProjectDir _ => Step.projectDirLookup
  | .TempDir => Step.tempDir
  | .WriteFile _ _ => Step.writeConfig
  | .CopyToContainer _ _ _ => Step.copyConfig
  | .beforeExec _ => Step.hooks
  | .Execute _ _ => Step.portForward
  | .RemoveAll _ => Step.removeTempDir
  | .run _ _ => Step.run

/-- The steps of `setup`, in order. -/
def setupSteps : List Step :=
  [Step.dependencyCheck, Step.imagePull, Step.containerStart, Step.projectDirLookup, Step.tempDir,
    Step.writeConfig, Step.copyConfig, Step.hooks, Step.portForward]

/-- The steps among the events: the events other than the removal of the
temporary directory. -/
def stepsDone (evs : List Event) : List Event :=
  evs.filter (fun e => e.call.step != Step.removeTempDir)

end docker

/-! ## The cloud dispatcher (`internal/saucecloud`)

The runners of `internal/saucecloud` are outside the embedded sources, which
hold two of their test files. What follows is modelled from sections 3, 4.1
and 8 of the specification and from the fixtures of those tests. Counts are natural
numbers.
-/

namespace saucecloud

/-- Modelled from the spec: `calculateJobsCount` of the Espresso runner, as a
loop over the suites. The jobs of a suite are counted from its real devices, one
job each, by a loop over its emulators that adds their platform versions (one
job per emulator and platform version); a suite for which that count is zero
still takes one job, the baseline fan-out (sections 4.1, step 2, and 8). -/
def calculateJobsCount (suites : List espresso.Suite) : Nat :=
  suites.foldl
    (fun total s =>
      let jobs := s.Emulators.foldl (fun jobs e => jobs + e.PlatformVersions.length) s.Devices.length
      total + (if jobs = 0 then 1 else jobs))
    0

/-- Modelled from the spec: a job of an Espresso suite, on one target: an
emulator at one platform version, a real device, or no target for the job of
the baseline fan-out. -/
structure EspressoJob where
  Suite : String
  Target : String
  PlatformVersion : String
  deriving DecidableEq, Repr

/-- Modelled from the spec: the fan-out of one Espresso suite into jobs: one per
emulator and platform version, one per real device, and a single job without
target when there is neither. -/
def suiteJobs (s : espresso.Suite) : List EspressoJob :=
  let jobs :=
    s.Emulators.flatMap (fun e => e.PlatformVersions.map (fun v => ⟨s.Name, e.Name, v⟩))
      ++ s.Devices.map (fun d => ⟨s.Name, d.Name, d.PlatformVersion⟩)
  if jobs.isEmpty then [⟨s.Name, "", ""⟩] else jobs

/-- Modelled from the spec: the fan-out of the Espresso suites into jobs, in
source order (section 4.1, step 2). -/
def espressoJobs (suites : List espresso.Suite) : List EspressoJob :=
  suites.flatMap suiteJobs

/-- Modelled from the spec: the fan-out of the Playwright suites, which have no
device or platform dimension: one job per suite, named after it. -/
def playwrightJobs (suites : List playwright.Suite) : List String :=
  suites.map (fun s => s.Name)

/-- Modelled from the spec: the effective concurrency (section 4.1, step 1) for
the configured concurrency and the answer of the concurrency oracle, an allowed
count and an error: 1 when the oracle fails, else the lesser of the two. -/
def effectiveConcurrency (configured : Nat) (allowed : Nat × Option String) : Nat :=
  match allowed.2 with
  | some _ => 1
  | none => min configured allowed.1

/-- Modelled from the spec: the state of a batch: the pending queue in source
order, the jobs started and not yet terminal, and the terminal jobs with their
result in completion order. -/
structure Pool (J : Type) where
  pending : List J
  running : List J
  finished : List (J × Bool)
  deriving DecidableEq, Repr

/-- Modelled from the spec: what happens next in a batch: a worker pulls the next
pending job, or the running job at a position reaches a terminal state. -/
inductive Action where
  | start
  | finish (i : Nat) (passed : Bool)
  deriving DecidableEq, Repr

/-- Modelled from the spec: one action on a pool of `workers` workers. A job is
started only while fewer than `workers` jobs are running; `none` when the action
is not possible. -/
def Pool.step {J : Type} (workers : Nat) (p : Pool J) : Action → Option (Pool J)
  | .start =>
    match p.pending with
    | [] => none
    | j :: rest =>
      if p.running.length < workers then some ⟨rest, p.running ++ [j], p.finished⟩ else none
  | .finish i passed =>
    match p.running[i]? with
    | none => none
    | some j => some ⟨p.pending, p.running.eraseIdx i, p.finished ++ [(j, passed)]⟩

/-- Modelled from the spec: the pool after a schedule of actions; an action that
is not possible is passed over. -/
def Pool.run {J : Type} (workers : Nat) : Pool J → List Action → Pool J
  | p, [] => p
  | p, a :: schedule =>
    match p.step workers a with
    | some q => q.run workers schedule
    | none => p.run workers schedule

/-- Modelled from the spec: `runSuites` for the jobs of a batch. Without any
allowed concurrency it fails at once and starts nothing; else the workers run
the schedule, and the batch passes when every job ended and passed. -/
def runSuites {J : Type} (configured : Nat) (allowed : Nat × Option String) (jobs : List J)
    (schedule : List Action) : Bool × Pool J :=
  let workers := effectiveConcurrency configured allowed
  if workers = 0 then (false, ⟨jobs, [], []⟩)
  else
    let p := Pool.run workers ⟨jobs, [], []⟩ schedule
    (p.pending.isEmpty && p.running.isEmpty && p.finished.all (fun r => r.2), p)

/-- Modelled from the spec: `runSuites` of the Espresso runner. -/
def espressoRunSuites (p : espresso.Project) (allowed : Nat × Option String)
    (schedule : List Action) : Bool × Pool EspressoJob :=
  runSuites p.Sauce.Concurrency.toNat allowed (espressoJobs p.Suites) schedule

/-- Modelled from the spec: `runSuites` of the Playwright runner. -/
def playwrightRunSuites (p : playwright.Project) (allowed : Nat × Option String)
    (schedule : List Action) : Bool × Pool String :=
  runSuites p.Sauce.Concurrency.toNat allowed (playwrightJobs p.Suites) schedule

/-- Modelled from the spec: the suite of the fan-out scenario, with the shape of
the one in `TestEspressoRunner_CalculateJobCount`. -/
def exampleSuite : espresso.Suite :=
  { Name := "s1"
    Devices := []
    Emulators := [⟨"E1", "", ["11.0", "10.0"]⟩, ⟨"E2", "", ["11.0"]⟩]
    TestOptions := ⟨[], [], "", "", "", 0, 0⟩ }

end saucecloud

namespace initcmd

/-- The questions `evs`, asked after the questions `asked`, are recorded as
`survey.AskOne` answered them: each holds the answer and the error that `AskOne`
gave for its prompt and an empty target, after the questions before it. -/
def Recorded (ini : initiator) : List Asked → List Asked → Prop
  | _, [] => True
  | asked, a :: evs =>
    ini.AskOne asked a.prompt "" = (a.answer, a.err) ∧ Recorded ini (asked ++ [a]) evs

/-- What `configure` returns, as `res`, having asked the questions `evs`. The
questions are recorded as they were answered and none is asked after a failing
one. An error comes with the empty configuration and is the error of the step
that failed: of reading the frameworks, of an empty framework selection, of the
last question asked, of reading the versions, or of reading the virtual
devices. No error means that no step failed, and the configuration holds the
answers, question by question, and nothing else. -/
def ConfigureOutcome (ini : initiator) (asked : List Asked)
    (res : (initConfig × Option String) × List Asked) : Prop :=
  ∃ evs, res.2 = asked ++ evs ∧
    Recorded ini asked evs ∧
    (∀ a ∈ evs.dropLast, a.err = none) ∧
    (∀ e, res.1.2 = some e →
      res.1.1 = {} ∧
      ((ini.Frameworks.2 = some e ∧ evs = []) ∨
        (ini.Frameworks.2 = none ∧ e = "interrupting configuration" ∧
          ∃ first, evs = [first] ∧ first.answer = "") ∨
        (ini.Frameworks.2 = none ∧
          ∃ first last, evs.head? = some first ∧ first.answer ≠ "" ∧
            evs.getLast? = some last ∧ last.err = some e) ∨
        (ini.Frameworks.2 = none ∧
          ∃ first, evs = [first] ∧ first.answer ≠ "" ∧ first.err = none ∧
            (ini.Versions (ini.ToLower first.answer)).2 = some e) ∨
        (ini.Frameworks.2 = none ∧
          ∃ first, evs.head? = some first ∧ first.answer ≠ "" ∧
            needsEmulator (ini.ToLower first.answer) = true ∧
            (ini.Versions (ini.ToLower first.answer)).2 = none ∧
            (∀ a ∈ evs, a.err = none) ∧
            evs.map (fun a => a.prompt.message)
              = ["Select framework:", "Application to test:", "Test application:",
                  "Select device pattern:"] ∧
            (ini.GetVirtualDevices ini.AndroidEmulator).2 = some e))) ∧
    (res.1.2 = none →
      ini.Frameworks.2 = none ∧ (∀ a ∈ evs, a.err = none) ∧
      ∃ name policy, name ≠ "" ∧
        (ini.Versions (ini.ToLower name)).2 = none ∧
        (needsEmulator (ini.ToLower name) = true →
          (ini.GetVirtualDevices ini.AndroidEmulator).2 = none) ∧
        (isNativeFramework (ini.ToLower name) = false →
          ∃ version json platform browser,
            evs.map (fun a => (a.prompt.message, a.answer))
              = [("Select framework:", name),
                  ("Select " ++ ini.ToLower name ++ " version:", version)]
                ++ (if needsCypressJson (ini.ToLower name) = true then
                    [("Cypress configuration file:", json)] else [])
                ++ [("Select platform:", platform), ("Select Browser:", browser),
                    ("Download artifacts:", policy)] ∧
            res.1.1
              = { frameworkName := ini.ToLower name
                  frameworkVersion := version
                  cypressJson := if needsCypressJson (ini.ToLower name) = true then json else ""
                  platformName := if platform = "docker" then "" else platform
                  mode := if platform = "docker" then "docker" else "sauce"
                  browserName := browser
                  artifactWhen := mapWhenAt policy }) ∧
        (isNativeFramework (ini.ToLower name) = true →
          ∃ app testApp device emulator,
            evs.map (fun a => (a.prompt.message, a.answer))
              = [("Select framework:", name), ("Application to test:", app),
                  ("Test application:", testApp), ("Select device pattern:", device)]
                ++ (if needsEmulator (ini.ToLower name) = true then
                    [("Select emulator:", emulator)] else [])
                ++ [("Download artifacts:", policy)] ∧
            res.1.1
              = { frameworkName := ini.ToLower name
                  app := app
                  testApp := testApp
                  device := ⟨"", device, "", ""⟩
                  emulator :=
                    ⟨if needsEmulator (ini.ToLower name) = true then emulator else "", "", []⟩
                  artifactWhen := mapWhenAt policy } ∧
            res.1.1.frameworkVersion = "" ∧ res.1.1.platformName = "" ∧
            res.1.1.browserName = "" ∧ res.1.1.mode = "" ∧ res.1.1.cypressJson = ""))

end initcmd

/-! ## Properties of the `--suite` filter -/

/-- A list with an element satisfying `p` splits at the first such element. -/
theorem exists_first_split {α : Type} (p : α → Prop) [DecidablePred p] :
    ∀ l : List α, (∃ x ∈ l, p x) →
      ∃ pre s post, l = pre ++ s :: post ∧ (∀ t ∈ pre, ¬ p t) ∧ p s
  | [], h => by
    obtain ⟨x, hx, _⟩ := h
    cases hx
  | a :: l, h => by
    by_cases ha : p a
    · exact ⟨[], a, l, rfl, by simp, ha⟩
    · have hl : ∃ x ∈ l, p x := by
        obtain ⟨x, hx, hpx⟩ := h
        rcases List.mem_cons.mp hx with rfl | hx
        · exact absurd hpx ha
        · exact ⟨x, hx, hpx⟩
      obtain ⟨pre, s, post, hsplit, hpre, hs⟩ := exists_first_split p l hl
      refine ⟨a :: pre, s, post, by simp [hsplit], ?_, hs⟩
      intro t ht
      rcases List.mem_cons.mp ht with rfl | ht
      · exact ha
      · exact hpre t ht

/-- The espresso loop finds nothing among suites of other names. -/
theorem filterEspressoSuiteLoop_no_match (suiteName : String) (c : espresso.Project) :
    ∀ l : List espresso.Suite, (∀ s ∈ l, s.Name ≠ suiteName) →
      filterEspressoSuiteLoop suiteName c l = (some (invalidSuiteName suiteName), c)
  | [], _ => rfl
  | a :: l, h => by
    have ha : a.Name ≠ suiteName := h a (List.mem_cons_self a l)
    have hl : ∀ s ∈ l, s.Name ≠ suiteName := fun s hs => h s (List.mem_cons_of_mem a hs)
    simp [filterEspressoSuiteLoop, ha, filterEspressoSuiteLoop_no_match suiteName c l hl]

/-- The espresso loop stops at the first suite of the requested name. -/
theorem filterEspressoSuiteLoop_first (suiteName : String) (c : espresso.Project)
    (s : espresso.Suite) (post : List espresso.Suite) (hs : s.Name = suiteName) :
    ∀ pre : List espresso.Suite, (∀ t ∈ pre, t.Name ≠ suiteName) →
      filterEspressoSuiteLoop suiteName c (pre ++ s :: post) = (none, { c with Suites := [s] })
  | [], _ => by simp [filterEspressoSuiteLoop, hs]
  | a :: pre, h => by
    have ha : a.Name ≠ suiteName := h a (List.mem_cons_self a pre)
    have hl : ∀ t ∈ pre, t.Name ≠ suiteName := fun t ht => h t (List.mem_cons_of_mem a ht)
    simp [filterEspressoSuiteLoop, ha, filterEspressoSuiteLoop_first suiteName c s post hs pre hl]

/-- The playwright loop finds nothing among suites of other names. -/
theorem filterPlaywrightSuiteLoop_no_match (suiteName : String) (c : playwright.Project) :
    ∀ l : List playwright.Suite, (∀ s ∈ l, s.Name ≠ suiteName) →
      filterPlaywrightSuiteLoop suiteName c l = (some (invalidSuiteName suiteName), c)
  | [], _ => rfl
  | a :: l, h => by
    have ha : a.Name ≠ suiteName := h a (List.mem_cons_self a l)
    have hl : ∀ s ∈ l, s.Name ≠ suiteName := fun s hs => h s (List.mem_cons_of_mem a hs)
    simp [filterPlaywrightSuiteLoop, ha, filterPlaywrightSuiteLoop_no_match suiteName c l hl]

/-- The playwright loop stops at the first suite of the requested name. -/
theorem filterPlaywrightSuiteLoop_first (suiteName : String) (c : playwright.Project)
    (s : playwright.Suite) (post : List playwright.Suite) (hs : s.Name = suiteName) :
    ∀ pre : List playwright.Suite, (∀ t ∈ pre, t.Name ≠ suiteName) →
      filterPlaywrightSuiteLoop suiteName c (pre ++ s :: post) = (none, { c with Suites := [s] })
  | [], _ => by simp [filterPlaywrightSuiteLoop, hs]
  | a :: pre, h => by
    have ha : a.Name ≠ suiteName := h a (List.mem_cons_self a pre)
    have hl : ∀ t ∈ pre, t.Name ≠ suiteName := fun t ht => h t (List.mem_cons_of_mem a ht)
    simp [filterPlaywrightSuiteLoop, ha, filterPlaywrightSuiteLoop_first suiteName c s post hs pre hl]

/-- In a list whose names are pairwise distinct, the element at a split point is
the only one of its name. -/
theorem unique_of_nodup_names {α : Type} (name : α → String) (pre post : List α) (s : α)
    (hnodup : ((pre ++ s :: post).map name).Nodup) :
    ∀ t ∈ pre ++ s :: post, name t = name s → t = s := by
  intro t ht hname
  have hinj := List.inj_on_of_nodup_map hnodup
  exact hinj ht (by simp) hname

/-- C1: `filterEspressoSuite` and `filterPlaywrightSuite` return an error if and
only if no suite of the project has the requested name; the error then reads
`suite name '<requested name>' is invalid` and the project, its suite list
included, is as it was. -/
theorem filterSuite_error_iff_no_match (suiteName : String) (ce : espresso.Project)
    (cp : playwright.Project) :
    (((filterEspressoSuite suiteName ce).1 ≠ none ↔ ∀ s ∈ ce.Suites, s.Name ≠ suiteName) ∧
      ((filterEspressoSuite suiteName ce).1 ≠ none →
        filterEspressoSuite suiteName ce
          = (some ("suite name '" ++ suiteName ++ "' is invalid"), ce))) ∧
    (((filterPlaywrightSuite suiteName cp).1 ≠ none ↔ ∀ s ∈ cp.Suites, s.Name ≠ suiteName) ∧
      ((filterPlaywrightSuite suiteName cp).1 ≠ none →
        filterPlaywrightSuite suiteName cp
          = (some ("suite name '" ++ suiteName ++ "' is invalid"), cp))) := by
  have he : (filterEspressoSuite suiteName ce).1 ≠ none ↔ ∀ s ∈ ce.Suites, s.Name ≠ suiteName := by
    constructor
    · intro herr
      by_contra hex
      push_neg at hex
      obtain ⟨pre, s, post, hsplit, hpre, hs⟩ :=
        exists_first_split (fun s : espresso.Suite => s.Name = suiteName) ce.Suites hex
      apply herr
      simp [filterEspressoSuite, hsplit, filterEspressoSuiteLoop_first suiteName ce s post hs pre hpre]
    · intro hno
      simp [filterEspressoSuite, filterEspressoSuiteLoop_no_match suiteName ce ce.Suites hno]
  have hp : (filterPlaywrightSuite suiteName cp).1 ≠ none ↔ ∀ s ∈ cp.Suites, s.Name ≠ suiteName := by
    constructor
    · intro herr
      by_contra hex
      push_neg at hex
      obtain ⟨pre, s, post, hsplit, hpre, hs⟩ :=
        exists_first_split (fun s : playwright.Suite => s.Name = suiteName) cp.Suites hex
      apply herr
      simp [filterPlaywrightSuite, hsplit,
        filterPlaywrightSuiteLoop_first suiteName cp s post hs pre hpre]
    · intro hno
      simp [filterPlaywrightSuite, filterPlaywrightSuiteLoop_no_match suiteName cp cp.Suites hno]
  refine ⟨⟨he, fun herr => ?_⟩, ⟨hp, fun herr => ?_⟩⟩
  · simpa [filterEspressoSuite, invalidSuiteName] using
      filterEspressoSuiteLoop_no_match suiteName ce ce.Suites (he.mp herr)
  · simpa [filterPlaywrightSuite, invalidSuiteName] using
      filterPlaywrightSuiteLoop_no_match suiteName cp cp.Suites (hp.mp herr)

/-- C2: when at least one suite has the requested name, `filterEspressoSuite`
(and likewise `filterPlaywrightSuite`) returns nil and the suite list becomes the
one-element list holding the first suite, in source order, of that name, the
suite itself being as it was and the rest of the project untouched; when the
suite names are pairwise distinct it is the only suite of that name. -/
theorem filterSuite_keeps_first_match (suiteName : String) (ce : espresso.Project)
    (cp : playwright.Project) :
    ((∃ s ∈ ce.Suites, s.Name = suiteName) →
      ∃ pre s post, ce.Suites = pre ++ s :: post ∧ (∀ t ∈ pre, t.Name ≠ suiteName) ∧
        s.Name = suiteName ∧
        filterEspressoSuite suiteName ce = (none, { ce with Suites := [s] }) ∧
        ((ce.Suites.map (fun t => t.Name)).Nodup →
          ∀ t ∈ ce.Suites, t.Name = suiteName → t = s)) ∧
    ((∃ s ∈ cp.Suites, s.Name = suiteName) →
      ∃ pre s post, cp.Suites = pre ++ s :: post ∧ (∀ t ∈ pre, t.Name ≠ suiteName) ∧
        s.Name = suiteName ∧
        filterPlaywrightSuite suiteName cp = (none, { cp with Suites := [s] }) ∧
        ((cp.Suites.map (fun t => t.Name)).Nodup →
          ∀ t ∈ cp.Suites, t.Name = suiteName → t = s)) := by
  constructor
  · intro hex
    obtain ⟨pre, s, post, hsplit, hpre, hs⟩ :=
      exists_first_split (fun s : espresso.Suite => s.Name = suiteName) ce.Suites hex
    refine ⟨pre, s, post, hsplit, hpre, hs, ?_, ?_⟩
    · simp only [filterEspressoSuite]
      rw [hsplit]
      exact filterEspressoSuiteLoop_first suiteName ce s post hs pre hpre
    · intro hnodup t ht hname
      rw [hsplit] at hnodup ht
      exact unique_of_nodup_names (fun t => t.Name) pre post s hnodup t ht (hname.trans hs.symm)
  · intro hex
    obtain ⟨pre, s, post, hsplit, hpre, hs⟩ :=
      exists_first_split (fun s : playwright.Suite => s.Name = suiteName) cp.Suites hex
    refine ⟨pre, s, post, hsplit, hpre, hs, ?_, ?_⟩
    · simp only [filterPlaywrightSuite]
      rw [hsplit]
      exact filterPlaywrightSuiteLoop_first suiteName cp s post hs pre hpre
    · intro hnodup t ht hname
      rw [hsplit] at hnodup ht
      exact unique_of_nodup_names (fun t => t.Name) pre post s hnodup t ht (hname.trans hs.symm)

/-! ## Properties of `defineDockerImage` -/

namespace docker

/-- C3: explicit image and tag win. With a non-empty image name and a non-empty
tag, `defineDockerImage` returns nil and leaves the runner, and so the image
name, the tag and every other field of the project, as it was, whatever the
Cypress version and the default image are. -/
theorem defineDockerImage_explicit (DefaultDockerImage : String) (r : CypressRunner)
    (hname : r.Project.Docker.Image.Name ≠ "") (htag : r.Project.Docker.Image.Tag ≠ "") :
    defineDockerImage DefaultDockerImage r = (none, r) := by
  simp [defineDockerImage, hname, htag]

/-- C4: derived image. With a non-empty Cypress version, and an image name that
is empty, or is the default image with an empty tag, `defineDockerImage` returns
nil and leaves the image name equal to the default image and the tag equal to
`v` followed by the Cypress version; nothing else of the runner changes. -/
theorem defineDockerImage_derived (DefaultDockerImage : String) (r : CypressRunner)
    (hversion : r.Project.Cypress.Version ≠ "")
    (himage : r.Project.Docker.Image.Name = "" ∨
      (r.Project.Docker.Image.Name = DefaultDockerImage ∧ r.Project.Docker.Image.Tag = "")) :
    (defineDockerImage DefaultDockerImage r).1 = none ∧
    (defineDockerImage DefaultDockerImage r).2.Project.Docker.Image.Name = DefaultDockerImage ∧
    (defineDockerImage DefaultDockerImage r).2.Project.Docker.Image.Tag
      = "v" ++ r.Project.Cypress.Version ∧
    (defineDockerImage DefaultDockerImage r).2
      = setImageTag (setImageName r DefaultDockerImage) ("v" ++ r.Project.Cypress.Version) := by
  obtain ⟨⟨sauce, cy, suites, hooks, ⟨⟨name, tag⟩⟩⟩, cid, cc, evs⟩ := r
  simp only at hversion himage
  rcases himage with hname | ⟨hname, htag⟩
  · subst hname
    by_cases hd : DefaultDockerImage = ""
    · subst hd
      by_cases ht : tag = "" <;>
        simp [defineDockerImage, hversion, ht, setImageTag, setImageName]
    · have hd2 : ¬ ("" = DefaultDockerImage) := fun h => hd h.symm
      simp [defineDockerImage, hversion, hd2, setImageTag, setImageName]
  · subst hname htag
    by_cases hd : name = ""
    · subst hd
      simp [defineDockerImage, hversion, setImageTag, setImageName]
    · simp [defineDockerImage, hversion, hd, setImageTag, setImageName]

/-- C5: `defineDockerImage` returns an error if and only if the Cypress version is
empty and the image name or the image tag is empty; whenever it returns an error
the runner, and so the project, is as it was. -/
theorem defineDockerImage_error_iff (DefaultDockerImage : String) (r : CypressRunner) :
    ((defineDockerImage DefaultDockerImage r).1 ≠ none ↔
      (r.Project.Cypress.Version = "" ∧
        (r.Project.Docker.Image.Name = "" ∨ r.Project.Docker.Image.Tag = ""))) ∧
    ((defineDockerImage DefaultDockerImage r).1 ≠ none →
      (defineDockerImage DefaultDockerImage r).2 = r) := by
  by_cases hset : r.Project.Docker.Image.Name ≠ "" ∧ r.Project.Docker.Image.Tag ≠ ""
  · obtain ⟨hname, htag⟩ := hset
    simp [defineDockerImage, hname, htag]
  · have hor : r.Project.Docker.Image.Name = "" ∨ r.Project.Docker.Image.Tag = "" := by
      by_contra h
      push_neg at h
      exact hset h
    by_cases hversion : r.Project.Cypress.Version = ""
    · simp [defineDockerImage, hset, hversion, hor]
    · simp [defineDockerImage, hset, hversion]

end docker

/-! ## Properties of `RunProject` and `setup` -/

namespace docker

/-- Nothing happened. -/
theorem QuietStep.refl (r : CypressRunner) : QuietStep r r :=
  ⟨[], by simp, by simp, rfl⟩

/-- Quiet steps compose. -/
theorem QuietStep.trans {r1 r2 r3 : CypressRunner} (h12 : QuietStep r1 r2)
    (h23 : QuietStep r2 r3) : QuietStep r1 r3 := by
  obtain ⟨evs, he, hq, hp⟩ := h12
  obtain ⟨evs2, he2, hq2, hp2⟩ := h23
  refine ⟨evs ++ evs2, by rw [he2, he, List.append_assoc], ?_, hp2.trans hp⟩
  intro e he
  rcases List.mem_append.mp he with h | h
  · exact hq e h
  · exact hq2 e h

/-- A call other than `run` is a quiet step. -/
theorem QuietStep.call {D : Deps} {r r2 : CypressRunner} {c : Call} (h : QuietStep r r2)
    (hc : ∀ reply, isRun ⟨c, reply⟩ = false) : QuietStep r (call D r2 c).2 :=
  h.trans ⟨[_], rfl, by simpa using hc _, rfl⟩

/-- Assigning `r.containerID` is a quiet step. -/
theorem QuietStep.setContainerID {r r2 : CypressRunner} (h : QuietStep r r2) (id : String) :
    QuietStep r
      { Project := r2.Project, containerID := id, containerConfig := r2.containerConfig,
        events := r2.events } :=
  h.trans ⟨[], by simp, by simp, rfl⟩

/-- Assigning `r.containerConfig` is a quiet step. -/
theorem QuietStep.setContainerConfig {r r2 : CypressRunner} (h : QuietStep r r2)
    (cfg : containerConfig) :
    QuietStep r
      { Project := r2.Project, containerID := r2.containerID, containerConfig := cfg,
        events := r2.events } :=
  h.trans ⟨[], by simp, by simp, rfl⟩

/-- The second half of `setup` makes no `run` call and keeps the project. -/
theorem QuietStep.setupInTmpDir {D : Deps} {r r2 : CypressRunner} (h : QuietStep r r2)
    (pDir tmpDir : String) : QuietStep r (setupInTmpDir D r2 pDir tmpDir).2 := by
  unfold docker.setupInTmpDir
  dsimp only
  repeat' split
  all_goals
    dsimp only
    repeat first
      | exact h
      | refine QuietStep.call ?_ (fun _ => rfl)
      | refine QuietStep.setContainerConfig ?_ _

/-- The function `setup` makes no `run` call and keeps the project. -/
theorem setup_quiet (D : Deps) (r : CypressRunner) : QuietStep r (setup D r).2 := by
  unfold setup
  dsimp only
  repeat' split
  all_goals
    dsimp only
    repeat first
      | exact QuietStep.refl r
      | refine QuietStep.setupInTmpDir ?_ _ _
      | refine QuietStep.setContainerID ?_ _
      | refine QuietStep.call ?_ (fun _ => rfl)

/-- A failed run is a run. -/
theorem isRun_of_isFailedRun {e : Event} (h : isFailedRun e = true) : isRun e = true := by
  obtain ⟨c, v, err⟩ := e
  cases c <;> cases err <;> simp_all [isFailedRun, isRun]

/-- Only a run has a suite. -/
theorem isRun_of_ranSuite {e : Event} {x : String × Option (List (String × String))}
    (h : ranSuite e = some x) : isRun e = true := by
  obtain ⟨c, reply⟩ := e
  cases c <;> simp_all [ranSuite, isRun]

/-- Events without a `run` contribute nothing to the readings of a trace. -/
theorem quiet_events {evs : List Event} (h : ∀ e ∈ evs, isRun e = false) :
    evs.filter isFailedRun = [] ∧ evs.filterMap ranSuite = [] ∧ evs.filter isRun = [] := by
  refine ⟨?_, ?_, ?_⟩
  · rw [List.filter_eq_nil_iff]
    intro e he hf
    have := isRun_of_isFailedRun hf
    rw [h e he] at this
    cases this
  · rw [List.filterMap_eq_nil_iff]
    intro e he
    cases hx : ranSuite e with
    | none => rfl
    | some x =>
      have := isRun_of_ranSuite hx
      rw [h e he] at this
      cases this
  · rw [List.filter_eq_nil_iff]
    intro e he hf
    rw [h e he] at hf
    cases hf

/-- What the loop of `RunProject` does when every setup succeeds. -/
theorem runSuitesLoop_spec (D : Deps) :
    ∀ (suites : List cypress.Suite) (r : CypressRunner) (k : Int),
      setupsSucceed D suites r = true →
      ∃ evs, (runSuitesLoop D suites r k).2.events = r.events ++ evs ∧
        (runSuitesLoop D suites r k).1 = (k + ((evs.filter isFailedRun).length : Int), none) ∧
        evs.filterMap ranSuite = suites.map (fun s => (s.Name, s.Config.Env)) ∧
        (evs.filter isRun).length = suites.length ∧
        (runSuitesLoop D suites r k).2.Project = r.Project
  | [], r, k, _ => ⟨[], by simp [runSuitesLoop]⟩
  | suite :: rest, r, k, h => by
    have hq := setup_quiet D r
    rcases hs : setup D r with ⟨err, r1⟩
    rw [hs] at hq
    simp only [setupsSucceed, hs] at h
    cases err with
    | some e => simp at h
    | none =>
      simp only at h
      obtain ⟨evs1, hev1, hquiet, hproj1⟩ := hq
      simp only at hev1 hproj1
      obtain ⟨hq1, hq2, hq3⟩ := quiet_events hquiet
      rcases hc : call D r1 (.run (testCommand r1 suite) suite.Config.Env) with ⟨ran, r2⟩
      have hr2 : r2.events = r1.events ++ [⟨.run (testCommand r1 suite) suite.Config.Env, ran⟩] ∧
          r2.Project = r1.Project := by
        simp only [call, Prod.mk.injEq] at hc
        obtain ⟨rfl, rfl⟩ := hc
        exact ⟨rfl, rfl⟩
      obtain ⟨hev2, hproj2⟩ := hr2
      rw [hc] at h
      simp only at h
      simp only [runSuitesLoop, hs, hc]
      obtain ⟨v, err⟩ := ran
      cases err with
      | none =>
        obtain ⟨evs3, hev3, hres, hnames, hlen, hproj⟩ := runSuitesLoop_spec D rest r2 k h
        refine ⟨evs1 ++ [⟨.run (testCommand r1 suite) suite.Config.Env, ⟨v, none⟩⟩] ++ evs3,
          ?_, ?_, ?_, ?_, ?_⟩
        · simp [hev3, hev2, hev1]
        · simp [hres, List.filter_append, hq1, isFailedRun]
        · simp [List.filterMap_append, hq2, hnames, ranSuite, testCommand]
        · simp [List.filter_append, hq3, hlen, isRun]
        · simp [hproj, hproj2, hproj1]
      | some e =>
        obtain ⟨evs3, hev3, hres, hnames, hlen, hproj⟩ := runSuitesLoop_spec D rest r2 (k + 1) h
        refine ⟨evs1 ++ [⟨.run (testCommand r1 suite) suite.Config.Env, ⟨v, some e⟩⟩] ++ evs3,
          ?_, ?_, ?_, ?_, ?_⟩
        · simp [hev3, hev2, hev1]
        · simp [hres, List.filter_append, hq1, isFailedRun]
          ring
        · simp [List.filterMap_append, hq2, hnames, ranSuite, testCommand]
        · simp [List.filter_append, hq3, hlen, isRun]
        · simp [hproj, hproj2, hproj1]


/-- The loop over `pre ++ rest` is the loop over `rest` from where the loop over
`pre` ends, when every setup of `pre` succeeds. -/
theorem runSuitesLoop_append (D : Deps) (rest : List cypress.Suite) :
    ∀ (pre : List cypress.Suite) (r : CypressRunner) (k : Int),
      setupsSucceed D pre r = true →
      runSuitesLoop D (pre ++ rest) r k
        = runSuitesLoop D rest (runSuitesLoop D pre r k).2 (runSuitesLoop D pre r k).1.1
  | [], r, k, _ => by simp [runSuitesLoop]
  | suite :: pre, r, k, h => by
    rcases hs : setup D r with ⟨err, r1⟩
    simp only [setupsSucceed, hs] at h
    cases err with
    | some e => simp at h
    | none =>
      simp only at h
      simp only [List.cons_append, runSuitesLoop, hs]
      cases (call D r1 (.run (testCommand r1 suite) suite.Config.Env)).1.err with
      | none => exact runSuitesLoop_append D rest pre _ k h
      | some e => exact runSuitesLoop_append D rest pre _ (k + 1) h

/-- When `defineDockerImage` returns an error the runner is as it was. -/
theorem defineDockerImage_error_unchanged (DefaultDockerImage : String) (r : CypressRunner) :
    (defineDockerImage DefaultDockerImage r).1 ≠ none →
      (defineDockerImage DefaultDockerImage r).2 = r := by
  unfold defineDockerImage
  dsimp only
  repeat' split
  all_goals simp

/-- The function `defineDockerImage` makes no call and keeps the suites. -/
theorem defineDockerImage_frame (DefaultDockerImage : String) (r : CypressRunner) :
    (defineDockerImage DefaultDockerImage r).2.events = r.events ∧
    (defineDockerImage DefaultDockerImage r).2.Project.Suites = r.Project.Suites := by
  unfold defineDockerImage
  dsimp only
  repeat' split
  all_goals simp [setImageTag, setImageName]

end docker

namespace docker

/-- A tag derived from a version is not empty. -/
theorem derived_tag_ne_empty (version : String) : "v" ++ version ≠ "" := by
  intro h
  have hlen := congrArg String.length h
  simp only [String.length_append] at hlen
  have hv : "v".length = 1 := by decide
  have he : "".length = 0 := by decide
  omega

/-- C3, at a concrete input: a custom image `my/image:1.2.3` is kept, here with
an empty Cypress version. -/
theorem defineDockerImage_explicit_witness :
    defineDockerImage "saucelabs/stt-cypress-mocha-node" (freshRunner ⟨"my/image", "1.2.3"⟩ "" [])
      = (none, freshRunner ⟨"my/image", "1.2.3"⟩ "" []) :=
  defineDockerImage_explicit "saucelabs/stt-cypress-mocha-node"
    (freshRunner ⟨"my/image", "1.2.3"⟩ "" []) (by decide) (by decide)

/-- C4, at a concrete input: no image configured and Cypress `5.6.0` give the
default image with tag `v5.6.0`. -/
theorem defineDockerImage_derived_witness :
    (defineDockerImage "saucelabs/stt-cypress-mocha-node" (freshRunner ⟨"", ""⟩ "5.6.0" [])).1 = none ∧
    (defineDockerImage "saucelabs/stt-cypress-mocha-node"
      (freshRunner ⟨"", ""⟩ "5.6.0" [])).2.Project.Docker.Image
      = ⟨"saucelabs/stt-cypress-mocha-node", "v5.6.0"⟩ := by
  have h := defineDockerImage_derived "saucelabs/stt-cypress-mocha-node"
    (freshRunner ⟨"", ""⟩ "5.6.0" []) (by decide) (Or.inl rfl)
  exact ⟨h.1, by decide⟩

/-- C6 as stated fails: for a custom image name without a tag and Cypress
`5.6.0`, `defineDockerImage` returns nil and the tag is still empty. -/
theorem defineDockerImage_unresolved_tag :
    (defineDockerImage "saucelabs/stt-cypress-mocha-node"
      (freshRunner ⟨"my/image", ""⟩ "5.6.0" [])).1 = none ∧
    (defineDockerImage "saucelabs/stt-cypress-mocha-node"
      (freshRunner ⟨"my/image", ""⟩ "5.6.0" [])).2.Project.Docker.Image = ⟨"my/image", ""⟩ := by
  decide

/-- C6, amended: with a non-empty default image, `defineDockerImage` either
returns an error or leaves a non-empty image name, and a non-empty tag unless the
configured image is a name other than the default one with an empty tag, which is
left as configured. -/
theorem defineDockerImage_resolved (DefaultDockerImage : String) (r : CypressRunner)
    (hdefault : DefaultDockerImage ≠ "") :
    (defineDockerImage DefaultDockerImage r).1 ≠ none ∨
    ((defineDockerImage DefaultDockerImage r).2.Project.Docker.Image.Name ≠ "" ∧
      ((defineDockerImage DefaultDockerImage r).2.Project.Docker.Image.Tag ≠ "" ∨
        ((defineDockerImage DefaultDockerImage r).2 = r ∧
          r.Project.Docker.Image.Name ≠ DefaultDockerImage ∧
          r.Project.Docker.Image.Tag = ""))) := by
  obtain ⟨⟨sauce, cy, suites, hooks, ⟨⟨name, tag⟩⟩⟩, cid, cc, evs⟩ := r
  have hv := derived_tag_ne_empty cy.Version
  by_cases hversion : cy.Version = ""
  · by_cases hname : name = "" <;> by_cases htag : tag = "" <;>
      simp [defineDockerImage, hversion, hname, htag]
  · by_cases hname : name = ""
    · subst hname
      have hd2 : ¬ ("" = DefaultDockerImage) := fun h => hdefault h.symm
      simp [defineDockerImage, hversion, hd2, hdefault, hv, setImageTag, setImageName]
    · by_cases htag : tag = ""
      · subst htag
        by_cases hd : name = DefaultDockerImage
        · simp [defineDockerImage, hversion, hname, hd, hdefault, hv, setImageTag, setImageName]
        · simp [defineDockerImage, hversion, hname, hd, setImageTag, setImageName]
      · simp [defineDockerImage, hversion, hname, htag]

/-- C6 amended, at a concrete input: the default image without a tag gets the
tag `v5.6.0`. -/
theorem defineDockerImage_resolved_witness :
    (defineDockerImage "saucelabs/stt-cypress-mocha-node"
      (freshRunner ⟨"saucelabs/stt-cypress-mocha-node", ""⟩ "5.6.0" [])).2.Project.Docker.Image
      = ⟨"saucelabs/stt-cypress-mocha-node", "v5.6.0"⟩ ∧
    ((defineDockerImage "saucelabs/stt-cypress-mocha-node"
        (freshRunner ⟨"saucelabs/stt-cypress-mocha-node", ""⟩ "5.6.0" [])).1 ≠ none ∨
      ((defineDockerImage "saucelabs/stt-cypress-mocha-node"
          (freshRunner ⟨"saucelabs/stt-cypress-mocha-node", ""⟩ "5.6.0" [])).2.Project.Docker.Image.Name
          ≠ "" ∧
        ((defineDockerImage "saucelabs/stt-cypress-mocha-node"
            (freshRunner ⟨"saucelabs/stt-cypress-mocha-node", ""⟩ "5.6.0" [])).2.Project.Docker.Image.Tag
            ≠ "" ∨
          ((defineDockerImage "saucelabs/stt-cypress-mocha-node"
              (freshRunner ⟨"saucelabs/stt-cypress-mocha-node", ""⟩ "5.6.0" [])).2
              = freshRunner ⟨"saucelabs/stt-cypress-mocha-node", ""⟩ "5.6.0" [] ∧
            (freshRunner ⟨"saucelabs/stt-cypress-mocha-node", ""⟩ "5.6.0" []).Project.Docker.Image.Name
              ≠ "saucelabs/stt-cypress-mocha-node" ∧
            (freshRunner ⟨"saucelabs/stt-cypress-mocha-node", ""⟩ "5.6.0" []).Project.Docker.Image.Tag
              = "")))) :=
  ⟨by decide, defineDockerImage_resolved "saucelabs/stt-cypress-mocha-node"
    (freshRunner ⟨"saucelabs/stt-cypress-mocha-node", ""⟩ "5.6.0" []) (by decide)⟩

end docker

namespace docker

/-- C7: container backend failure count. If the image resolves and the setup of
every suite succeeds, `RunProject` returns `(n, nil)`; the calls it made hold one
`run` per suite of the project, in source order, each with the name and the
environment of its suite; `n` is the number of these runs that returned an error,
so a failing suite does not stop the later ones, and `0 ≤ n ≤` the number of
suites. -/
theorem RunProject_counts_failed_runs (D : Deps) (r : CypressRunner)
    (himage : (defineDockerImage D.DefaultDockerImage r).1 = none)
    (hsetup : setupsSucceed D r.Project.Suites (defineDockerImage D.DefaultDockerImage r).2 = true) :
    ∃ evs, (RunProject D r).2.events = r.events ++ evs ∧
      (RunProject D r).1 = (((evs.filter isFailedRun).length : Int), none) ∧
      evs.filterMap ranSuite = r.Project.Suites.map (fun s => (s.Name, s.Config.Env)) ∧
      (evs.filter isRun).length = r.Project.Suites.length ∧
      0 ≤ (RunProject D r).1.1 ∧ (RunProject D r).1.1 ≤ (r.Project.Suites.length : Int) := by
  obtain ⟨hev0, hsuites0⟩ := defineDockerImage_frame D.DefaultDockerImage r
  rcases hd : defineDockerImage D.DefaultDockerImage r with ⟨err, r0⟩
  rw [hd] at himage hsetup hev0 hsuites0
  simp only at himage hsetup hev0 hsuites0
  subst himage
  rw [← hsuites0] at hsetup
  obtain ⟨evs, hev, hres, hnames, hlen, -⟩ := runSuitesLoop_spec D r0.Project.Suites r0 0 hsetup
  have hrun : RunProject D r = runSuitesLoop D r0.Project.Suites r0 0 := by
    simp only [RunProject, hd]
  have hle : (evs.filter isFailedRun).length ≤ (evs.filter isRun).length := by
    have hsub : evs.filter isFailedRun = (evs.filter isRun).filter isFailedRun := by
      rw [List.filter_filter]
      apply List.filter_congr
      intro e _
      cases hf : isFailedRun e with
      | false => simp
      | true => simp [isRun_of_isFailedRun hf]
    rw [hsub]
    exact List.length_filter_le _ _
  refine ⟨evs, ?_, ?_, ?_, ?_, ?_, ?_⟩
  · rw [hrun, hev, hev0]
  · rw [hrun, hres]; simp
  · rw [hnames, hsuites0]
  · rw [hlen, hsuites0]
  · rw [hrun, hres]; simp
  · rw [hrun, hres, ← hsuites0, ← hlen]
    simp only [zero_add]
    exact_mod_cast hle

/-- C7, at a concrete input: of the three suites `login`, `cart` and `checkout`,
the second fails; all three are run and the count is 1. -/
theorem RunProject_counts_failed_runs_witness :
    (RunProject (exampleDeps ["cart"] 10) (freshRunner ⟨"", ""⟩ "5.6.0" exampleSuites)).1
      = (1, none) ∧
    ∃ evs, (RunProject (exampleDeps ["cart"] 10)
        (freshRunner ⟨"", ""⟩ "5.6.0" exampleSuites)).2.events
        = (freshRunner ⟨"", ""⟩ "5.6.0" exampleSuites).events ++ evs ∧
      (RunProject (exampleDeps ["cart"] 10) (freshRunner ⟨"", ""⟩ "5.6.0" exampleSuites)).1
        = (((evs.filter isFailedRun).length : Int), none) ∧
      evs.filterMap ranSuite
        = (freshRunner ⟨"", ""⟩ "5.6.0" exampleSuites).Project.Suites.map
            (fun s => (s.Name, s.Config.Env)) ∧
      (evs.filter isRun).length
        = (freshRunner ⟨"", ""⟩ "5.6.0" exampleSuites).Project.Suites.length ∧
      0 ≤ (RunProject (exampleDeps ["cart"] 10)
        (freshRunner ⟨"", ""⟩ "5.6.0" exampleSuites)).1.1 ∧
      (RunProject (exampleDeps ["cart"] 10) (freshRunner ⟨"", ""⟩ "5.6.0" exampleSuites)).1.1
        ≤ ((freshRunner ⟨"", ""⟩ "5.6.0" exampleSuites).Project.Suites.length : Int) :=
  ⟨by decide, RunProject_counts_failed_runs (exampleDeps ["cart"] 10)
    (freshRunner ⟨"", ""⟩ "5.6.0" exampleSuites) (by decide) (by decide)⟩

end docker

namespace docker

/-- C8: setup errors are fatal and surfaced immediately. If `defineDockerImage`
fails with `e`, `RunProject` returns `(1, e)` and the runner is as it was: no call
was made, so no suite was set up or run. If the suites are `pre ++ suite :: post`,
the setups of `pre` succeed and the setup of `suite` fails with `e`, `RunProject`
returns `(1, e)`, whatever the number of failed runs in `pre`, and the `run` calls
it made are those of the suites of `pre`, in order: neither `suite` nor any suite
of `post` was run. -/
theorem RunProject_setup_error_fatal (D : Deps) (r : CypressRunner) :
    (∀ e, (defineDockerImage D.DefaultDockerImage r).1 = some e →
      RunProject D r = ((1, some e), r)) ∧
    (∀ pre suite post e,
      (defineDockerImage D.DefaultDockerImage r).1 = none →
      r.Project.Suites = pre ++ suite :: post →
      setupsSucceed D pre (defineDockerImage D.DefaultDockerImage r).2 = true →
      (setup D (runSuitesLoop D pre (defineDockerImage D.DefaultDockerImage r).2 0).2).1 = some e →
      (RunProject D r).1 = (1, some e) ∧
      ∃ evs, (RunProject D r).2.events = r.events ++ evs ∧
        evs.filterMap ranSuite = pre.map (fun s => (s.Name, s.Config.Env)) ∧
        (evs.filter isRun).length = pre.length) := by
  obtain ⟨hev0, hsuites0⟩ := defineDockerImage_frame D.DefaultDockerImage r
  have herr := defineDockerImage_error_unchanged D.DefaultDockerImage r
  rcases hd : defineDockerImage D.DefaultDockerImage r with ⟨err, r0⟩
  rw [hd] at hev0 hsuites0 herr
  simp only at hev0 hsuites0 herr
  constructor
  · intro e he
    simp only at he
    subst he
    have hr0 : r0 = r := herr (by simp)
    subst hr0
    simp only [RunProject, hd]
  · intro pre suite post e himage hsplit hpre hfail
    simp only at himage hpre hfail
    subst himage
    obtain ⟨evs, hev, -, hnames, hlen, -⟩ := runSuitesLoop_spec D pre r0 0 hpre
    have hq := setup_quiet D (runSuitesLoop D pre r0 0).2
    rcases hs : setup D (runSuitesLoop D pre r0 0).2 with ⟨err, r1⟩
    rw [hs] at hq hfail
    simp only at hfail
    subst hfail
    obtain ⟨evs1, hev1, hquiet, -⟩ := hq
    simp only at hev1
    obtain ⟨-, hq2, hq3⟩ := quiet_events hquiet
    have hrun : RunProject D r = ((1, some e), r1) := by
      simp only [RunProject, hd]
      rw [hsuites0, hsplit, runSuitesLoop_append D (suite :: post) pre r0 0 hpre]
      simp only [runSuitesLoop, hs]
    rw [hrun]
    refine ⟨rfl, evs ++ evs1, ?_, ?_, ?_⟩
    · simp only
      rw [hev1, hev, hev0, List.append_assoc]
    · rw [List.filterMap_append, hq2, hnames, List.append_nil]
    · rw [List.filter_append, hq3, List.append_nil, hlen]

/-- C8, at a concrete input: the docker daemon goes down after the first suite
was run (and failed); `RunProject` returns `(1, error)`, having run `login` only. -/
theorem RunProject_setup_error_fatal_witness :
    (RunProject (exampleDeps ["login"] 1) (freshRunner ⟨"", ""⟩ "5.6.0" exampleSuites)).1
      = (1, some (dockerNotRunning "Cannot connect to the Docker daemon")) ∧
    ∃ evs, (RunProject (exampleDeps ["login"] 1)
        (freshRunner ⟨"", ""⟩ "5.6.0" exampleSuites)).2.events
        = (freshRunner ⟨"", ""⟩ "5.6.0" exampleSuites).events ++ evs ∧
      evs.filterMap ranSuite = [("login", none)] ∧ (evs.filter isRun).length = 1 :=
  (RunProject_setup_error_fatal (exampleDeps ["login"] 1)
    (freshRunner ⟨"", ""⟩ "5.6.0" exampleSuites)).2
    [⟨"login", ⟨none⟩⟩] ⟨"cart", ⟨none⟩⟩ [⟨"checkout", ⟨none⟩⟩]
    (dockerNotRunning "Cannot connect to the Docker daemon")
    (by decide) (by decide) (by decide) (by decide)

/-- C10: unreachable container runtime. If `ValidateDependency` fails with `e`,
`setup` returns an error whose message starts with
`please verify that docker is installed and running`, contains the text of `e`
and the URL of the installation guide; the dependency check is the only call
`setup` made (no image pull, container start, file copy, hook or command
execution), and the runner is otherwise as it was. -/
theorem setup_docker_unreachable (D : Deps) (r : CypressRunner) (e : String)
    (hdep : (D.respond r.events .ValidateDependency).err = some e) :
    ∃ msg, (setup D r).1 = some msg ∧
      msg = "please verify that docker is installed and running: " ++ e
        ++ ",  follow the guide at https://docs.docker.com/get-docker/" ∧
      "please verify that docker is installed and running".data <+: msg.data ∧
      e.data <:+: msg.data ∧
      "https://docs.docker.com/get-docker/".data <:+: msg.data ∧
      (setup D r).2
        = { r with events := r.events ++ [⟨.ValidateDependency, D.respond r.events .ValidateDependency⟩] } := by
  refine ⟨dockerNotRunning e, ?_, rfl, ?_, ?_, ?_, ?_⟩
  · simp only [setup, call, hdep]
  · refine ⟨": ".data ++ e.data ++ dockerGuide.data, ?_⟩
    simp [dockerNotRunning, String.data_append]
  · refine ⟨"please verify that docker is installed and running: ".data, dockerGuide.data, ?_⟩
    simp only [dockerNotRunning, String.data_append]
  · refine ⟨"please verify that docker is installed and running: ".data ++ e.data
      ++ ",  follow the guide at ".data, [], ?_⟩
    simp [dockerNotRunning, dockerGuide, String.data_append]
  · simp only [setup, call, hdep]

/-- C10, at a concrete input: the docker daemon is down from the start. -/
theorem setup_docker_unreachable_witness :
    (setup (exampleDeps [] 0) (freshRunner ⟨"", ""⟩ "5.6.0" exampleSuites)).2.events
      = [⟨.ValidateDependency, ⟨"", some "Cannot connect to the Docker daemon"⟩⟩] ∧
    ∃ msg, (setup (exampleDeps [] 0) (freshRunner ⟨"", ""⟩ "5.6.0" exampleSuites)).1 = some msg ∧
      msg = "please verify that docker is installed and running: "
        ++ "Cannot connect to the Docker daemon"
        ++ ",  follow the guide at https://docs.docker.com/get-docker/" ∧
      "please verify that docker is installed and running".data <+: msg.data ∧
      "Cannot connect to the Docker daemon".data <:+: msg.data ∧
      "https://docs.docker.com/get-docker/".data <:+: msg.data ∧
      (setup (exampleDeps [] 0) (freshRunner ⟨"", ""⟩ "5.6.0" exampleSuites)).2
        = { freshRunner ⟨"", ""⟩ "5.6.0" exampleSuites with
            events := (freshRunner ⟨"", ""⟩ "5.6.0" exampleSuites).events
              ++ [⟨.ValidateDependency, (exampleDeps [] 0).respond
                (freshRunner ⟨"", ""⟩ "5.6.0" exampleSuites).events .ValidateDependency⟩] } :=
  ⟨by decide, setup_docker_unreachable (exampleDeps [] 0)
    (freshRunner ⟨"", ""⟩ "5.6.0" exampleSuites) "Cannot connect to the Docker daemon" (by decide)⟩

end docker

/-! ## Properties of the espresso `run` command -/

/-- Every error `runEspresso` raises itself comes with the count 1; any other
result is the backend's. -/
theorem runEspresso_result (E : EspressoDeps) :
    (∃ e, runEspresso E = (1, some e)) ∨ ∃ p, runEspresso E = E.RunProject p := by
  unfold runEspresso runEspressoInCloud
  dsimp only
  repeat' split
  all_goals first
    | exact Or.inl ⟨_, rfl⟩
    | exact Or.inr ⟨_, rfl⟩

/-- Every error `runEspressoCmd` raises itself comes with the count 1; any other
result is the backend's. -/
theorem runEspressoCmd_result (E : EspressoDeps) :
    (∃ e, runEspressoCmd E = (1, some e)) ∨ ∃ p, runEspressoCmd E = E.RunProject p := by
  unfold runEspressoCmd
  repeat' split
  all_goals first
    | exact Or.inl ⟨_, rfl⟩
    | exact runEspresso_result E

/-- C9 as stated fails: on a backend whose `RunProject` returns a zero count
together with an error, the command reports the error and hands 0 to `os.Exit`. -/
theorem NewEspressoCmd_exit_zero_with_error :
    runEspressoCmd (exampleEspressoDeps (0, some "context deadline exceeded"))
      = (0, some "context deadline exceeded") ∧
    NewEspressoCmd_Run (exampleEspressoDeps (0, some "context deadline exceeded")) = 0 := by
  decide

/-- C9, amended: the exit code handed to `os.Exit` is the count returned by
`runEspressoCmd`, so it is zero exactly when that count is zero. An error raised
by `runEspressoCmd` or `runEspresso` themselves comes with the count 1, hence a
non-zero exit code; any other result is one of the backend's `RunProject`, handed
on as it is, so that the exit code is then the backend's count, whether or not
the backend's error is nil. -/
theorem NewEspressoCmd_exit_code (E : EspressoDeps) :
    NewEspressoCmd_Run E = (runEspressoCmd E).1 ∧
    (NewEspressoCmd_Run E = 0 ↔ (runEspressoCmd E).1 = 0) ∧
    (((∃ e, (runEspressoCmd E).2 = some e) ∧ NewEspressoCmd_Run E = 1) ∨
      ∃ p, E.RunProject p = (NewEspressoCmd_Run E, (runEspressoCmd E).2)) := by
  have hexit : NewEspressoCmd_Run E = (runEspressoCmd E).1 := rfl
  refine ⟨hexit, by rw [hexit], ?_⟩
  rcases runEspressoCmd_result E with ⟨e, he⟩ | ⟨p, hp⟩
  · exact Or.inl ⟨⟨e, by rw [he]⟩, by rw [hexit, he]⟩
  · exact Or.inr ⟨p, by rw [hexit, hp]⟩

/-! ## Properties of the `init` command -/

namespace initcmd

/-- A loop that appends one value per element collects the values in order. -/
theorem foldl_append_singleton {α β : Type} (f : α → β) :
    ∀ (l : List α) (acc : List β), l.foldl (fun acc a => acc ++ [f a]) acc = acc ++ l.map f
  | [], acc => by simp
  | a :: l, acc => by
    simp only [List.foldl_cons, List.map_cons]
    rw [foldl_append_singleton f l (acc ++ [f a])]
    simp

/-- C11: framework requirement table. For every framework name,
`isNativeFramework` holds exactly for `espresso` and `xcuitest`; `needsApps` and
`needsDevice` equal it; `needsPlatform`, `needsRootDir` and `needsVersion` equal
its negation; `needsEmulator` holds exactly for `espresso` and `needsCypressJson`
exactly for `cypress`; `needsEmulator` implies `needsDevice`; and the values for
`espresso`, `xcuitest`, `cypress` and `testcafe` are those tabulated in
`Test_frameworkSpecificSettings`, in the order nativeFramework, needsApps,
needsCypressJson, needsDevice, needsEmulator, needsPlatform, needsRootDir,
needsVersion. -/
theorem frameworkSpecificSettings (f : String) :
    (isNativeFramework f = true ↔ f = "espresso" ∨ f = "xcuitest") ∧
    needsApps f = isNativeFramework f ∧
    needsDevice f = isNativeFramework f ∧
    needsPlatform f = !isNativeFramework f ∧
    needsRootDir f = !isNativeFramework f ∧
    needsVersion f = !isNativeFramework f ∧
    (needsEmulator f = true ↔ f = "espresso") ∧
    (needsCypressJson f = true ↔ f = "cypress") ∧
    (needsEmulator f = true → needsDevice f = true) ∧
    [isNativeFramework "espresso", needsApps "espresso", needsCypressJson "espresso",
      needsDevice "espresso", needsEmulator "espresso", needsPlatform "espresso",
      needsRootDir "espresso", needsVersion "espresso"]
      = [true, true, false, true, true, false, false, false] ∧
    [isNativeFramework "xcuitest", needsApps "xcuitest", needsCypressJson "xcuitest",
      needsDevice "xcuitest", needsEmulator "xcuitest", needsPlatform "xcuitest",
      needsRootDir "xcuitest", needsVersion "xcuitest"]
      = [true, true, false, true, false, false, false, false] ∧
    [isNativeFramework "cypress", needsApps "cypress", needsCypressJson "cypress",
      needsDevice "cypress", needsEmulator "cypress", needsPlatform "cypress",
      needsRootDir "cypress", needsVersion "cypress"]
      = [false, false, true, false, false, true, true, true] ∧
    [isNativeFramework "testcafe", needsApps "testcafe", needsCypressJson "testcafe",
      needsDevice "testcafe", needsEmulator "testcafe", needsPlatform "testcafe",
      needsRootDir "testcafe", needsVersion "testcafe"]
      = [false, false, false, false, false, true, true, true] := by
  have hnative : isNativeFramework f = true ↔ f = "espresso" ∨ f = "xcuitest" := by
    simp [isNativeFramework, config.KindEspresso, config.KindXcuitest]
  have hemu : needsEmulator f = true ↔ f = "espresso" := by
    simp [needsEmulator, config.KindEspresso]
  refine ⟨hnative, rfl, rfl, rfl, rfl, rfl, hemu, ?_, ?_, by decide, by decide, by decide,
    by decide⟩
  · simp [needsCypressJson, config.KindCypress]
  · intro h
    exact hnative.mpr (Or.inl (hemu.mp h))

/-- C16: platform choices. `metaToPlatforms` is the concatenation, over the
entries of version `v` in list order, of the platform names of the entry in
order, followed by `docker` exactly when the entry has a docker image; it is
empty when no entry has version `v`. -/
theorem metaToPlatforms_eq (metadatas : List framework.Metadata) (v : String) :
    metaToPlatforms metadatas v
      = (metadatas.filter (fun m => m.FrameworkVersion = v)).flatMap
          (fun m => m.Platforms.map (fun p => p.PlatformName)
            ++ (if m.DockerImage ≠ "" then ["docker"] else [])) ∧
    ((∀ m ∈ metadatas, m.FrameworkVersion ≠ v) → metaToPlatforms metadatas v = []) := by
  have hloop : ∀ (ms : List framework.Metadata) (acc : List String),
      ms.foldl
        (fun platforms m =>
          if m.FrameworkVersion = v then
            let platforms :=
              m.Platforms.foldl (fun platforms p => platforms ++ [p.PlatformName]) platforms
            if m.DockerImage ≠ "" then platforms ++ ["docker"] else platforms
          else platforms)
        acc
        = acc ++ (ms.filter (fun m => m.FrameworkVersion = v)).flatMap
            (fun m => m.Platforms.map (fun p => p.PlatformName)
              ++ (if m.DockerImage ≠ "" then ["docker"] else [])) := by
    intro ms
    induction ms with
    | nil => intro acc; simp
    | cons m ms ih =>
      intro acc
      rw [List.foldl_cons, ih]
      by_cases hv : m.FrameworkVersion = v
      · by_cases hd : m.DockerImage = ""
        · simp [hv, hd, foldl_append_singleton]
        · simp [hv, hd, foldl_append_singleton]
      · simp [hv]
  have heq := hloop metadatas []
  simp only [List.nil_append] at heq
  refine ⟨heq, fun hnone => ?_⟩
  have hfilter : metadatas.filter (fun m => m.FrameworkVersion = v) = [] := by
    rw [List.filter_eq_nil_iff]
    intro m hm
    simpa using hnone m hm
  unfold metaToPlatforms
  rw [heq, hfilter]
  rfl

end initcmd


namespace initcmd

/-- The inner loop of `metaToBrowsers` finds the first platform of the requested
name, when the entry has the requested version. -/
theorem metaToBrowsersInner_eq (v : framework.Metadata) (fv pn : String) :
    ∀ ps : List framework.Platform,
      metaToBrowsersInner v fv pn ps
        = ((ps.map (fun p => (v, p))).find?
            (fun vp => decide (vp.1.FrameworkVersion = fv ∧ vp.2.PlatformName = pn))).map
            (fun vp => vp.2.BrowserNames)
  | [] => rfl
  | p :: ps => by
    by_cases h : v.FrameworkVersion = fv ∧ p.PlatformName = pn
    · simp [metaToBrowsersInner, h]
    · simp only [metaToBrowsersInner, h, if_false, List.map_cons]
      rw [List.find?_cons_of_neg _ (by simpa using h)]
      exact metaToBrowsersInner_eq v fv pn ps

/-- The loops of `metaToBrowsers` find the first pair of an entry and one of its
platforms, in list order, with the requested version and platform name. -/
theorem metaToBrowsersOuter_eq (fv pn : String) :
    ∀ ms : List framework.Metadata,
      metaToBrowsersOuter fv pn ms
        = ((ms.flatMap (fun v => v.Platforms.map (fun p => (v, p)))).find?
            (fun vp => decide (vp.1.FrameworkVersion = fv ∧ vp.2.PlatformName = pn))).map
            (fun vp => vp.2.BrowserNames)
  | [] => rfl
  | v :: ms => by
    simp only [metaToBrowsersOuter, List.flatMap_cons, List.find?_append]
    rw [metaToBrowsersInner_eq, metaToBrowsersOuter_eq fv pn ms]
    cases ((v.Platforms.map (fun p => (v, p))).find?
      (fun vp => decide (vp.1.FrameworkVersion = fv ∧ vp.2.PlatformName = pn))) <;> simp

/-- C15: browser choices. With platform `docker`, `metaToBrowsers` returns
`dockerBrowsers` of the framework whatever the metadata, which is `chromium` and
`firefox` for playwright and `chrome` and `firefox` for every other framework.
For any other platform it returns the browser names of the first pair of a
metadata entry and one of its platforms, in list order, whose version and
platform name equal the arguments, and the empty list when there is none. -/
theorem metaToBrowsers_eq (metadatas : List framework.Metadata)
    (frameworkName frameworkVersion platformName : String) :
    metaToBrowsers metadatas frameworkName frameworkVersion "docker"
      = dockerBrowsers frameworkName ∧
    dockerBrowsers "playwright" = ["chromium", "firefox"] ∧
    (frameworkName ≠ "playwright" → dockerBrowsers frameworkName = ["chrome", "firefox"]) ∧
    (platformName ≠ "docker" →
      metaToBrowsers metadatas frameworkName frameworkVersion platformName
        = match (metadatas.flatMap (fun v => v.Platforms.map (fun p => (v, p)))).find?
            (fun vp => decide (vp.1.FrameworkVersion = frameworkVersion ∧
              vp.2.PlatformName = platformName)) with
          | some vp => vp.2.BrowserNames
          | none => []) := by
  refine ⟨by simp [metaToBrowsers], by decide, fun h => by simp [dockerBrowsers, h], fun h => ?_⟩
  simp only [metaToBrowsers, h, if_false]
  rw [metaToBrowsersOuter_eq]
  cases (metadatas.flatMap (fun v => v.Platforms.map (fun p => (v, p)))).find?
    (fun vp => decide (vp.1.FrameworkVersion = frameworkVersion ∧
      vp.2.PlatformName = platformName)) <;> rfl

/-- C15, on the metadata of `TestAskPlatform`: `macOS 11.00` of version `1.3.0`
offers its four browsers, an unknown platform offers none. -/
theorem metaToBrowsers_examples :
    metaToBrowsers exampleMetadatas "testcafe" "1.3.0" "macOS 11.00"
      = ["safari", "googlechrome", "firefox", "microsoftedge"] ∧
    metaToBrowsers exampleMetadatas "testcafe" "1.5.0" "Windows 10"
      = ["googlechrome", "firefox", "microsoftedge"] ∧
    metaToBrowsers exampleMetadatas "testcafe" "1.5.0" "Windows 95" = [] ∧
    metaToBrowsers exampleMetadatas "testcafe" "1.5.0" "docker" = ["chrome", "firefox"] ∧
    metaToPlatforms exampleMetadatas "1.5.0" = ["Windows 10", "macOS 11.00", "docker"] ∧
    metaToPlatforms exampleMetadatas "1.3.0" = ["Windows 10", "macOS 11.00"] := by
  decide

end initcmd


namespace initcmd

/-- C14: platform to mode. When the platform question succeeds with `p` and the
browser question with `b`, `askPlatform` returns nil, `cfg.browserName` is `b`,
and for `p = docker` the mode is `docker` and the platform name empty, otherwise
the mode is `sauce` and the platform name `p`; the other answers are as they
were. Hence, for a non-empty `p`, the mode is `docker` if and only if the
platform name is empty. -/
theorem askPlatform_mode (ini : initiator) (asked : List Asked) (cfg : initConfig)
    (metadatas : List framework.Metadata) (p b : String)
    (hp : ini.AskOne asked
      (.Select "Select platform:" (metaToPlatforms metadatas cfg.frameworkVersion) "")
      cfg.platformName = (p, none))
    (hb : ini.AskOne
      (asked ++ [⟨.Select "Select platform:" (metaToPlatforms metadatas cfg.frameworkVersion) "",
        p, none⟩])
      (.Select "Select Browser:"
        (metaToBrowsers metadatas cfg.frameworkName cfg.frameworkVersion p) "")
      cfg.browserName = (b, none)) :
    (askPlatform ini asked cfg metadatas).1 = none ∧
    (askPlatform ini asked cfg metadatas).2.1.browserName = b ∧
    (p = "docker" →
      (askPlatform ini asked cfg metadatas).2.1
        = { cfg with browserName := b, mode := "docker", platformName := "" }) ∧
    (p ≠ "docker" →
      (askPlatform ini asked cfg metadatas).2.1
        = { cfg with browserName := b, mode := "sauce", platformName := p }) ∧
    (p ≠ "" →
      ((askPlatform ini asked cfg metadatas).2.1.mode = "docker" ↔
        (askPlatform ini asked cfg metadatas).2.1.platformName = "")) := by
  by_cases hdocker : p = "docker"
  · subst hdocker
    have hres : askPlatform ini asked cfg metadatas
        = (none, { cfg with browserName := b, mode := "docker", platformName := "" },
            asked
              ++ [⟨.Select "Select platform:" (metaToPlatforms metadatas cfg.frameworkVersion) "",
                "docker", none⟩]
              ++ [⟨.Select "Select Browser:"
                (metaToBrowsers metadatas cfg.frameworkName cfg.frameworkVersion "docker") "",
                b, none⟩]) := by
      simp only [askPlatform, ask, hp, hb]
      simp
    rw [hres]
    refine ⟨rfl, rfl, fun _ => rfl, fun h => absurd rfl h, fun _ => ?_⟩
    simp
  · have hres : askPlatform ini asked cfg metadatas
        = (none, { cfg with browserName := b, mode := "sauce", platformName := p },
            asked
              ++ [⟨.Select "Select platform:" (metaToPlatforms metadatas cfg.frameworkVersion) "",
                p, none⟩]
              ++ [⟨.Select "Select Browser:"
                (metaToBrowsers metadatas cfg.frameworkName cfg.frameworkVersion p) "",
                b, none⟩]) := by
      simp only [askPlatform, ask, hp, hb]
      simp [hdocker]
    rw [hres]
    refine ⟨rfl, rfl, fun h => absurd h hdocker, fun _ => rfl, fun hne => ?_⟩
    simp only
    constructor
    · intro h
      exact absurd h (by decide)
    · intro h
      exact absurd h hne

/-- C14, on the metadata of `TestAskPlatform`: the user selects `windows 10`,
then `googlechrome`. -/
theorem askPlatform_mode_witness :
    (askPlatform (exampleInitiator "testcafe") []
      { frameworkName := "testcafe", frameworkVersion := "1.5.0" } exampleMetadatas).2.1
      = { frameworkName := "testcafe", frameworkVersion := "1.5.0", platformName := "windows 10",
          browserName := "googlechrome", mode := "sauce" } ∧
    (askPlatform (exampleInitiator "testcafe") []
      { frameworkName := "testcafe", frameworkVersion := "1.5.0" } exampleMetadatas).1 = none :=
  ⟨by decide,
    (askPlatform_mode (exampleInitiator "testcafe") []
      { frameworkName := "testcafe", frameworkVersion := "1.5.0" } exampleMetadatas
      "windows 10" "googlechrome" (by decide) (by decide)).1⟩

end initcmd


namespace initcmd

/-- C17: artifact download policy choice. Every option offered by
`askDownloadWhen` is a key of `mapWhen`; the four options map, in order, to
`WhenFail`, `WhenPass`, `WhenNever` and `WhenAlways`, which are pairwise
distinct; when the question succeeds with the option `when`, `askDownloadWhen`
returns nil and stores the policy of `when` in `cfg.artifactWhen`, the question
asked being the selection among `whenStrings` with the first of them as default;
the default option yields `WhenFail`, the second `WhenPass` and `always` yields
`WhenAlways`. -/
theorem askDownloadWhen_policy (ini : initiator) (asked : List Asked) (cfg : initConfig) :
    (∀ o ∈ whenStrings, (mapWhen.lookup o).isSome = true) ∧
    whenStrings.map mapWhenAt
      = [config.When.WhenFail, config.When.WhenPass, config.When.WhenNever,
          config.When.WhenAlways] ∧
    [config.When.WhenFail, config.When.WhenPass, config.When.WhenNever,
      config.When.WhenAlways].Nodup ∧
    (∀ when,
      ini.AskOne asked (.Select "Download artifacts:" whenStrings "when tests are failing") ""
        = (when, none) →
      askDownloadWhen ini asked cfg
        = (none, { cfg with artifactWhen := mapWhenAt when },
            asked ++ [⟨.Select "Download artifacts:" whenStrings "when tests are failing",
              when, none⟩])) ∧
    whenStrings.head? = some "when tests are failing" ∧
    mapWhenAt "when tests are failing" = config.When.WhenFail ∧
    whenStrings.get? 1 = some "when tests are passing" ∧
    mapWhenAt "when tests are passing" = config.When.WhenPass ∧
    mapWhenAt "always" = config.When.WhenAlways := by
  refine ⟨by decide, by decide, by decide, fun when h => ?_, by decide, by decide, by decide,
    by decide, by decide⟩
  have hdefault : whenStrings.getD 0 "" = "when tests are failing" := by decide
  simp only [askDownloadWhen, ask, hdefault, h]

/-- C18: framework choice. When the framework list is read successfully and the
question leaves the name `s` in `cfg.frameworkName` and returns `e`,
`askFramework` returns the error `interrupting configuration` if `s` is empty,
and otherwise stores the lower-cased `s` in `cfg.frameworkName` and returns `e`;
the one question asked offers the names of the frameworks read, in their order. -/
theorem askFramework_selection (ini : initiator) (asked : List Asked) (cfg : initConfig)
    (values : List framework.Framework) (s : String) (e : Option String)
    (hread : ini.Frameworks = (values, none))
    (hselect : ini.AskOne asked (.Select "Select framework:" (values.map (fun f => f.Name)) "")
      cfg.frameworkName = (s, e)) :
    (s = "" → (askFramework ini asked cfg).1 = some "interrupting configuration") ∧
    (s ≠ "" →
      (askFramework ini asked cfg).1 = e ∧
      (askFramework ini asked cfg).2.1 = { cfg with frameworkName := ini.ToLower s }) ∧
    (askFramework ini asked cfg).2.2
      = asked ++ [⟨.Select "Select framework:" (values.map (fun f => f.Name)) "", s, e⟩] := by
  have hnames : values.foldl (fun frameworks f => frameworks ++ [f.Name]) []
      = values.map (fun f => f.Name) := by
    rw [foldl_append_singleton (fun f : framework.Framework => f.Name) values []]
    simp
  by_cases hs : s = ""
  · subst hs
    simp [askFramework, ask, hread, hnames, hselect]
  · simp [askFramework, ask, hread, hnames, hselect, hs]

/-- C18, at a concrete input: the user selects `Espresso`. -/
theorem askFramework_selection_witness :
    (askFramework (exampleInitiator "Espresso") [] {}).1 = none ∧
    (askFramework (exampleInitiator "Espresso") [] {}).2.1 = { frameworkName := "espresso" } ∧
    (askFramework (exampleInitiator "Espresso") [] {}).2.2
      = [⟨.Select "Select framework:" ["cypress", "espresso"] "", "Espresso", none⟩] := by
  have h := askFramework_selection (exampleInitiator "Espresso") [] {}
    [⟨"cypress"⟩, ⟨"espresso"⟩] "Espresso" none rfl (by decide)
  exact ⟨(h.2.1 (by decide)).1, by decide, by decide⟩

end initcmd

/-- C13: no name, no adhoc suite. When the `--name` flag is empty,
`applyEspressoFlags` leaves the suite list as it was, whatever the device,
emulator and test-option flags are; `App` and `TestApp` of the project are the
corresponding flag when that flag is non-empty and are otherwise as they were;
nothing else of the project changes. -/
theorem applyEspressoFlags_no_name (espFlags : espressoFlags) (p : espresso.Project)
    (hname : espFlags.Name = "") :
    (applyEspressoFlags espFlags p).Suites = p.Suites ∧
    (applyEspressoFlags espFlags p).Espresso.App
      = (if espFlags.App ≠ "" then espFlags.App else p.Espresso.App) ∧
    (applyEspressoFlags espFlags p).Espresso.TestApp
      = (if espFlags.TestApp ≠ "" then espFlags.TestApp else p.Espresso.TestApp) ∧
    (applyEspressoFlags espFlags p).Sauce = p.Sauce := by
  by_cases happ : espFlags.App = "" <;> by_cases htest : espFlags.TestApp = "" <;>
    simp [applyEspressoFlags, hname, happ, htest]

/-- C13, at a concrete input: `--app new.apk --device ...` without `--name` keeps
the suite of the project and replaces the app only. -/
theorem applyEspressoFlags_no_name_witness :
    applyEspressoFlags
      ⟨"", "new.apk", "", ⟨["com.example.Test"], [], "", "", "", 0, 0⟩, ⟨⟨"", "", []⟩, false⟩,
        ⟨⟨"", "Google Pixel 3", "", ""⟩, true⟩⟩
      exampleEspressoProject
      = { exampleEspressoProject with Espresso := ⟨"new.apk", "testApp.apk"⟩ } ∧
    (applyEspressoFlags
      ⟨"", "new.apk", "", ⟨["com.example.Test"], [], "", "", "", 0, 0⟩, ⟨⟨"", "", []⟩, false⟩,
        ⟨⟨"", "Google Pixel 3", "", ""⟩, true⟩⟩
      exampleEspressoProject).Suites = exampleEspressoProject.Suites :=
  ⟨by decide,
    (applyEspressoFlags_no_name
      ⟨"", "new.apk", "", ⟨["com.example.Test"], [], "", "", "", 0, 0⟩, ⟨⟨"", "", []⟩, false⟩,
        ⟨⟨"", "Google Pixel 3", "", ""⟩, true⟩⟩
      exampleEspressoProject rfl).1⟩


/-! ## Properties of the ignore file -/

namespace sauceignore

/-- C20: a missing ignore file is not an error. `patternsFromFile` returns an
empty pattern list and a nil error when the file does not exist, and an empty
pattern list together with the open error for every other failure to open the
file; `NewMatcherFromFile` returns a nil matcher and the error exactly when
`patternsFromFile` returns an error, and the matcher of the patterns otherwise. -/
theorem patternsFromFile_open_error (D : Deps) (path : String) :
    (∀ err, (D.Open (D.Join path)).2 = some err → D.IsNotExist err = true →
      patternsFromFile D path = ([], none)) ∧
    (∀ err, (D.Open (D.Join path)).2 = some err → D.IsNotExist err = false →
      patternsFromFile D path = ([], some err)) ∧
    (∀ err, (patternsFromFile D path).2 = some err ↔ NewMatcherFromFile D path = (none, some err)) ∧
    ((patternsFromFile D path).2 = none →
      NewMatcherFromFile D path = (some (NewMatcher (patternsFromFile D path).1), none)) := by
  refine ⟨fun err hopen hmissing => ?_, fun err hopen hother => ?_, fun err => ?_, fun hok => ?_⟩
  · rcases hd : D.Open (D.Join path) with ⟨f, e⟩
    rw [hd] at hopen
    simp only at hopen
    subst hopen
    simp [patternsFromFile, hd, hmissing]
  · rcases hd : D.Open (D.Join path) with ⟨f, e⟩
    rw [hd] at hopen
    simp only at hopen
    subst hopen
    simp [patternsFromFile, hd, hother]
  · rcases hp : patternsFromFile D path with ⟨ps, e⟩
    cases e with
    | none => simp [NewMatcherFromFile, hp]
    | some e => simp [NewMatcherFromFile, hp]
  · rcases hp : patternsFromFile D path with ⟨ps, e⟩
    rw [hp] at hok
    simp only at hok
    subst hok
    simp [NewMatcherFromFile, hp]

/-- C20, on the example file system: a file that does not exist gives no pattern
and no error, and a matcher without patterns; a file that cannot be opened gives
its error and no matcher. -/
theorem patternsFromFile_open_error_examples :
    patternsFromFile exampleDeps "missing" = ([], none) ∧
    NewMatcherFromFile exampleDeps "missing" = (some ⟨⟨[]⟩⟩, none) ∧
    patternsFromFile exampleDeps "locked" = ([], some "open locked: permission denied") ∧
    NewMatcherFromFile exampleDeps "locked" = (none, some "open locked: permission denied") ∧
    patternsFromFile exampleDeps ".sauceignore" = ([⟨"node_modules/"⟩, ⟨" #kept"⟩], none) := by
  decide

end sauceignore

/-! ## Properties of the env merge of `runPlaywright` -/

/-- The inner loop of the env merge keeps the suites in number and order, with
their names and modes, and keeps a nil map nil. -/
theorem mergeEnvSuites_frame (k v : String) :
    ∀ suites : List playwright.Suite,
      (mergeEnvSuites k v suites).map (fun s => (s.Name, s.Mode, s.Env.isSome))
        = suites.map (fun s => (s.Name, s.Mode, s.Env.isSome))
  | [] => rfl
  | ⟨name, mode, env⟩ :: rest => by
    have ih := mergeEnvSuites_frame k v rest
    cases env <;> simp [mergeEnvSuites, ih]

/-- The env merge never gives an environment to a suite whose map was nil:
whatever the command-line environment, the suites that have a map after the merge
are those that had one before. -/
theorem mergeEnv_frame :
    ∀ (env : List (String × String)) (p : playwright.Project),
      (mergeEnv env p).Suites.map (fun s => (s.Name, s.Mode, s.Env.isSome))
        = p.Suites.map (fun s => (s.Name, s.Mode, s.Env.isSome))
  | [], _ => rfl
  | kv :: env, p => by
    have h := mergeEnv_frame env { p with Suites := mergeEnvSuites kv.1 kv.2 p.Suites }
    simp only [mergeEnv, List.foldl_cons] at h ⊢
    rw [h]
    exact mergeEnvSuites_frame kv.1 kv.2 p.Suites

/-- C12 fails on the code: with `HOST=b` and `DEBUG=1` on the command line, the
suite `chromium`, whose `Env` is nil, has a nil `Env` after the merge, in which
`HOST` and `DEBUG` map to nothing; the suite `firefox`, which has a map, gets
both and keeps `MODE`. -/
theorem mergeEnv_nil_map_stays_nil :
    (mergeEnv [("HOST", "b"), ("DEBUG", "1")] examplePlaywrightProject).Suites
      = [⟨"chromium", "", none⟩,
          ⟨"firefox", "", some [("MODE", "ci"), ("HOST", "b"), ("DEBUG", "1")]⟩] := by
  decide

namespace initcmd

/-- C19 fails on the code: for `cypress`, for which `needsRootDir` holds, a
successful `configure` asks six questions, none of them for the root project
directory, and the returned configuration has an empty `rootDir`, although the
user would answer `.` to such a question. -/
theorem configure_cypress_no_rootDir :
    needsRootDir "cypress" = true ∧
    (configure (exampleInitiator "cypress") []).1
      = ({ frameworkName := "cypress", frameworkVersion := "7.5.0",
            cypressJson := "cypress.json", platformName := "windows 10",
            browserName := "googlechrome", mode := "sauce",
            artifactWhen := config.When.WhenPass, rootDir := "" }, none) ∧
    (configure (exampleInitiator "cypress") []).2.map (fun a => a.prompt.message)
      = ["Select framework:", "Select cypress version:", "Cypress configuration file:",
          "Select platform:", "Select Browser:", "Download artifacts:"] ∧
    (exampleInitiator "cypress").AskOne [] (.Input "Root project directory" "cypress") ""
      = (".", none) := by
  decide

end initcmd


namespace initcmd

/-- What a step of `configure` leaves in `rootDir`, whether the step is taken or
skipped, given that the step itself leaves `rootDir` alone. -/
theorem step_rootDir {needed : Bool} {cfg cfg2 : initConfig} {asked asked2 : List Asked}
    {err : Option String} {step : Option String × initConfig × List Asked}
    (hstep : step.2.1.rootDir = cfg.rootDir)
    (h : (if needed = true then step else (none, cfg, asked)) = (err, cfg2, asked2)) :
    cfg2.rootDir = cfg.rootDir := by
  cases needed with
  | true =>
    simp only [if_true] at h
    rw [h] at hstep
    exact hstep
  | false =>
    simp only [Bool.false_eq_true, if_false, Prod.mk.injEq] at h
    rw [← h.2.1]

/-- No question of `configure` writes `rootDir`: whoever the collaborators are,
the configuration `configure` returns has an empty `rootDir`. -/
theorem configure_rootDir_empty (ini : initiator) (asked : List Asked) :
    (configure ini asked).1.1.rootDir = "" := by
  have hfw : ∀ asked cfg, (askFramework ini asked cfg).2.1.rootDir = cfg.rootDir := by
    intro asked cfg
    unfold askFramework
    dsimp only [ask]
    repeat' split
    all_goals rfl
  have hver : ∀ asked cfg ms, (askVersion ini asked cfg ms).2.1.rootDir = cfg.rootDir :=
    fun _ _ _ => rfl
  have hfile : ∀ (asked : List Asked) (cfg : initConfig), (match askFile ini asked "Cypress configuration file:"
      cfg.frameworkName cfg.cypressJson with
      | (err, cypressJson, asked) =>
        ((err, { cfg with cypressJson := cypressJson }, asked) :
          Option String × initConfig × List Asked)).2.1.rootDir = cfg.rootDir :=
    fun _ _ => rfl
  have hplat : ∀ asked cfg ms, (askPlatform ini asked cfg ms).2.1.rootDir = cfg.rootDir := by
    intro asked cfg ms
    unfold askPlatform
    dsimp only [ask]
    repeat' split
    all_goals rfl
  have happs : ∀ asked cfg, (configureApps ini asked cfg).2.1.rootDir = cfg.rootDir := by
    intro asked cfg
    unfold configureApps
    dsimp only [askFile, ask]
    repeat' split
    all_goals rfl
  have hdev : ∀ asked cfg, (configureDevice ini asked cfg).2.1.rootDir = cfg.rootDir :=
    fun _ _ => rfl
  have hemu : ∀ asked cfg, (configureEmulator ini asked cfg).2.1.rootDir = cfg.rootDir := by
    intro asked cfg
    unfold configureEmulator
    dsimp only
    repeat' split
    all_goals rfl
  have hwhen : ∀ asked cfg, (askDownloadWhen ini asked cfg).2.1.rootDir = cfg.rootDir := by
    intro asked cfg
    unfold askDownloadWhen
    dsimp only [ask]
    repeat' split
    all_goals rfl
  unfold configure
  dsimp only
  split
  · rfl
  rename_i cfg1 asked1 h1
  have r1 : cfg1.rootDir = "" := by
    have h := hfw asked {}
    rw [h1] at h
    exact h
  split
  · rfl
  split
  · rfl
  rename_i cfg2 asked2 h2
  have r2 := (step_rootDir (hver _ _ _) h2).trans r1
  split
  · rfl
  rename_i cfg3 asked3 h3
  have r3 := (step_rootDir (hfile _ _) h3).trans r2
  split
  · rfl
  rename_i cfg4 asked4 h4
  have r4 := (step_rootDir (hplat _ _ _) h4).trans r3
  split
  · rfl
  rename_i cfg5 asked5 h5
  have r5 := (step_rootDir (happs _ _) h5).trans r4
  split
  · rfl
  rename_i cfg6 asked6 h6
  have r6 := (step_rootDir (hdev _ _) h6).trans r5
  split
  · rfl
  rename_i cfg7 asked7 h7
  have r7 := (step_rootDir (hemu _ _) h7).trans r6
  split
  · rfl
  rename_i cfg8 asked8 h8
  have h := hwhen asked7 cfg7
  rw [h8] at h
  exact h.trans r7

end initcmd


/-! ## Properties of the ad-hoc suite and of `runPlaywright` -/

/-- C28: ad-hoc suite. When the `--name` flag is non-empty, `applyEspressoFlags`
replaces the suite list of the project, whatever it contained, by exactly one
suite: its `Name` is the flag value, its `TestOptions` the flag test options, its
`Devices` the single flag device if the device flag was set and empty otherwise,
its `Emulators` the single flag emulator if the emulator flag was set and empty
otherwise. -/
theorem applyEspressoFlags_adhoc_suite (espFlags : espressoFlags) (p : espresso.Project)
    (hname : espFlags.Name ≠ "") :
    (applyEspressoFlags espFlags p).Suites
      = [{ Name := espFlags.Name,
           Devices := if espFlags.Device.Changed then [espFlags.Device.Device] else [],
           Emulators := if espFlags.Emulator.Changed then [espFlags.Emulator.Emulator] else [],
           TestOptions := espFlags.TestOptions }] := by
  simp only [applyEspressoFlags, setAdhocSuite, hname, ne_eq, not_false_eq_true, if_true,
    List.nil_append]

/-- C28, at a concrete input: `--name adhoc --emulator ...` without `--device`
replaces the suite of the project by the suite `adhoc` on that emulator. -/
theorem applyEspressoFlags_adhoc_suite_witness :
    (applyEspressoFlags
      ⟨"adhoc", "", "", ⟨["com.example.Test"], [], "", "", "", 0, 0⟩,
        ⟨⟨"Android Emulator", "", ["11.0"]⟩, true⟩, ⟨⟨"", "", "", ""⟩, false⟩⟩
      exampleEspressoProject).Suites
      = [⟨"adhoc", [], [⟨"Android Emulator", "", ["11.0"]⟩],
          ⟨["com.example.Test"], [], "", "", "", 0, 0⟩⟩] :=
  applyEspressoFlags_adhoc_suite
    ⟨"adhoc", "", "", ⟨["com.example.Test"], [], "", "", "", 0, 0⟩,
      ⟨⟨"Android Emulator", "", ["11.0"]⟩, true⟩, ⟨⟨"", "", "", ""⟩, false⟩⟩
    exampleEspressoProject (by decide)

/-- The first mode loop maps every suite on its own. -/
theorem defaultModeLoop_eq_map (defaultMode : String) :
    ∀ suites : List playwright.Suite,
      defaultModeLoop defaultMode suites
        = suites.map (fun s => if s.Mode = "" then { s with Mode := defaultMode } else s)
  | [] => rfl
  | s :: rest => by simp [defaultModeLoop, defaultModeLoop_eq_map defaultMode rest]

/-- The second mode loop maps every suite on its own. -/
theorem testEnvLoop_eq_map (testEnv : String) :
    ∀ suites : List playwright.Suite,
      testEnvLoop testEnv suites = suites.map (fun s => { s with Mode := testEnv })
  | [] => rfl
  | s :: rest => by simp [testEnvLoop, testEnvLoop_eq_map testEnv rest]

/-- C27: mode defaulting in `runPlaywright`. After the defaulting steps the
default mode of the project is non-empty, `sauce` when it was empty and as it was
otherwise, and every suite has a non-empty mode. With an empty test-env flag a
suite keeps its mode if it had one and otherwise gets the default mode; with a
non-empty flag every suite gets the mode of the flag. The suites are the same in
number and order, with their other fields, and the rest of the project is as it
was. -/
theorem defaultModes_spec (testEnv : String) (p : playwright.Project) :
    (defaultModes testEnv p).Defaults.Mode ≠ "" ∧
    (defaultModes testEnv p).Defaults.Mode
      = (if p.Defaults.Mode = "" then "sauce" else p.Defaults.Mode) ∧
    (∀ s ∈ (defaultModes testEnv p).Suites, s.Mode ≠ "") ∧
    (testEnv = "" →
      (defaultModes testEnv p).Suites
        = p.Suites.map (fun s =>
            if s.Mode = "" then { s with Mode := (defaultModes testEnv p).Defaults.Mode } else s)) ∧
    (testEnv ≠ "" →
      (defaultModes testEnv p).Suites = p.Suites.map (fun s => { s with Mode := testEnv })) ∧
    (defaultModes testEnv p).Suites.map (fun s => (s.Name, s.Env))
      = p.Suites.map (fun s => (s.Name, s.Env)) ∧
    (defaultModes testEnv p).ShowConsoleLog = p.ShowConsoleLog ∧
    (defaultModes testEnv p).RunnerVersion = p.RunnerVersion ∧
    (defaultModes testEnv p).Sauce = p.Sauce := by
  have hdefault : (defaultModes testEnv p).Defaults.Mode
      = (if p.Defaults.Mode = "" then "sauce" else p.Defaults.Mode) := by
    unfold defaultModes
    dsimp only
    repeat' split
    all_goals simp_all
  have hsuites : (defaultModes testEnv p).Suites
      = (if testEnv ≠ "" then p.Suites.map (fun s => { s with Mode := testEnv })
        else p.Suites.map (fun s =>
          if s.Mode = "" then { s with Mode := (defaultModes testEnv p).Defaults.Mode } else s)) := by
    rw [hdefault]
    unfold defaultModes
    dsimp only
    by_cases htest : testEnv = "" <;> by_cases hmode : p.Defaults.Mode = "" <;>
      simp [htest, hmode, defaultModeLoop_eq_map, testEnvLoop_eq_map, List.map_map,
        Function.comp_def, apply_ite]
  have hrest : (defaultModes testEnv p).ShowConsoleLog = p.ShowConsoleLog ∧
      (defaultModes testEnv p).RunnerVersion = p.RunnerVersion ∧
      (defaultModes testEnv p).Sauce = p.Sauce := by
    unfold defaultModes
    dsimp only
    repeat' split
    all_goals exact ⟨rfl, rfl, rfl⟩
  have hne : (defaultModes testEnv p).Defaults.Mode ≠ "" := by
    rw [hdefault]
    by_cases hmode : p.Defaults.Mode = ""
    · rw [if_pos hmode]; decide
    · rw [if_neg hmode]; exact hmode
  refine ⟨hne, hdefault, ?_, fun htest => ?_, fun htest => ?_, ?_, hrest⟩
  · intro s hs
    rw [hsuites] at hs
    by_cases htest : testEnv = ""
    · rw [if_neg (by simpa using htest)] at hs
      obtain ⟨t, -, rfl⟩ := List.mem_map.mp hs
      by_cases ht : t.Mode = ""
      · rw [if_pos ht]; exact hne
      · rw [if_neg ht]; exact ht
    · rw [if_pos htest] at hs
      obtain ⟨t, -, rfl⟩ := List.mem_map.mp hs
      exact htest
  · rw [hsuites, if_neg (by simpa using htest)]
  · rw [hsuites, if_pos htest]
  · rw [hsuites]
    by_cases htest : testEnv = ""
    · rw [if_neg (by simpa using htest), List.map_map]
      apply List.map_congr_left
      intro t _
      by_cases ht : t.Mode = "" <;> simp [ht]
    · rw [if_pos htest, List.map_map]
      apply List.map_congr_left
      intro t _
      rfl

/-- C27, at concrete inputs: without a test-env flag the suite `local` keeps
`docker` and the suite `cloud` gets the default `sauce`; with `--test-env docker`
both get `docker`. -/
theorem defaultModes_examples :
    (defaultModes "" exampleMixedProject).Suites
      = [⟨"local", "docker", none⟩, ⟨"cloud", "sauce", none⟩] ∧
    (defaultModes "" exampleMixedProject).Defaults.Mode = "sauce" ∧
    (defaultModes "docker" exampleMixedProject).Suites
      = [⟨"local", "docker", none⟩, ⟨"cloud", "docker", none⟩] := by
  decide

namespace docker

/-- C30: `defineDockerImage` is idempotent. For every runner and default image,
applying it to the runner it leaves returns the same error or nil and leaves the
same runner, hence the same project, as applying it once. -/
theorem defineDockerImage_idempotent (DefaultDockerImage : String) (r : CypressRunner) :
    defineDockerImage DefaultDockerImage (defineDockerImage DefaultDockerImage r).2
      = defineDockerImage DefaultDockerImage r := by
  obtain ⟨⟨sauce, cy, suites, hooks, ⟨⟨name, tag⟩⟩⟩, cid, cc, evs⟩ := r
  have hv := derived_tag_ne_empty cy.Version
  by_cases hversion : cy.Version = ""
  · by_cases hname : name = "" <;> by_cases htag : tag = "" <;>
      simp [defineDockerImage, hversion, hname, htag]
  · by_cases hname : name = ""
    · subst hname
      by_cases hd : DefaultDockerImage = ""
      · subst hd
        by_cases htag : tag = "" <;>
          simp [defineDockerImage, hversion, htag, hv, setImageTag, setImageName]
      · have hd2 : ¬ ("" = DefaultDockerImage) := fun h => hd h.symm
        simp [defineDockerImage, hversion, hd, hd2, hv, setImageTag, setImageName]
    · by_cases htag : tag = ""
      · subst htag
        by_cases hd : name = DefaultDockerImage
        · subst hd
          simp [defineDockerImage, hversion, hname, hv, setImageTag, setImageName]
        · simp [defineDockerImage, hversion, hname, hd, setImageTag, setImageName]
      · simp [defineDockerImage, hversion, hname, htag]

/-- C30, at concrete inputs: a project without image, and a project without
image and without Cypress version. -/
theorem defineDockerImage_idempotent_examples :
    defineDockerImage "saucelabs/stt-cypress-mocha-node"
      (defineDockerImage "saucelabs/stt-cypress-mocha-node" (freshRunner ⟨"", ""⟩ "5.6.0" [])).2
      = (none, freshRunner ⟨"saucelabs/stt-cypress-mocha-node", "v5.6.0"⟩ "5.6.0" []) ∧
    defineDockerImage "saucelabs/stt-cypress-mocha-node"
      (defineDockerImage "saucelabs/stt-cypress-mocha-node" (freshRunner ⟨"", "1"⟩ "" [])).2
      = (some missingCypressVersion, freshRunner ⟨"", "1"⟩ "" []) := by
  decide

end docker


/-- The end of `runPlaywright`, where docker suites gate sauce suites. With the
project split into a docker part and a sauce part: if the docker part has a suite and its
run returns a non-nil error or a non-zero count, the result is exactly that pair
and only the docker part was run; if the docker part has no suite, or its run
returns `(0, nil)`, the result is that of the sauce run when the sauce part has a
suite, and `(0, nil)` with no sauce run otherwise. The docker part is run exactly
when it has a suite. -/
theorem runSplitSuites_gate (P : PlaywrightDeps) (p dockerProject sauceProject : playwright.Project)
    (hsplit : P.SplitSuites p = (dockerProject, sauceProject)) :
    (dockerProject.Suites ≠ [] →
      ((runPlaywrightInDocker P dockerProject).2 ≠ none ∨
        (runPlaywrightInDocker P dockerProject).1 ≠ 0) →
      runSplitSuites P p
        = (runPlaywrightInDocker P dockerProject, [Launched.docker dockerProject])) ∧
    (dockerProject.Suites ≠ [] → runPlaywrightInDocker P dockerProject = (0, none) →
      sauceProject.Suites ≠ [] →
      runSplitSuites P p
        = (runPlaywrightInSauce P sauceProject,
            [Launched.docker dockerProject, Launched.sauce sauceProject])) ∧
    (dockerProject.Suites ≠ [] → runPlaywrightInDocker P dockerProject = (0, none) →
      sauceProject.Suites = [] →
      runSplitSuites P p = ((0, none), [Launched.docker dockerProject])) ∧
    (dockerProject.Suites = [] → sauceProject.Suites ≠ [] →
      runSplitSuites P p = (runPlaywrightInSauce P sauceProject, [Launched.sauce sauceProject])) ∧
    (dockerProject.Suites = [] → sauceProject.Suites = [] →
      runSplitSuites P p = ((0, none), [])) := by
  refine ⟨fun hd hfail => ?_, fun hd hok hs => ?_, fun hd hok hs => ?_, fun hd hs => ?_,
    fun hd hs => ?_⟩
  · rcases hrun : runPlaywrightInDocker P dockerProject with ⟨exitCode, err⟩
    rw [hrun] at hfail
    simp only [ne_eq] at hfail
    have hlen : dockerProject.Suites.length ≠ 0 := by simpa using hd
    simp only [runSplitSuites, hsplit, hlen, ne_eq, not_false_eq_true, if_true, hrun, hfail]
  · have hlen : dockerProject.Suites.length ≠ 0 := by simpa using hd
    have hslen : sauceProject.Suites.length ≠ 0 := by simpa using hs
    simp [runSplitSuites, hsplit, hlen, hslen, hok]
  · have hlen : dockerProject.Suites.length ≠ 0 := by simpa using hd
    simp [runSplitSuites, hsplit, hlen, hs, hok]
  · have hslen : sauceProject.Suites.length ≠ 0 := by simpa using hs
    simp [runSplitSuites, hsplit, hd, hslen]
  · simp [runSplitSuites, hsplit, hd, hs]

/-- The end of `runPlaywright` at concrete inputs: the docker suite `local` fails
with count 2, and the sauce suite `cloud` is not run although its run would return `(0, nil)`; when the
docker run returns `(0, nil)` the result is that of the sauce run. -/
theorem runSplitSuites_gate_witness :
    runSplitSuites (examplePlaywrightDeps (2, none) (0, none)) exampleMixedProject
      = ((2, none), [Launched.docker { exampleMixedProject with Suites := [⟨"local", "docker", none⟩] }]) ∧
    runSplitSuites (examplePlaywrightDeps (0, none) (1, none)) exampleMixedProject
      = ((1, none),
          [Launched.docker { exampleMixedProject with Suites := [⟨"local", "docker", none⟩] },
            Launched.sauce { exampleMixedProject with Suites := [⟨"cloud", "", none⟩] }]) :=
  ⟨(runSplitSuites_gate (examplePlaywrightDeps (2, none) (0, none)) exampleMixedProject
      { exampleMixedProject with Suites := [⟨"local", "docker", none⟩] }
      { exampleMixedProject with Suites := [⟨"cloud", "", none⟩] } (by decide)).1
      (by decide) (by decide),
    by decide⟩

/-- When the configuration is read, the suite filter passes and the region is
known, `runPlaywright` is `runSplitSuites` on the project after the mode
defaulting. -/
theorem runPlaywright_eq_runSplitSuites (P : PlaywrightDeps) (p0 p1 : playwright.Project)
    (hfile : P.FromFile = (p0, none))
    (hsuite :
      let p := { p0 with Sauce := P.overrideCliParameters (P.applyDefaultValues p0.Sauce) }
      let p := mergeEnv P.env p
      let p := if P.showConsoleLog then { p with ShowConsoleLog := true } else p
      let p := if P.runnerVersion ≠ "" then { p with RunnerVersion := P.runnerVersion } else p
      (if P.suiteChanged then filterPlaywrightSuite P.suiteName p else (none, p)) = (none, p1))
    (hregion : P.regionKnown (defaultModes P.testEnv p1).Sauce.Region = true) :
    runPlaywright P = runSplitSuites P (defaultModes P.testEnv p1) := by
  dsimp only at hsuite
  unfold runPlaywright
  simp only [hfile]
  rw [hsuite]
  simp only [hregion, Bool.true_eq_false, if_false]

/-- C26: docker suites gate sauce suites in `runPlaywright`. When the
configuration file is read as `p0`, the suite filter (if requested) passes and
leaves `p1`, and the region of the project is known, `runPlaywright` splits the
project after mode defaulting into a docker part and a sauce part, and: if the
docker part has a suite and its run returns a non-nil error or a non-zero count,
`runPlaywright` returns exactly that pair and only the docker part was run; if
the docker part has no suite, or its run returns `(0, nil)`, `runPlaywright`
returns the result of the sauce run when the sauce part has a suite, and
`(0, nil)` with no sauce run otherwise. The docker part is run exactly when it
has a suite. -/
theorem runPlaywright_gate (P : PlaywrightDeps)
    (p0 p1 dockerProject sauceProject : playwright.Project)
    (hfile : P.FromFile = (p0, none))
    (hsuite :
      let p := { p0 with Sauce := P.overrideCliParameters (P.applyDefaultValues p0.Sauce) }
      let p := mergeEnv P.env p
      let p := if P.showConsoleLog then { p with ShowConsoleLog := true } else p
      let p := if P.runnerVersion ≠ "" then { p with RunnerVersion := P.runnerVersion } else p
      (if P.suiteChanged then filterPlaywrightSuite P.suiteName p else (none, p)) = (none, p1))
    (hregion : P.regionKnown (defaultModes P.testEnv p1).Sauce.Region = true)
    (hsplit : P.SplitSuites (defaultModes P.testEnv p1) = (dockerProject, sauceProject)) :
    (dockerProject.Suites ≠ [] →
      ((runPlaywrightInDocker P dockerProject).2 ≠ none ∨
        (runPlaywrightInDocker P dockerProject).1 ≠ 0) →
      runPlaywright P
        = (runPlaywrightInDocker P dockerProject, [Launched.docker dockerProject])) ∧
    (dockerProject.Suites ≠ [] → runPlaywrightInDocker P dockerProject = (0, none) →
      sauceProject.Suites ≠ [] →
      runPlaywright P
        = (runPlaywrightInSauce P sauceProject,
            [Launched.docker dockerProject, Launched.sauce sauceProject])) ∧
    (dockerProject.Suites ≠ [] → runPlaywrightInDocker P dockerProject = (0, none) →
      sauceProject.Suites = [] →
      runPlaywright P = ((0, none), [Launched.docker dockerProject])) ∧
    (dockerProject.Suites = [] → sauceProject.Suites ≠ [] →
      runPlaywright P = (runPlaywrightInSauce P sauceProject, [Launched.sauce sauceProject])) ∧
    (dockerProject.Suites = [] → sauceProject.Suites = [] →
      runPlaywright P = ((0, none), [])) := by
  rw [runPlaywright_eq_runSplitSuites P p0 p1 hfile hsuite hregion]
  exact runSplitSuites_gate P (defaultModes P.testEnv p1) dockerProject sauceProject hsplit

/-- C26, at concrete inputs: the configuration holds the docker suite `local` and
the suite `cloud`, which the mode defaulting sends to sauce. The docker run fails
with count 2: `runPlaywright` returns `(2, nil)` and the sauce suite is not run,
although its run would return `(0, nil)`. -/
theorem runPlaywright_gate_witness :
    runPlaywright
        { examplePlaywrightDeps (2, none) (0, none) with FromFile := (exampleMixedProject, none) }
      = ((2, none),
          [Launched.docker
            { exampleMixedProject with
              Defaults := ⟨"sauce"⟩
              Suites := [⟨"local", "docker", none⟩] }]) :=
  (runPlaywright_gate
      { examplePlaywrightDeps (2, none) (0, none) with FromFile := (exampleMixedProject, none) }
      exampleMixedProject exampleMixedProject
      { exampleMixedProject with Defaults := ⟨"sauce"⟩, Suites := [⟨"local", "docker", none⟩] }
      { exampleMixedProject with Defaults := ⟨"sauce"⟩, Suites := [⟨"cloud", "sauce", none⟩] }
      rfl (by decide) (by decide) (by decide)).1 (by decide) (by decide)

/-- More runs of `runPlaywright` on the same configuration: a docker run that
returns `(0, nil)` is followed by the sauce run, whose result is returned; an
unknown region or a failing read of the configuration runs nothing. -/
theorem runPlaywright_examples :
    runPlaywright
        { examplePlaywrightDeps (0, none) (1, none) with FromFile := (exampleMixedProject, none) }
      = ((1, none),
          [Launched.docker
            { exampleMixedProject with
              Defaults := ⟨"sauce"⟩
              Suites := [⟨"local", "docker", none⟩] },
            Launched.sauce
              { exampleMixedProject with
                Defaults := ⟨"sauce"⟩
                Suites := [⟨"cloud", "sauce", none⟩] }]) ∧
    runPlaywright
        { examplePlaywrightDeps (0, none) (1, none) with
          FromFile := ({ exampleMixedProject with Sauce := ⟨"mars", 1⟩ }, none) }
      = ((1, some "no sauce region set"), []) ∧
    runPlaywright
        { examplePlaywrightDeps (0, none) (1, none) with
          FromFile := (exampleMixedProject, some "no such file") }
      = ((1, some "no such file"), []) := by
  decide

namespace sauceignore

/-- The scanning loop keeps, in order and after the patterns collected so far,
the lines that are not comments and not blank. -/
theorem patternsFromLines_eq :
    ∀ (lines : List String) (ps : List Pattern),
      patternsFromLines lines ps
        = ps ++ (lines.filter
            (fun s => !HasPrefix s commentPrefix && decide ((TrimSpace s).length > 0))).map NewPattern
  | [], ps => by simp [patternsFromLines]
  | s :: rest, ps => by
    by_cases hkeep : (!HasPrefix s commentPrefix && decide ((TrimSpace s).length > 0)) = true
    · simp only [patternsFromLines, hkeep, if_true, List.filter_cons_of_pos, List.map_cons]
      rw [patternsFromLines_eq rest (ps ++ [NewPattern s])]
      simp
    · have hfilter : (s :: rest).filter
          (fun s => !HasPrefix s commentPrefix && decide ((TrimSpace s).length > 0))
          = rest.filter
            (fun s => !HasPrefix s commentPrefix && decide ((TrimSpace s).length > 0)) :=
        List.filter_cons_of_neg hkeep
      simp only [patternsFromLines, hkeep, if_false, Bool.false_eq_true]
      rw [patternsFromLines_eq rest ps, hfilter]

/-- Trimming leaves something of a string that holds a character other than
white space. -/
theorem TrimSpace_length_pos (s : String) (c : Char) (hc : c ∈ s.data) (hns : isSpace c = false) :
    (TrimSpace s).length > 0 := by
  have hfront : c ∈ s.data.dropWhile isSpace := by
    have hsplit := List.takeWhile_append_dropWhile isSpace s.data
    rw [← hsplit] at hc
    rcases List.mem_append.mp hc with h | h
    · have := List.mem_takeWhile_imp h
      rw [hns] at this
      cases this
    · exact h
  have hback : c ∈ (s.data.dropWhile isSpace).reverse.dropWhile isSpace := by
    have hrev : c ∈ (s.data.dropWhile isSpace).reverse := List.mem_reverse.mpr hfront
    have hsplit := List.takeWhile_append_dropWhile isSpace (s.data.dropWhile isSpace).reverse
    rw [← hsplit] at hrev
    rcases List.mem_append.mp hrev with h | h
    · have := List.mem_takeWhile_imp h
      rw [hns] at this
      cases this
    · exact h
  have hmem : c ∈ (TrimSpace s).data := by
    simp only [TrimSpace]
    exact List.mem_reverse.mpr hback
  exact List.length_pos_of_mem hmem

/-- C25: ignore-file parsing. For every file that can be opened, `patternsFromFile`
returns nil and the patterns are exactly the lines the scanner reads from the
file, in file order and with their text as it is, that do not start with `#` and
are not empty after trimming white space. In particular there are no more
patterns than lines, and a line whose first character is white space followed by
`#` is kept. -/
theorem patternsFromFile_lines (D : Deps) (path f : String)
    (hopen : D.Open (D.Join path) = (f, none)) :
    patternsFromFile D path
      = (((D.Scan f).filter
          (fun s => !HasPrefix s "#" && decide ((TrimSpace s).length > 0))).map
            (fun s => ({ P := s } : Pattern)), none) ∧
    (patternsFromFile D path).1.length ≤ (D.Scan f).length ∧
    (∀ (c : Char) (rest : List Char), isSpace c = true →
      (⟨c :: '#' :: rest⟩ : String) ∈ D.Scan f →
      ({ P := ⟨c :: '#' :: rest⟩ } : Pattern) ∈ (patternsFromFile D path).1) := by
  have heq : patternsFromFile D path
      = (((D.Scan f).filter
          (fun s => !HasPrefix s "#" && decide ((TrimSpace s).length > 0))).map
            (fun s => ({ P := s } : Pattern)), none) := by
    simp only [patternsFromFile, hopen, patternsFromLines_eq, List.nil_append]
    rfl
  refine ⟨heq, ?_, fun c rest hspace hmem => ?_⟩
  · rw [heq]
    simp only [List.length_map]
    exact List.length_filter_le _ _
  · rw [heq]
    simp only
    apply List.mem_map.mpr
    refine ⟨⟨c :: '#' :: rest⟩, ?_, rfl⟩
    apply List.mem_filter.mpr
    refine ⟨hmem, ?_⟩
    have hhash : HasPrefix ⟨c :: '#' :: rest⟩ "#" = false := by
      have hne : c ≠ '#' := by
        intro h
        subst h
        exact absurd hspace (by decide)
      have hbeq : ('#' == c) = false := by
        simpa using fun h : '#' = c => hne h.symm
      show List.isPrefixOf "#".data (c :: '#' :: rest) = false
      have hdata : "#".data = ['#'] := by decide
      rw [hdata]
      simp [List.isPrefixOf, hbeq]
    have htrim : (TrimSpace ⟨c :: '#' :: rest⟩).length > 0 :=
      TrimSpace_length_pos ⟨c :: '#' :: rest⟩ '#' (by simp) (by decide)
    simp [hhash, htrim]

/-- C25, on the example file system: of the four lines of `.sauceignore`, the
comment and the empty line are dropped, and the line ` #kept` is kept. -/
theorem patternsFromFile_lines_witness :
    exampleDeps.Scan "# comment\nnode_modules/\n\n #kept\n"
      = ["# comment", "node_modules/", "", " #kept"] ∧
    patternsFromFile exampleDeps ".sauceignore" = ([⟨"node_modules/"⟩, ⟨" #kept"⟩], none) :=
  ⟨by decide,
    ((patternsFromFile_lines exampleDeps ".sauceignore" "# comment\nnode_modules/\n\n #kept\n"
      (by decide)).1).trans (by decide)⟩

end sauceignore


namespace initcmd

/-- A step that is skipped meets `StepSpec`. -/
theorem StepSpec.skip (native : Bool) (ini : initiator) (cfg : initConfig) (asked : List Asked) :
    StepSpec native ini cfg asked (none, cfg, asked) :=
  ⟨[], by simp, fun _ => ⟨rfl, by simp, fun _ => ⟨rfl, rfl, rfl, rfl, rfl⟩⟩, fun e h => by simp at h⟩

/-- A step under an `if` meets `StepSpec` when the step does. -/
theorem StepSpec.optional {native : Bool} {ini : initiator} {cfg : initConfig}
    {asked : List Asked} {step : Option String × initConfig × List Asked} (needed : Bool)
    (h : needed = true → StepSpec native ini cfg asked step) :
    StepSpec native ini cfg asked (if needed = true then step else (none, cfg, asked)) := by
  cases needed with
  | true => simpa using h rfl
  | false => simpa using StepSpec.skip native ini cfg asked

/-- The version question meets `StepSpec` for a framework that is not native. -/
theorem askVersion_spec (ini : initiator) (asked : List Asked) (cfg : initConfig)
    (ms : List framework.Metadata) :
    StepSpec false ini cfg asked (askVersion ini asked cfg ms) := by
  unfold askVersion
  dsimp only [ask]
  refine ⟨[_], rfl, fun h => ⟨rfl, ?_, fun hn => by simp at hn⟩, fun e h => ?_⟩
  · simpa using h
  · exact Or.inr (Or.inr (Or.inr (Or.inr ⟨_, List.mem_singleton.mpr rfl, h⟩)))

/-- The cypress configuration file question meets `StepSpec` for a framework that
is not native. -/
theorem askCypressJson_spec (ini : initiator) (asked : List Asked) (cfg : initConfig) :
    StepSpec false ini cfg asked
      (match askFile ini asked "Cypress configuration file:" cfg.frameworkName cfg.cypressJson with
        | (err, cypressJson, asked) => (err, { cfg with cypressJson := cypressJson }, asked)) := by
  unfold askFile
  dsimp only [ask]
  refine ⟨[_], rfl, fun h => ⟨rfl, ?_, fun hn => by simp at hn⟩, fun e h => ?_⟩
  · simpa using h
  · exact Or.inr (Or.inr (Or.inr (Or.inr ⟨_, List.mem_singleton.mpr rfl, h⟩)))

/-- One question whose error is returned as it is meets `StepSpec`, when the
configuration it leaves is carried over. -/
theorem StepSpec.single {native : Bool} {ini : initiator} {cfg cfg2 : initConfig}
    {asked : List Asked} (a : Asked)
    (hcarry : Carries native cfg cfg2 []) :
    StepSpec native ini cfg asked (a.err, cfg2, asked ++ [a]) := by
  refine ⟨[a], rfl, fun h => ⟨hcarry.1, ?_, hcarry.2.2⟩, fun e h => ?_⟩
  · intro x hx
    rw [List.mem_singleton.mp hx]
    exact h
  · exact Or.inr (Or.inr (Or.inr (Or.inr ⟨a, List.mem_singleton.mpr rfl, h⟩)))

/-- The platform and browser questions meet `StepSpec` for a framework that is
not native. -/
theorem askPlatform_spec (ini : initiator) (asked : List Asked) (cfg : initConfig)
    (ms : List framework.Metadata) :
    StepSpec false ini cfg asked (askPlatform ini asked cfg ms) := by
  unfold askPlatform
  dsimp only [ask]
  generalize ini.AskOne asked _ cfg.platformName = A
  obtain ⟨p, e1⟩ := A
  cases e1 with
  | some e =>
    exact StepSpec.single ⟨_, p, some e⟩ ⟨rfl, by simp, fun hn => by simp at hn⟩
  | none =>
    dsimp only
    generalize ini.AskOne _ _ cfg.browserName = B
    obtain ⟨b, e2⟩ := B
    cases e2 with
    | some e =>
      dsimp only
      refine ⟨_, List.append_assoc _ _ _, fun h => by simp at h, fun e' h => ?_⟩
      exact Or.inr (Or.inr (Or.inr (Or.inr
        ⟨_, List.mem_append.mpr (Or.inr (List.mem_singleton.mpr rfl)), h⟩)))
    | none =>
      dsimp only
      split
      · exact ⟨_, List.append_assoc _ _ _, fun _ => ⟨rfl, by simp, fun hn => by simp at hn⟩,
          fun e' h => by simp at h⟩
      · exact ⟨_, List.append_assoc _ _ _, fun _ => ⟨rfl, by simp, fun hn => by simp at hn⟩,
          fun e' h => by simp at h⟩

/-- The application questions meet `StepSpec`. -/
theorem configureApps_spec (native : Bool) (ini : initiator) (asked : List Asked)
    (cfg : initConfig) : StepSpec native ini cfg asked (configureApps ini asked cfg) := by
  unfold configureApps
  dsimp only [askFile, ask]
  generalize ini.AskOne asked _ cfg.app = A
  obtain ⟨app, e1⟩ := A
  cases e1 with
  | some e =>
    exact StepSpec.single ⟨_, app, some e⟩ ⟨rfl, by simp, fun _ => ⟨rfl, rfl, rfl, rfl, rfl⟩⟩
  | none =>
    dsimp only
    generalize ini.AskOne _ _ cfg.testApp = B
    obtain ⟨testApp, e2⟩ := B
    refine ⟨_, List.append_assoc _ _ _, fun h => ⟨rfl, ?_, fun _ => ⟨rfl, rfl, rfl, rfl, rfl⟩⟩,
      fun e' h => ?_⟩
    · simp only at h
      subst h
      simp
    · exact Or.inr (Or.inr (Or.inr (Or.inr
        ⟨_, List.mem_append.mpr (Or.inr (List.mem_singleton.mpr rfl)), h⟩)))

/-- The device question meets `StepSpec`. -/
theorem configureDevice_spec (native : Bool) (ini : initiator) (asked : List Asked)
    (cfg : initConfig) : StepSpec native ini cfg asked (configureDevice ini asked cfg) := by
  unfold configureDevice askDevice
  dsimp only [ask]
  exact StepSpec.single ⟨_, _, _⟩ ⟨rfl, by simp, fun _ => ⟨rfl, rfl, rfl, rfl, rfl⟩⟩

/-- The emulator lookup and question meet `StepSpec`. -/
theorem configureEmulator_spec (native : Bool) (ini : initiator) (asked : List Asked)
    (cfg : initConfig) : StepSpec native ini cfg asked (configureEmulator ini asked cfg) := by
  unfold configureEmulator askEmulator
  dsimp only [ask]
  rcases hread : ini.GetVirtualDevices ini.AndroidEmulator with ⟨vmds, e⟩
  cases e with
  | some e =>
    dsimp only
    refine ⟨[], by simp, fun h => by simp at h, fun e' h => ?_⟩
    simp only [Option.some.injEq] at h
    subst h
    exact Or.inr (Or.inr (Or.inr (Or.inl ⟨ini.AndroidEmulator, by rw [hread]⟩)))
  | none =>
    dsimp only
    exact StepSpec.single ⟨_, _, _⟩ ⟨rfl, by simp, fun _ => ⟨rfl, rfl, rfl, rfl, rfl⟩⟩

/-- The download policy question meets `StepSpec`. -/
theorem askDownloadWhen_spec (native : Bool) (ini : initiator) (asked : List Asked)
    (cfg : initConfig) : StepSpec native ini cfg asked (askDownloadWhen ini asked cfg) := by
  unfold askDownloadWhen
  dsimp only [ask]
  generalize ini.AskOne asked _ "" = A
  obtain ⟨when, e⟩ := A
  cases e with
  | some e =>
    exact StepSpec.single ⟨_, when, some e⟩ ⟨rfl, by simp, fun _ => ⟨rfl, rfl, rfl, rfl, rfl⟩⟩
  | none =>
    exact StepSpec.single ⟨_, when, none⟩ ⟨rfl, by simp, fun _ => ⟨rfl, rfl, rfl, rfl, rfl⟩⟩

end initcmd


namespace initcmd

/-- Origins in a part of the questions are origins in all of them. -/
theorem Origin.mono {ini : initiator} {e : String} {evs : List Asked} (pre : List Asked)
    (h : Origin ini e evs) : Origin ini e (pre ++ evs) := by
  rcases h with h | h | h | h | ⟨x, hx, hxe⟩
  · exact Or.inl h
  · exact Or.inr (Or.inl h)
  · exact Or.inr (Or.inr (Or.inl h))
  · exact Or.inr (Or.inr (Or.inr (Or.inl h)))
  · exact Or.inr (Or.inr (Or.inr (Or.inr ⟨x, List.mem_append.mpr (Or.inr hx), hxe⟩)))

/-- A step taken after what was carried over so far meets `StepSpec` from the
start. -/
theorem StepSpec.after {native : Bool} {ini : initiator} {cfg1 cfg : initConfig}
    {asked1 asked : List Asked} {evs : List Asked}
    {step : Option String × initConfig × List Asked}
    (hsofar : asked = asked1 ++ evs ∧ Carries native cfg1 cfg evs)
    (hstep : StepSpec native ini cfg asked step) :
    StepSpec native ini cfg1 asked1 step := by
  obtain ⟨hasked, hc⟩ := hsofar
  obtain ⟨evs2, he2, hc2, ho2⟩ := hstep
  refine ⟨evs ++ evs2, by rw [he2, hasked, List.append_assoc], fun h => ?_,
    fun e h => Origin.mono evs (ho2 e h)⟩
  have hc2 := hc2 h
  refine ⟨hc2.1.trans hc.1, ?_, fun hn => ?_⟩
  · intro x hx
    rcases List.mem_append.mp hx with hx | hx
    · exact hc.2.1 x hx
    · exact hc2.2.1 x hx
  · obtain ⟨a1, a2, a3, a4, a5⟩ := hc.2.2 hn
    obtain ⟨b1, b2, b3, b4, b5⟩ := hc2.2.2 hn
    exact ⟨b1.trans a1, b2.trans a2, b3.trans a3, b4.trans a4, b5.trans a5⟩

/-- What a successful step leaves, read off `StepSpec`. -/
theorem StepSpec.ok {native : Bool} {ini : initiator} {cfg1 cfg2 : initConfig}
    {asked1 asked2 : List Asked} {step : Option String × initConfig × List Asked}
    (hstep : StepSpec native ini cfg1 asked1 step) (h : step = (none, cfg2, asked2)) :
    ∃ evs, asked2 = asked1 ++ evs ∧ Carries native cfg1 cfg2 evs := by
  obtain ⟨evs, he, hc, -⟩ := hstep
  rw [h] at he hc
  exact ⟨evs, he, hc rfl⟩

/-- The result of `configure` when a step fails meets `ConfigureSpec`. -/
theorem StepSpec.fail {native : Bool} {ini : initiator} {cfg1 cfg2 : initConfig}
    {asked first asked1 asked2 : List Asked} {err : String}
    {step : Option String × initConfig × List Asked}
    (hfirst : asked1 = asked ++ first)
    (hstep : StepSpec native ini cfg1 asked1 step) (h : step = (some err, cfg2, asked2)) :
    ConfigureSpec ini asked (({}, some err), asked2) := by
  obtain ⟨evs, he, -, ho⟩ := hstep
  rw [h] at he ho
  simp only at he ho
  refine ⟨first ++ evs, by rw [he, hfirst, List.append_assoc], fun e hsome => ?_,
    fun hnone => by simp at hnone⟩
  simp only [Option.some.injEq] at hsome
  subst hsome
  exact ⟨rfl, Origin.mono first (ho err rfl)⟩

/-- A native framework is not cypress. -/
theorem needsCypressJson_of_native {f : String} (h : isNativeFramework f = true) :
    needsCypressJson f = false := by
  simp only [isNativeFramework, config.KindEspresso, config.KindXcuitest, Bool.or_eq_true,
    beq_iff_eq] at h
  rcases h with rfl | rfl <;> decide

end initcmd


namespace initcmd

/-- What `askFramework` does on an empty configuration: it fails without a
question when the frameworks cannot be read; otherwise it asks one question and
either fails, or leaves the lower-cased non-empty answer as the only answer. -/
theorem askFramework_first (ini : initiator) (asked : List Asked) :
    (∃ e, askFramework ini asked {} = (some e, {}, asked) ∧ ini.Frameworks.2 = some e) ∨
    ∃ a : Asked, (askFramework ini asked {}).2.2 = asked ++ [a] ∧
      ((askFramework ini asked {}).1 = some "interrupting configuration" ∨
        (askFramework ini asked {}).1 = a.err) ∧
      ((askFramework ini asked {}).1 = none →
        a.answer ≠ "" ∧
        (askFramework ini asked {}).2.1 = { frameworkName := ini.ToLower a.answer }) := by
  rcases hread : ini.Frameworks with ⟨values, e⟩
  cases e with
  | some e =>
    refine Or.inl ⟨e, ?_, rfl⟩
    simp only [askFramework, hread]
  | none =>
    rcases hA : ini.AskOne asked
      (Prompt.Select "Select framework:"
        (values.foldl (fun frameworks f => frameworks ++ [f.Name]) []) "") "" with ⟨s, err⟩
    refine Or.inr ⟨⟨Prompt.Select "Select framework:"
        (values.foldl (fun frameworks f => frameworks ++ [f.Name]) []) "", s, err⟩, ?_⟩
    by_cases hs : s = ""
    · subst hs
      simp [askFramework, ask, hread, hA]
    · simp [askFramework, ask, hread, hA, hs]

/-- What a successful download policy question leaves. -/
theorem askDownloadWhen_ok {ini : initiator} {asked asked2 : List Asked} {cfg cfg2 : initConfig}
    (h : askDownloadWhen ini asked cfg = (none, cfg2, asked2)) :
    ∃ w : Asked, asked2 = asked ++ [w] ∧ w.err = none ∧
      cfg2 = { cfg with artifactWhen := mapWhenAt w.answer } := by
  rcases hA : ini.AskOne asked
    (Prompt.Select "Download artifacts:" whenStrings (whenStrings.getD 0 "")) "" with ⟨when, err⟩
  cases err with
  | some e =>
    simp only [askDownloadWhen, ask, hA] at h
    simp at h
  | none =>
    simp only [askDownloadWhen, ask, hA, Prod.mk.injEq, true_and] at h
    exact ⟨⟨_, when, none⟩, h.2.symm, rfl, h.1.symm⟩

/-- The function `configure` meets `ConfigureSpec`. -/
theorem configure_spec (ini : initiator) (asked : List Asked) :
    ConfigureSpec ini asked (configure ini asked) := by
  unfold configure
  dsimp only
  have hfirst := askFramework_first ini asked
  split
  · rename_i err x asked1 h
    rw [h] at hfirst
    rcases hfirst with ⟨e, he, hread⟩ | ⟨a, hasked, herr, -⟩
    · simp only [Prod.mk.injEq, Option.some.injEq] at he
      obtain ⟨rfl, -, rfl⟩ := he
      exact ⟨[], by simp, fun e' h' => ⟨rfl, Or.inr (Or.inl (by simpa using h' ▸ hread))⟩,
        fun h' => by simp at h'⟩
    · simp only at hasked herr
      refine ⟨[a], hasked, fun e' h' => ⟨rfl, ?_⟩, fun h' => by simp at h'⟩
      simp only [Option.some.injEq] at h'
      subst h'
      rcases herr with herr | herr
      · exact Or.inl (by simpa using herr)
      · exact Or.inr (Or.inr (Or.inr (Or.inr ⟨a, List.mem_singleton.mpr rfl, herr.symm⟩)))
  rename_i cfg1 asked1 h1
  rw [h1] at hfirst
  rcases hfirst with ⟨e, he, -⟩ | ⟨a, hasked, herr, hok⟩
  · simp at he
  simp only at hasked herr
  have haerr : a.err = none := by
    rcases herr with herr | herr
    · simp at herr
    · exact herr.symm
  obtain ⟨hanswer, hcfg1⟩ := hok rfl
  simp only at hcfg1
  have hstart : asked1 = asked1 ++ [] ∧
      Carries (isNativeFramework cfg1.frameworkName) cfg1 cfg1 [] :=
    ⟨by simp, rfl, by simp, fun _ => ⟨rfl, rfl, rfl, rfl, rfl⟩⟩
  -- reading the versions
  split
  · rename_i ms err hversions
    refine ⟨[a], hasked, fun e' h' => ⟨rfl, ?_⟩, fun h' => by simp at h'⟩
    simp only [Option.some.injEq] at h'
    subst h'
    exact Or.inr (Or.inr (Or.inl ⟨cfg1.frameworkName, by rw [hversions]⟩))
  rename_i ms hversions
  -- the version question
  have hs2 : StepSpec (isNativeFramework cfg1.frameworkName) ini cfg1 asked1
      (if needsVersion cfg1.frameworkName = true then askVersion ini asked1 cfg1 ms
        else (none, cfg1, asked1)) := by
    cases hn : isNativeFramework cfg1.frameworkName with
    | true => simpa [needsVersion, hn] using StepSpec.skip true ini cfg1 asked1
    | false => exact StepSpec.optional _ (fun _ => askVersion_spec ini asked1 cfg1 ms)
  split
  · rename_i err x asked2 h2
    exact StepSpec.fail hasked hs2 h2
  rename_i cfg2 asked2 h2
  obtain ⟨E2, hE2, hC2⟩ := StepSpec.ok hs2 h2
  -- the cypress configuration file question
  have hs3 : StepSpec (isNativeFramework cfg1.frameworkName) ini cfg1 asked1
      (if needsCypressJson cfg2.frameworkName = true then
        match askFile ini asked2 "Cypress configuration file:" cfg2.frameworkName cfg2.cypressJson with
        | (err, cypressJson, asked) => (err, { cfg2 with cypressJson := cypressJson }, asked)
      else (none, cfg2, asked2)) := by
    refine StepSpec.after ⟨hE2, hC2⟩ ?_
    cases hn : isNativeFramework cfg1.frameworkName with
    | true =>
      have hskip : needsCypressJson cfg2.frameworkName = false :=
        needsCypressJson_of_native (by rw [hC2.1]; exact hn)
      simpa [hskip] using StepSpec.skip true ini cfg2 asked2
    | false => exact StepSpec.optional _ (fun _ => askCypressJson_spec ini asked2 cfg2)
  split
  · rename_i err x asked3 h3
    exact StepSpec.fail hasked hs3 h3
  rename_i cfg3 asked3 h3
  obtain ⟨E3, hE3, hC3⟩ := StepSpec.ok hs3 h3
  -- the platform and browser questions
  have hs4 : StepSpec (isNativeFramework cfg1.frameworkName) ini cfg1 asked1
      (if needsPlatform cfg3.frameworkName = true then askPlatform ini asked3 cfg3 ms
        else (none, cfg3, asked3)) := by
    refine StepSpec.after ⟨hE3, hC3⟩ ?_
    cases hn : isNativeFramework cfg1.frameworkName with
    | true =>
      have hskip : needsPlatform cfg3.frameworkName = false := by
        simp [needsPlatform, hC3.1, hn]
      simpa [hskip] using StepSpec.skip true ini cfg3 asked3
    | false => exact StepSpec.optional _ (fun _ => askPlatform_spec ini asked3 cfg3 ms)
  split
  · rename_i err x asked4 h4
    exact StepSpec.fail hasked hs4 h4
  rename_i cfg4 asked4 h4
  obtain ⟨E4, hE4, hC4⟩ := StepSpec.ok hs4 h4
  -- the application questions
  have hs5 : StepSpec (isNativeFramework cfg1.frameworkName) ini cfg1 asked1
      (if needsApps cfg4.frameworkName = true then configureApps ini asked4 cfg4
        else (none, cfg4, asked4)) :=
    StepSpec.after ⟨hE4, hC4⟩
      (StepSpec.optional _ (fun _ => configureApps_spec _ ini asked4 cfg4))
  split
  · rename_i err x asked5 h5
    exact StepSpec.fail hasked hs5 h5
  rename_i cfg5 asked5 h5
  obtain ⟨E5, hE5, hC5⟩ := StepSpec.ok hs5 h5
  -- the device question
  have hs6 : StepSpec (isNativeFramework cfg1.frameworkName) ini cfg1 asked1
      (if needsDevice cfg5.frameworkName = true then configureDevice ini asked5 cfg5
        else (none, cfg5, asked5)) :=
    StepSpec.after ⟨hE5, hC5⟩
      (StepSpec.optional _ (fun _ => configureDevice_spec _ ini asked5 cfg5))
  split
  · rename_i err x asked6 h6
    exact StepSpec.fail hasked hs6 h6
  rename_i cfg6 asked6 h6
  obtain ⟨E6, hE6, hC6⟩ := StepSpec.ok hs6 h6
  -- the emulator lookup and question
  have hs7 : StepSpec (isNativeFramework cfg1.frameworkName) ini cfg1 asked1
      (if needsEmulator cfg6.frameworkName = true then configureEmulator ini asked6 cfg6
        else (none, cfg6, asked6)) :=
    StepSpec.after ⟨hE6, hC6⟩
      (StepSpec.optional _ (fun _ => configureEmulator_spec _ ini asked6 cfg6))
  split
  · rename_i err x asked7 h7
    exact StepSpec.fail hasked hs7 h7
  rename_i cfg7 asked7 h7
  obtain ⟨E7, hE7, hC7⟩ := StepSpec.ok hs7 h7
  -- the download policy question
  have hs8 : StepSpec (isNativeFramework cfg1.frameworkName) ini cfg1 asked1
      (askDownloadWhen ini asked7 cfg7) :=
    StepSpec.after ⟨hE7, hC7⟩ (askDownloadWhen_spec _ ini asked7 cfg7)
  split
  · rename_i err x asked8 h8
    exact StepSpec.fail hasked hs8 h8
  rename_i cfg8 asked8 h8
  obtain ⟨w, hw, hwerr, hcfg8⟩ := askDownloadWhen_ok h8
  have hname8 : cfg8.frameworkName = cfg1.frameworkName := by
    rw [hcfg8]; exact hC7.1
  refine ⟨[a] ++ E7 ++ [w], ?_, fun e' h' => by simp at h', fun _ => ⟨?_, ⟨a, ?_, hanswer, ?_⟩,
    ⟨w, ?_, ?_⟩, fun hnative => ?_⟩⟩
  · simp only
    rw [hw, hE7, hasked]
    simp
  · intro x hx
    simp only [List.mem_append, List.mem_singleton] at hx
    rcases hx with (rfl | hx) | rfl
    · exact haerr
    · exact hC7.2.1 x hx
    · exact hwerr
  · simp
  · simp only
    rw [hname8, hcfg1]
  · rw [List.getLast?_append]
    rfl
  · simp only
    rw [hcfg8]
  · simp only at hnative ⊢
    rw [hname8] at hnative
    obtain ⟨c1, c2, c3, c4, c5⟩ := hC7.2.2 hnative
    rw [hcfg8]
    simp only
    rw [c1, c2, c3, c4, c5, hcfg1]
    exact ⟨rfl, rfl, rfl, rfl, rfl⟩

/-- The function `configure` on the collaborators of the examples: for espresso
it returns the answers, with the five fields of the other frameworks empty; when
the virtual devices cannot be read it returns the empty configuration with that
error, although the framework, both applications and the device pattern were
asked. -/
theorem configure_examples :
    (configure (exampleInitiator "espresso") []).1
      = ({ frameworkName := "espresso"
           app := "android-app.apk"
           testApp := "android-test-app.apk"
           device := (configure (exampleInitiator "espresso") []).1.1.device
           emulator := (configure (exampleInitiator "espresso") []).1.1.emulator
           artifactWhen := config.When.WhenPass }, none) ∧
    ((configure (exampleInitiator "espresso") []).2.map (fun a => a.prompt.message))
      = ["Select framework:", "Application to test:", "Test application:",
          "Select device pattern:", "Select emulator:", "Download artifacts:"] ∧
    (configure { exampleInitiator "espresso" with
        GetVirtualDevices := fun _ => ([], some "unauthorized") } []).1
      = ({}, some "unauthorized") ∧
    ((configure { exampleInitiator "espresso" with
        GetVirtualDevices := fun _ => ([], some "unauthorized") } []).2.map
        (fun a => a.prompt.message))
      = ["Select framework:", "Application to test:", "Test application:",
          "Select device pattern:"] := by
  decide

end initcmd


namespace docker

set_option maxHeartbeats 2000000 in
/-- The order of the steps of `setup`, for a result `res` of `setup`. -/
theorem setup_order_of_eq (D : Deps) (r : CypressRunner) (res : Option String × CypressRunner)
    (h : setup D r = res) :
    ∃ evs, res.2.events = r.events ++ evs ∧
      (stepsDone evs).map (fun e => e.call.step) <+: setupSteps ∧
      (∀ e ∈ (stepsDone evs).dropLast, e.reply.err = none) ∧
      (∃ last, (stepsDone evs).getLast? = some last ∧
        (∀ err, last.reply.err = some err →
          res.1
            = some (if last.call.step = Step.dependencyCheck then dockerNotRunning err else err)) ∧
        (last.reply.err = none →
          res.1 = none ∧ (stepsDone evs).length = setupSteps.length)) ∧
      (∀ e ∈ evs, ∀ files options, e.call = Call.StartContainer files options →
        files = [r.Project.Cypress.ConfigFile, r.Project.Cypress.ProjectPath]
          ++ (if r.Project.Cypress.EnvFile = "" then [] else [r.Project.Cypress.EnvFile]) ∧
        options = r.Project.Docker) ∧
      (∀ e ∈ evs, ∀ path project, e.call = Call.WriteFile path project →
        project = r.Project ∧
        ∃ t ∈ evs, t.call = Call.TempDir ∧ t.reply.err = none ∧
          path = D.filepathJoin t.reply.value D.SauceRunnerConfigFile) ∧
      (∀ e ∈ evs, ∀ id src dst, e.call = Call.CopyToContainer id src dst →
        (∃ c ∈ evs, c.call.step = Step.containerStart ∧ id = c.reply.value) ∧
        (∃ w ∈ evs, ∃ project, w.call = Call.WriteFile src project) ∧
        (∃ d ∈ evs, d.call.step = Step.projectDirLookup ∧ dst = d.reply.value) ∧
        (e.reply.err = none →
          res.2.containerConfig.sauceRunnerConfigPath
            = D.pathJoin dst D.SauceRunnerConfigFile)) ∧
      ((∀ e ∈ evs, e.call.step = Step.copyConfig → e.reply.err ≠ none) →
        res.2.containerConfig = r.containerConfig) ∧
      (∀ t ∈ evs, t.call = Call.TempDir → t.reply.err = none →
        ∃ reply, evs.getLast? = some ⟨Call.RemoveAll t.reply.value, reply⟩) ∧
      (∀ e ∈ evs, e.call.step = Step.removeTempDir →
        ∃ t ∈ evs, t.call = Call.TempDir ∧ t.reply.err = none ∧
          e.call = Call.RemoveAll t.reply.value) := by
  unfold setup setupInTmpDir at h
  simp only [call] at h
  have hfiles : (if r.Project.Cypress.EnvFile ≠ "" then
        [r.Project.Cypress.ConfigFile, r.Project.Cypress.ProjectPath] ++ [r.Project.Cypress.EnvFile]
      else [r.Project.Cypress.ConfigFile, r.Project.Cypress.ProjectPath])
      = [r.Project.Cypress.ConfigFile, r.Project.Cypress.ProjectPath]
        ++ (if r.Project.Cypress.EnvFile = "" then [] else [r.Project.Cypress.EnvFile]) := by
    split <;> simp_all
  rw [hfiles] at h
  generalize [r.Project.Cypress.ConfigFile, r.Project.Cypress.ProjectPath]
    ++ (if r.Project.Cypress.EnvFile = "" then [] else [r.Project.Cypress.EnvFile]) = files at h ⊢
  generalize D.respond r.events Call.ValidateDependency = dep at h
  generalize D.respond _ (Call.pullImage _) = pulled at h
  generalize D.respond _ (Call.StartContainer _ _) = container at h
  generalize D.respond _ (Call.ProjectDir _) = pDir at h
  generalize D.respond _ Call.TempDir = tmpDir at h
  generalize D.respond _ (Call.WriteFile _ _) = written at h
  generalize D.respond _ (Call.CopyToContainer _ _ _) = copied at h
  generalize D.respond _ (Call.beforeExec _) = hooks at h
  generalize D.respond _ (Call.Execute _ _) = forwarded at h
  obtain ⟨v1, e1⟩ := dep
  obtain ⟨v2, e2⟩ := pulled
  obtain ⟨v3, e3⟩ := container
  obtain ⟨v4, e4⟩ := pDir
  obtain ⟨v5, e5⟩ := tmpDir
  obtain ⟨v6, e6⟩ := written
  obtain ⟨v7, e7⟩ := copied
  obtain ⟨v8, e8⟩ := hooks
  obtain ⟨v9, e9⟩ := forwarded
  dsimp only at h
  repeat' split at h
  all_goals subst h
  all_goals simp [stepsDone, Call.step, setupSteps]

/-- C24: `setup` performs its steps in the order dependency check, image pull,
container start, project-dir lookup, creation of the temporary directory,
writing the run configuration there, copying it into the container, pre-exec
hooks, port-forwarding command. The steps performed are an initial segment of
that order; every step before the last one performed succeeded; when the last
one failed `setup` returns its error (for the dependency check, in the message
about the docker installation) and when it succeeded all nine steps were
performed and `setup` returns no error. The container is started with the
config file, the project path and the env file if that is not empty; the run
configuration is written to the temporary directory and copied from there;
`containerConfig` changes only when a copy succeeded, to the path below the
project dir; and once the temporary directory was created its removal is the
last call of `setup`, while without it nothing is removed. -/
theorem setup_order (D : Deps) (r : CypressRunner) :
    ∃ evs, (setup D r).2.events = r.events ++ evs ∧
      (stepsDone evs).map (fun e => e.call.step) <+: setupSteps ∧
      (∀ e ∈ (stepsDone evs).dropLast, e.reply.err = none) ∧
      (∃ last, (stepsDone evs).getLast? = some last ∧
        (∀ err, last.reply.err = some err →
          (setup D r).1
            = some (if last.call.step = Step.dependencyCheck then dockerNotRunning err else err)) ∧
        (last.reply.err = none →
          (setup D r).1 = none ∧ (stepsDone evs).length = setupSteps.length)) ∧
      (∀ e ∈ evs, ∀ files options, e.call = Call.StartContainer files options →
        files = [r.Project.Cypress.ConfigFile, r.Project.Cypress.ProjectPath]
          ++ (if r.Project.Cypress.EnvFile = "" then [] else [r.Project.Cypress.EnvFile]) ∧
        options = r.Project.Docker) ∧
      (∀ e ∈ evs, ∀ path project, e.call = Call.WriteFile path project →
        project = r.Project ∧
        ∃ t ∈ evs, t.call = Call.TempDir ∧ t.reply.err = none ∧
          path = D.filepathJoin t.reply.value D.SauceRunnerConfigFile) ∧
      (∀ e ∈ evs, ∀ id src dst, e.call = Call.CopyToContainer id src dst →
        (∃ c ∈ evs, c.call.step = Step.containerStart ∧ id = c.reply.value) ∧
        (∃ w ∈ evs, ∃ project, w.call = Call.WriteFile src project) ∧
        (∃ d ∈ evs, d.call.step = Step.projectDirLookup ∧ dst = d.reply.value) ∧
        (e.reply.err = none →
          (setup D r).2.containerConfig.sauceRunnerConfigPath
            = D.pathJoin dst D.SauceRunnerConfigFile)) ∧
      ((∀ e ∈ evs, e.call.step = Step.copyConfig → e.reply.err ≠ none) →
        (setup D r).2.containerConfig = r.containerConfig) ∧
      (∀ t ∈ evs, t.call = Call.TempDir → t.reply.err = none →
        ∃ reply, evs.getLast? = some ⟨Call.RemoveAll t.reply.value, reply⟩) ∧
      (∀ e ∈ evs, e.call.step = Step.removeTempDir →
        ∃ t ∈ evs, t.call = Call.TempDir ∧ t.reply.err = none ∧
          e.call = Call.RemoveAll t.reply.value) :=
  setup_order_of_eq D r (setup D r) rfl

/-- The function `setup` on the collaborators of the examples: when every call
succeeds it performs the nine steps and then removes the temporary directory;
when the copy into the container fails it returns that error after the first
seven steps, removes the temporary directory, and leaves `containerConfig` as
it was. -/
theorem setup_examples :
    (setup (exampleDeps [] 1) (freshRunner ⟨"img", "v1"⟩ "5.6.0" exampleSuites)).1 = none ∧
    ((setup (exampleDeps [] 1) (freshRunner ⟨"img", "v1"⟩ "5.6.0" exampleSuites)).2.events.map
        (fun e => e.call.step))
      = setupSteps ++ [Step.removeTempDir] ∧
    (setup (exampleDeps [] 1)
        (freshRunner ⟨"img", "v1"⟩ "5.6.0" exampleSuites)).2.containerConfig.sauceRunnerConfigPath
      = "/home/seluser/sauce-runner.json" ∧
    (setup { exampleDeps [] 1 with
        respond := fun evs c =>
          if c.step = Step.copyConfig then ⟨"", some "no such container"⟩
          else exampleRespond [] 1 evs c }
      (freshRunner ⟨"img", "v1"⟩ "5.6.0" exampleSuites)).1 = some "no such container" ∧
    ((setup { exampleDeps [] 1 with
        respond := fun evs c =>
          if c.step = Step.copyConfig then ⟨"", some "no such container"⟩
          else exampleRespond [] 1 evs c }
      (freshRunner ⟨"img", "v1"⟩ "5.6.0" exampleSuites)).2.events.map (fun e => e.call.step))
      = setupSteps.take 7 ++ [Step.removeTempDir] ∧
    (setup { exampleDeps [] 1 with
        respond := fun evs c =>
          if c.step = Step.copyConfig then ⟨"", some "no such container"⟩
          else exampleRespond [] 1 evs c }
      (freshRunner ⟨"img", "v1"⟩ "5.6.0" exampleSuites)).2.containerConfig = ⟨""⟩ := by
  decide

end docker


/-! ## Properties of the cloud dispatcher model -/

namespace saucecloud

/-- The inner loop of `calculateJobsCount` adds the platform versions of the
emulators to the count so far. -/
theorem emulators_foldl (es : List config.Emulator) (jobs : Nat) :
    es.foldl (fun jobs e => jobs + e.PlatformVersions.length) jobs
      = jobs + (es.map (fun e => e.PlatformVersions.length)).sum := by
  induction es generalizing jobs with
  | nil => simp
  | cons e es ih => simp [ih, Nat.add_assoc]

/-- The outer loop of `calculateJobsCount` adds, for every suite, the number of
its real devices and of the platform versions of its emulators, or 1 when that
is zero. -/
theorem suites_foldl (suites : List espresso.Suite) (total : Nat) :
    suites.foldl
        (fun total s =>
          let jobs :=
            s.Emulators.foldl (fun jobs e => jobs + e.PlatformVersions.length) s.Devices.length
          total + (if jobs = 0 then 1 else jobs)) total
      = total
        + (suites.map (fun s =>
            max 1 (s.Devices.length
              + (s.Emulators.map (fun e => e.PlatformVersions.length)).sum))).sum := by
  induction suites generalizing total with
  | nil => simp
  | cons s suites ih =>
    simp only [List.foldl_cons, List.map_cons, List.sum_cons]
    rw [ih, emulators_foldl, Nat.add_assoc]
    congr 2
    split
    · rename_i h
      rw [h]
      rfl
    · rename_i h
      exact (Nat.max_eq_right (Nat.one_le_iff_ne_zero.mpr h)).symm

/-- The fan-out of a suite has as many jobs as the suite has real devices and
platform versions of emulators, and one job when it has neither. -/
theorem suiteJobs_length (s : espresso.Suite) :
    (suiteJobs s).length
      = max 1 (s.Devices.length + (s.Emulators.map (fun e => e.PlatformVersions.length)).sum) := by
  have hlen : (s.Emulators.flatMap
        (fun e => e.PlatformVersions.map (fun v => (⟨s.Name, e.Name, v⟩ : EspressoJob)))
        ++ s.Devices.map (fun d => (⟨s.Name, d.Name, d.PlatformVersion⟩ : EspressoJob))).length
      = s.Devices.length + (s.Emulators.map (fun e => e.PlatformVersions.length)).sum := by
    rw [List.length_append, List.length_map, Nat.add_comm]
    congr 1
    induction s.Emulators with
    | nil => rfl
    | cons e es ihe =>
      simp only [List.flatMap_cons, List.length_append, List.map_cons, List.sum_cons, ihe,
        List.length_map]
  unfold suiteJobs
  dsimp only
  split
  · rename_i hempty
    rw [List.isEmpty_iff] at hempty
    rw [hempty] at hlen
    rw [← hlen]
    rfl
  · rename_i hempty
    rw [hlen]
    have hne : s.Devices.length + (s.Emulators.map (fun e => e.PlatformVersions.length)).sum ≠ 0 := by
      intro h0
      rw [h0] at hlen
      exact hempty (List.isEmpty_iff.mpr (List.length_eq_zero.mp hlen))
    exact (Nat.max_eq_right (Nat.one_le_iff_ne_zero.mpr hne)).symm

/-- The fan-out of the Espresso suites has `calculateJobsCount` jobs. -/
theorem espressoJobs_length (suites : List espresso.Suite) :
    (espressoJobs suites).length = calculateJobsCount suites := by
  unfold calculateJobsCount
  rw [suites_foldl, Nat.zero_add]
  unfold espressoJobs
  induction suites with
  | nil => rfl
  | cons s suites ih =>
    simp only [List.flatMap_cons, List.length_append, List.map_cons, List.sum_cons, ih,
      suiteJobs_length]

/-- C21, where the sum of the claim fails: a suite without emulators, such as
the one of `TestRunSuites_Espresso_NoConcurrency`, counts one job, the baseline
fan-out, and a suite with one real device and no emulator counts one job, while
the sum of the platform versions over the emulators is 0 for both. -/
theorem calculateJobsCount_baseline :
    calculateJobsCount [⟨"dummy-suite", [], [], ⟨[], [], "", "", "", 0, 0⟩⟩] = 1 ∧
    ([(⟨"dummy-suite", [], [], ⟨[], [], "", "", "", 0, 0⟩⟩ : espresso.Suite)].map
        (fun s => (s.Emulators.map (fun e => e.PlatformVersions.length)).sum)).sum = 0 ∧
    calculateJobsCount
        [⟨"on-device", [⟨"", "Google Pixel 3", "Android", "11.0"⟩], [], ⟨[], [], "", "", "", 0, 0⟩⟩]
      = 1 ∧
    ([(⟨"on-device", [⟨"", "Google Pixel 3", "Android", "11.0"⟩], [],
          ⟨[], [], "", "", "", 0, 0⟩⟩ : espresso.Suite)].map
        (fun s => (s.Emulators.map (fun e => e.PlatformVersions.length)).sum)).sum = 0 := by
  decide

/-- C21, amended: `calculateJobsCount` is the sum over the suites of the jobs of
the suite, which are as many as its real devices and the platform versions of
its emulators together, and one when it has none of them; it is the length of
the fan-out. When no suite has a real device and every suite has a platform
version on some emulator, it is the sum, over the suites and their emulators,
of the number of platform versions of the emulator; for the suite with the
emulators E1 (platform versions 11.0 and 10.0) and E2 (platform version 11.0)
it is 3. -/
theorem calculateJobsCount_sum (suites : List espresso.Suite) :
    calculateJobsCount suites
      = (suites.map (fun s =>
          max 1 (s.Devices.length
            + (s.Emulators.map (fun e => e.PlatformVersions.length)).sum))).sum ∧
    (espressoJobs suites).length = calculateJobsCount suites ∧
    ((∀ s ∈ suites, s.Devices = [] ∧
        (s.Emulators.map (fun e => e.PlatformVersions.length)).sum ≠ 0) →
      calculateJobsCount suites
        = (suites.map (fun s => (s.Emulators.map (fun e => e.PlatformVersions.length)).sum)).sum) ∧
    calculateJobsCount [exampleSuite] = 3 := by
  have hsum : calculateJobsCount suites
      = (suites.map (fun s =>
          max 1 (s.Devices.length
            + (s.Emulators.map (fun e => e.PlatformVersions.length)).sum))).sum := by
    unfold calculateJobsCount
    rw [suites_foldl, Nat.zero_add]
  refine ⟨hsum, espressoJobs_length suites, fun h => ?_, by decide⟩
  rw [hsum]
  congr 1
  apply List.map_congr_left
  intro s hs
  obtain ⟨hd, he⟩ := h s hs
  rw [hd, List.length_nil, Nat.zero_add]
  exact Nat.max_eq_right (Nat.one_le_iff_ne_zero.mpr he)

/-- A pool without workers starts nothing. -/
theorem run_no_workers {J : Type} (jobs : List J) (schedule : List Action) :
    Pool.run 0 ⟨jobs, [], []⟩ schedule = ⟨jobs, [], []⟩ := by
  induction schedule with
  | nil => rfl
  | cons a schedule ih =>
    cases a with
    | start => cases jobs <;> simpa [Pool.run, Pool.step] using ih
    | finish i passed => simpa [Pool.run, Pool.step] using ih

/-- One action keeps the number of running jobs within the number of workers. -/
theorem step_running_le {J : Type} (workers : Nat) (p q : Pool J) (a : Action)
    (hp : p.running.length ≤ workers) (h : p.step workers a = some q) :
    q.running.length ≤ workers := by
  cases a with
  | start =>
    obtain ⟨pending, running, finished⟩ := p
    cases pending with
    | nil => simp [Pool.step] at h
    | cons j rest =>
      simp only [Pool.step] at h
      split at h
      · rename_i hlt
        cases h
        simpa using hlt
      · cases h
  | finish i passed =>
    simp only [Pool.step] at h
    split at h
    · cases h
    · cases h
      exact Nat.le_trans (List.eraseIdx_sublist _ _).length_le hp

/-- A schedule keeps the number of running jobs within the number of workers. -/
theorem run_running_le {J : Type} (workers : Nat) (p : Pool J) (schedule : List Action)
    (hp : p.running.length ≤ workers) :
    (Pool.run workers p schedule).running.length ≤ workers := by
  induction schedule generalizing p with
  | nil => exact hp
  | cons a schedule ih =>
    simp only [Pool.run]
    split
    · rename_i q hq
      exact ih q (step_running_le workers p q a hp hq)
    · exact ih p hp

/-- The fan-out of a non-empty list of Espresso suites is not empty: every suite
has at least the job of the baseline. -/
theorem espressoJobs_ne_nil (suites : List espresso.Suite) (h : suites ≠ []) :
    espressoJobs suites ≠ [] := by
  cases suites with
  | nil => exact absurd rfl h
  | cons s rest =>
    intro hnil
    have hlen : (suiteJobs s).length = 0 := by
      have := congrArg List.length hnil
      simp only [espressoJobs, List.flatMap_cons, List.length_append, List.length_nil] at this
      omega
    rw [suiteJobs_length] at hlen
    have := Nat.le_max_left 1
      (s.Devices.length + (s.Emulators.map (fun e => e.PlatformVersions.length)).sum)
    omega

/-- C22: when the concurrency oracle reports 0 allowed slots, `runSuites` of the
Espresso and of the Playwright runner returns false, whatever the configured
concurrency, the suites and the schedule, and leaves every job pending: none is
started and none has ended. The batch of a project with a suite is not empty,
and without workers the pool itself, under every schedule, starts none of its
jobs and so never completes it: `runSuites` returns all the same, and the
verdict on that pool, that every job ended and passed, is false as well. -/
theorem runSuites_no_concurrency (p : espresso.Project) (q : playwright.Project)
    (schedule : List Action) :
    espressoRunSuites p (0, none) schedule = (false, ⟨espressoJobs p.Suites, [], []⟩) ∧
    playwrightRunSuites q (0, none) schedule = (false, ⟨playwrightJobs q.Suites, [], []⟩) ∧
    Pool.run 0 ⟨espressoJobs p.Suites, [], []⟩ schedule = ⟨espressoJobs p.Suites, [], []⟩ ∧
    Pool.run 0 ⟨playwrightJobs q.Suites, [], []⟩ schedule = ⟨playwrightJobs q.Suites, [], []⟩ ∧
    (p.Suites ≠ [] →
      (Pool.run 0 ⟨espressoJobs p.Suites, [], []⟩ schedule).pending ≠ []) ∧
    (q.Suites ≠ [] →
      (Pool.run 0 ⟨playwrightJobs q.Suites, [], []⟩ schedule).pending ≠ []) ∧
    (p.Suites ≠ [] →
      ((Pool.run 0 ⟨espressoJobs p.Suites, [], []⟩ schedule).pending.isEmpty
        && (Pool.run 0 ⟨espressoJobs p.Suites, [], []⟩ schedule).running.isEmpty
        && (Pool.run 0 ⟨espressoJobs p.Suites, [], []⟩ schedule).finished.all (fun r => r.2))
        = false) ∧
    (q.Suites ≠ [] →
      ((Pool.run 0 ⟨playwrightJobs q.Suites, [], []⟩ schedule).pending.isEmpty
        && (Pool.run 0 ⟨playwrightJobs q.Suites, [], []⟩ schedule).running.isEmpty
        && (Pool.run 0 ⟨playwrightJobs q.Suites, [], []⟩ schedule).finished.all (fun r => r.2))
        = false) := by
  have hq : q.Suites ≠ [] → playwrightJobs q.Suites ≠ [] := by
    intro hq
    simpa [playwrightJobs] using hq
  refine ⟨?_, ?_, run_no_workers _ _, run_no_workers _ _, fun h => ?_, fun h => ?_,
    fun h => ?_, fun h => ?_⟩
  · simp [espressoRunSuites, runSuites, effectiveConcurrency]
  · simp [playwrightRunSuites, runSuites, effectiveConcurrency]
  · rw [run_no_workers]
    exact espressoJobs_ne_nil p.Suites h
  · rw [run_no_workers]
    exact hq h
  · rw [run_no_workers]
    have := espressoJobs_ne_nil p.Suites h
    simp [List.isEmpty_iff, this]
  · rw [run_no_workers]
    have := hq h
    simp [List.isEmpty_iff, this]

/-- The runs of `TestRunSuites_Espresso_NoConcurrency` and of
`TestRunSuites_TestCafe_NoConcurrency`: one suite, configured concurrency 1, no
allowed concurrency; the one job of the suite stays pending. With one allowed
slot and a job that passes, the same batches pass. -/
theorem runSuites_examples :
    espressoRunSuites ⟨⟨"", 1⟩, ⟨"", ""⟩, [⟨"dummy-suite", [], [], ⟨[], [], "", "", "", 0, 0⟩⟩]⟩
        (0, none) [Action.start, Action.finish 0 true]
      = (false, ⟨[⟨"dummy-suite", "", ""⟩], [], []⟩) ∧
    playwrightRunSuites ⟨false, "", ⟨"", 1⟩, ⟨""⟩, [⟨"dummy-suite", "", none⟩]⟩
        (0, none) [Action.start, Action.finish 0 true]
      = (false, ⟨["dummy-suite"], [], []⟩) ∧
    espressoRunSuites ⟨⟨"", 1⟩, ⟨"", ""⟩, [⟨"dummy-suite", [], [], ⟨[], [], "", "", "", 0, 0⟩⟩]⟩
        (1, none) [Action.start, Action.finish 0 true]
      = (true, ⟨[], [], [(⟨"dummy-suite", "", ""⟩, true)]⟩) ∧
    playwrightRunSuites ⟨false, "", ⟨"", 1⟩, ⟨""⟩, [⟨"dummy-suite", "", none⟩]⟩
        (1, none) [Action.start, Action.finish 0 true]
      = (true, ⟨[], [], [("dummy-suite", true)]⟩) := by
  decide

/-- C23: during a batch the number of jobs started and not yet terminal never
exceeds the effective concurrency, after any schedule and so at every moment
of it, also in the pool `runSuites` returns; the effective concurrency is the
lesser of the configured concurrency and the one the oracle reports, and 1 when
the oracle call fails. -/
theorem running_le_concurrency {J : Type} (configured : Nat) (allowed : Nat × Option String)
    (jobs : List J) (schedule : List Action) :
    (Pool.run (effectiveConcurrency configured allowed) ⟨jobs, [], []⟩ schedule).running.length
      ≤ effectiveConcurrency configured allowed ∧
    (runSuites configured allowed jobs schedule).2.running.length
      ≤ effectiveConcurrency configured allowed ∧
    effectiveConcurrency configured allowed
      = (if allowed.2 = none then min configured allowed.1 else 1) ∧
    (∀ n, effectiveConcurrency configured (n, none) = min configured n) ∧
    (∀ n e, effectiveConcurrency configured (n, some e) = 1) := by
  refine ⟨run_running_le _ _ _ (Nat.zero_le _), ?_, ?_, fun _ => rfl, fun _ _ => rfl⟩
  · unfold runSuites
    dsimp only
    split
    · exact Nat.zero_le _
    · exact run_running_le _ _ _ (Nat.zero_le _)
  · unfold effectiveConcurrency
    cases allowed.2 <;> simp

/-- A batch of three jobs with configured concurrency 2 and 5 allowed slots: the
third start waits until a job has ended, and the batch fails because the last
job does. -/
theorem pool_examples :
    effectiveConcurrency 2 (5, none) = 2 ∧
    effectiveConcurrency 2 (5, some "unauthorized") = 1 ∧
    Pool.run 2 ⟨["a", "b", "c"], [], []⟩ [Action.start, Action.start, Action.start]
      = ⟨["c"], ["a", "b"], []⟩ ∧
    Pool.run 2 ⟨["a", "b", "c"], [], []⟩
        [Action.start, Action.start, Action.start, Action.finish 1 true, Action.start]
      = ⟨[], ["a", "c"], [("b", true)]⟩ ∧
    runSuites 2 (5, none) ["a", "b", "c"]
        [Action.start, Action.start, Action.finish 1 true, Action.start, Action.finish 0 true,
          Action.finish 0 false]
      = (false, ⟨[], [], [("b", true), ("a", true), ("c", false)]⟩) := by
  decide

end saucecloud



namespace initcmd

/-- Two elements appended one by one. -/
theorem append_two {α : Type} (l : List α) (a b : α) : l ++ [a] ++ [b] = l ++ [a, b] := by
  simp

/-- Three elements appended one by one. -/
theorem append_three {α : Type} (l : List α) (a b c : α) :
    l ++ [a] ++ [b] ++ [c] = l ++ [a, b, c] := by
  simp

/-- Four elements appended one by one. -/
theorem append_four {α : Type} (l : List α) (a b c d : α) :
    l ++ [a] ++ [b] ++ [c] ++ [d] = l ++ [a, b, c, d] := by
  simp

/-- Five elements appended one by one. -/
theorem append_five {α : Type} (l : List α) (a b c d e : α) :
    l ++ [a] ++ [b] ++ [c] ++ [d] ++ [e] = l ++ [a, b, c, d, e] := by
  simp

/-- Six elements appended one by one. -/
theorem append_six {α : Type} (l : List α) (a b c d e f : α) :
    l ++ [a] ++ [b] ++ [c] ++ [d] ++ [e] ++ [f] = l ++ [a, b, c, d, e, f] := by
  simp

set_option maxHeartbeats 4000000 in
/-- Every result of `configure` meets `ConfigureOutcome`: the proof follows
`configure` through each of its returns. -/
theorem configure_outcome (ini : initiator) (asked : List Asked)
    (R : (initConfig × Option String) × List Asked) (h : configure ini asked = R) :
    ConfigureOutcome ini asked R := by
  rcases hF : ini.Frameworks with ⟨values, _ | eF⟩
  swap
  · simp only [configure, askFramework, hF] at h
    subst h
    refine ⟨[], by simp, trivial, by simp, ?_, by simp⟩
    intro e he
    simp only [Option.some.injEq] at he
    subst he
    exact ⟨rfl, Or.inl ⟨by rw [hF], rfl⟩⟩
  have hF2 : ini.Frameworks.2 = none := by rw [hF]
  unfold configure at h
  simp only [askFramework, hF, ask] at h
  generalize hr1 : ini.AskOne asked _ "" = r1 at h
  obtain ⟨name, e1⟩ := r1
  dsimp only at h
  by_cases hname : name = ""
  · simp only [hname, if_true] at h
    subst h
    subst hname
    refine ⟨[_], rfl, ⟨hr1, trivial⟩, by simp, ?_, by simp⟩
    intro e he
    simp only [Option.some.injEq] at he
    subst he
    exact ⟨rfl, Or.inr (Or.inl ⟨hF2, rfl, _, rfl, rfl⟩)⟩
  simp only [hname, if_false] at h
  cases e1 with
  | some e1 =>
    dsimp only at h
    subst h
    refine ⟨[_], rfl, ⟨hr1, trivial⟩, by simp, ?_, by simp⟩
    intro e he
    simp only [Option.some.injEq] at he
    subst he
    exact ⟨rfl, Or.inr (Or.inr (Or.inl ⟨hF2, _, _, rfl, hname, rfl, rfl⟩))⟩
  | none =>
    dsimp only at h
    generalize hfw : ini.ToLower name = fw at h
    rcases hV : ini.Versions fw with ⟨md, _ | eV⟩
    swap
    · simp only [hV] at h
      subst h
      refine ⟨[_], rfl, ⟨hr1, trivial⟩, by simp, ?_, by simp⟩
      intro e he
      simp only [Option.some.injEq] at he
      subst he
      refine ⟨rfl, Or.inr (Or.inr (Or.inr (Or.inl ⟨hF2, _, rfl, hname, rfl, ?_⟩)))⟩
      simp only [hfw, hV]
    simp only [hV] at h
    have hV2 : (ini.Versions fw).2 = none := by rw [hV]
    cases hnat : isNativeFramework fw with
    | false =>
      have hemu : needsEmulator fw = false := by
        cases hx : needsEmulator fw with
        | false => rfl
        | true =>
          simp only [needsEmulator, isNativeFramework, Bool.or_eq_false_iff] at hx hnat
          rw [hx] at hnat
          exact absurd hnat.1 (by decide)
      simp only [needsVersion, needsPlatform, needsApps, needsDevice, hnat, hemu, Bool.not_false, Bool.not_true, if_true, Bool.false_eq_true, if_false, askVersion, ask] at h
      generalize hr2 : ini.AskOne _ (Prompt.Select ("Select " ++ fw ++ " version:") _ _) "" = r2 at h
      obtain ⟨version, e2⟩ := r2
      dsimp only at h
      cases e2 with
      | some e2 =>
        dsimp only at h
        subst h
        refine ⟨[_, _], append_two _ _ _, ⟨hr1, hr2, trivial⟩, by simp, ?_, ?_⟩
        · intro e he
          simp only [Option.some.injEq] at he
          subst he
          exact ⟨rfl, Or.inr (Or.inr (Or.inl ⟨hF2, _, _, rfl, hname, rfl, rfl⟩))⟩
        · simp
      | none =>
        dsimp only at h
        cases hjson : needsCypressJson fw with
        | true =>
          simp only [hjson, if_true, askFile, ask] at h
          generalize hr3 : ini.AskOne _ (Prompt.Input "Cypress configuration file:" _) "" = r3 at h
          obtain ⟨json, e3⟩ := r3
          dsimp only at h
          cases e3 with
          | some e3 =>
            dsimp only at h
            subst h
            refine ⟨[_, _, _], append_three _ _ _ _, ⟨hr1, hr2, hr3, trivial⟩, by simp, ?_, ?_⟩
            · intro e he
              simp only [Option.some.injEq] at he
              subst he
              exact ⟨rfl, Or.inr (Or.inr (Or.inl ⟨hF2, _, _, rfl, hname, rfl, rfl⟩))⟩
            · simp
          | none =>
            dsimp only at h
            simp only [hnat, hemu, Bool.not_false, Bool.not_true, if_true, Bool.false_eq_true, if_false, askPlatform, ask] at h
            generalize hr4 : ini.AskOne _ (Prompt.Select "Select platform:" _ _) "" = r4 at h
            obtain ⟨platform, e4⟩ := r4
            dsimp only at h
            cases e4 with
            | some e4 =>
              dsimp only at h
              subst h
              refine ⟨[_, _, _, _], append_four _ _ _ _ _, ⟨hr1, hr2, hr3, hr4, trivial⟩, by simp, ?_, ?_⟩
              · intro e he
                simp only [Option.some.injEq] at he
                subst he
                exact ⟨rfl, Or.inr (Or.inr (Or.inl ⟨hF2, _, _, rfl, hname, rfl, rfl⟩))⟩
              · simp
            | none =>
              dsimp only at h
              generalize hr5 : ini.AskOne _ (Prompt.Select "Select Browser:" _ _) "" = r5 at h
              obtain ⟨browser, e5⟩ := r5
              dsimp only at h
              cases e5 with
              | some e5 =>
                dsimp only at h
                subst h
                refine ⟨[_, _, _, _, _], append_five _ _ _ _ _ _, ⟨hr1, hr2, hr3, hr4, hr5, trivial⟩, by simp, ?_, ?_⟩
                · intro e he
                  simp only [Option.some.injEq] at he
                  subst he
                  exact ⟨rfl, Or.inr (Or.inr (Or.inl ⟨hF2, _, _, rfl, hname, rfl, rfl⟩))⟩
                · simp
              | none =>
                dsimp only at h
                by_cases hdocker : platform = "docker"
                · subst hdocker
                  simp only [if_true] at h
                  simp only [hnat, hemu, Bool.not_false, Bool.not_true, if_true, Bool.false_eq_true, if_false, askDownloadWhen, ask] at h
                  generalize hr9 : ini.AskOne _ (Prompt.Select "Download artifacts:" _ _) "" = r9 at h
                  obtain ⟨policy, e9⟩ := r9
                  dsimp only at h
                  cases e9 with
                  | some e9 =>
                    dsimp only at h
                    subst h
                    refine ⟨[_, _, _, _, _, _], append_six _ _ _ _ _ _ _, ⟨hr1, hr2, hr3, hr4, hr5, hr9, trivial⟩, by simp, ?_, ?_⟩
                    · intro e he
                      simp only [Option.some.injEq] at he
                      subst he
                      exact ⟨rfl, Or.inr (Or.inr (Or.inl ⟨hF2, _, _, rfl, hname, rfl, rfl⟩))⟩
                    · simp
                  | none =>
                    dsimp only at h
                    subst h
                    refine ⟨[_, _, _, _, _, _], append_six _ _ _ _ _ _ _, ⟨hr1, hr2, hr3, hr4, hr5, hr9, trivial⟩, by simp, ?_, ?_⟩
                    · intro e he
                      exact absurd he (by simp)
                    · intro _
                      refine ⟨hF2, by simp, name, policy, hname, ?_, ?_, ?_, ?_⟩
                      · rw [hfw]
                        exact hV2
                      · rw [hfw, hemu]
                        intro hx
                        exact absurd hx (by decide)
                      · intro _
                        rw [hfw]
                        refine ⟨version, json, "docker", browser, ?_, ?_⟩
                        · simp [Prompt.message, hjson]
                        · simp [hjson]
                      · intro hn
                        rw [hfw, hnat] at hn
                        exact absurd hn (by decide)
                · simp only [hdocker, if_false] at h
                  simp only [hnat, hemu, Bool.not_false, Bool.not_true, if_true, Bool.false_eq_true, if_false, askDownloadWhen, ask] at h
                  generalize hr9 : ini.AskOne _ (Prompt.Select "Download artifacts:" _ _) "" = r9 at h
                  obtain ⟨policy, e9⟩ := r9
                  dsimp only at h
                  cases e9 with
                  | some e9 =>
                    dsimp only at h
                    subst h
                    refine ⟨[_, _, _, _, _, _], append_six _ _ _ _ _ _ _, ⟨hr1, hr2, hr3, hr4, hr5, hr9, trivial⟩, by simp, ?_, ?_⟩
                    · intro e he
                      simp only [Option.some.injEq] at he
                      subst he
                      exact ⟨rfl, Or.inr (Or.inr (Or.inl ⟨hF2, _, _, rfl, hname, rfl, rfl⟩))⟩
                    · simp
                  | none =>
                    dsimp only at h
                    subst h
                    refine ⟨[_, _, _, _, _, _], append_six _ _ _ _ _ _ _, ⟨hr1, hr2, hr3, hr4, hr5, hr9, trivial⟩, by simp, ?_, ?_⟩
                    · intro e he
                      exact absurd he (by simp)
                    · intro _
                      refine ⟨hF2, by simp, name, policy, hname, ?_, ?_, ?_, ?_⟩
                      · rw [hfw]
                        exact hV2
                      · rw [hfw, hemu]
                        intro hx
                        exact absurd hx (by decide)
                      · intro _
                        rw [hfw]
                        refine ⟨version, json, platform, browser, ?_, ?_⟩
                        · simp [Prompt.message, hjson]
                        · simp [hjson, hdocker]
                      · intro hn
                        rw [hfw, hnat] at hn
                        exact absurd hn (by decide)
        | false =>
          simp only [hjson, Bool.false_eq_true, if_false] at h
          simp only [hnat, hemu, Bool.not_false, Bool.not_true, if_true, Bool.false_eq_true, if_false, askPlatform, ask] at h
          generalize hr4 : ini.AskOne _ (Prompt.Select "Select platform:" _ _) "" = r4 at h
          obtain ⟨platform, e4⟩ := r4
          dsimp only at h
          cases e4 with
          | some e4 =>
            dsimp only at h
            subst h
            refine ⟨[_, _, _], append_three _ _ _ _, ⟨hr1, hr2, hr4, trivial⟩, by simp, ?_, ?_⟩
            · intro e he
              simp only [Option.some.injEq] at he
              subst he
              exact ⟨rfl, Or.inr (Or.inr (Or.inl ⟨hF2, _, _, rfl, hname, rfl, rfl⟩))⟩
            · simp
          | none =>
            dsimp only at h
            generalize hr5 : ini.AskOne _ (Prompt.Select "Select Browser:" _ _) "" = r5 at h
            obtain ⟨browser, e5⟩ := r5
            dsimp only at h
            cases e5 with
            | some e5 =>
              dsimp only at h
              subst h
              refine ⟨[_, _, _, _], append_four _ _ _ _ _, ⟨hr1, hr2, hr4, hr5, trivial⟩, by simp, ?_, ?_⟩
              · intro e he
                simp only [Option.some.injEq] at he
                subst he
                exact ⟨rfl, Or.inr (Or.inr (Or.inl ⟨hF2, _, _, rfl, hname, rfl, rfl⟩))⟩
              · simp
            | none =>
              dsimp only at h
              by_cases hdocker : platform = "docker"
              · subst hdocker
                simp only [if_true] at h
                simp only [hnat, hemu, Bool.not_false, Bool.not_true, if_true, Bool.false_eq_true, if_false, askDownloadWhen, ask] at h
                generalize hr9 : ini.AskOne _ (Prompt.Select "Download artifacts:" _ _) "" = r9 at h
                obtain ⟨policy, e9⟩ := r9
                dsimp only at h
                cases e9 with
                | some e9 =>
                  dsimp only at h
                  subst h
                  refine ⟨[_, _, _, _, _], append_five _ _ _ _ _ _, ⟨hr1, hr2, hr4, hr5, hr9, trivial⟩, by simp, ?_, ?_⟩
                  · intro e he
                    simp only [Option.some.injEq] at he
                    subst he
                    exact ⟨rfl, Or.inr (Or.inr (Or.inl ⟨hF2, _, _, rfl, hname, rfl, rfl⟩))⟩
                  · simp
                | none =>
                  dsimp only at h
                  subst h
                  refine ⟨[_, _, _, _, _], append_five _ _ _ _ _ _, ⟨hr1, hr2, hr4, hr5, hr9, trivial⟩, by simp, ?_, ?_⟩
                  · intro e he
                    exact absurd he (by simp)
                  · intro _
                    refine ⟨hF2, by simp, name, policy, hname, ?_, ?_, ?_, ?_⟩
                    · rw [hfw]
                      exact hV2
                    · rw [hfw, hemu]
                      intro hx
                      exact absurd hx (by decide)
                    · intro _
                      rw [hfw]
                      refine ⟨version, "", "docker", browser, ?_, ?_⟩
                      · simp [Prompt.message, hjson]
                      · simp [hjson]
                    · intro hn
                      rw [hfw, hnat] at hn
                      exact absurd hn (by decide)
              · simp only [hdocker, if_false] at h
                simp only [hnat, hemu, Bool.not_false, Bool.not_true, if_true, Bool.false_eq_true, if_false, askDownloadWhen, ask] at h
                generalize hr9 : ini.AskOne _ (Prompt.Select "Download artifacts:" _ _) "" = r9 at h
                obtain ⟨policy, e9⟩ := r9
                dsimp only at h
                cases e9 with
                | some e9 =>
                  dsimp only at h
                  subst h
                  refine ⟨[_, _, _, _, _], append_five _ _ _ _ _ _, ⟨hr1, hr2, hr4, hr5, hr9, trivial⟩, by simp, ?_, ?_⟩
                  · intro e he
                    simp only [Option.some.injEq] at he
                    subst he
                    exact ⟨rfl, Or.inr (Or.inr (Or.inl ⟨hF2, _, _, rfl, hname, rfl, rfl⟩))⟩
                  · simp
                | none =>
                  dsimp only at h
                  subst h
                  refine ⟨[_, _, _, _, _], append_five _ _ _ _ _ _, ⟨hr1, hr2, hr4, hr5, hr9, trivial⟩, by simp, ?_, ?_⟩
                  · intro e he
                    exact absurd he (by simp)
                  · intro _
                    refine ⟨hF2, by simp, name, policy, hname, ?_, ?_, ?_, ?_⟩
                    · rw [hfw]
                      exact hV2
                    · rw [hfw, hemu]
                      intro hx
                      exact absurd hx (by decide)
                    · intro _
                      rw [hfw]
                      refine ⟨version, "", platform, browser, ?_, ?_⟩
                      · simp [Prompt.message, hjson]
                      · simp [hjson, hdocker]
                    · intro hn
                      rw [hfw, hnat] at hn
                      exact absurd hn (by decide)

    | true =>
      have hjson : needsCypressJson fw = false := needsCypressJson_of_native hnat
      simp only [needsVersion, needsPlatform, needsApps, needsDevice, hnat, hjson, Bool.not_true, Bool.false_eq_true, if_false, if_true, configureApps, askFile, ask] at h
      generalize hr5 : ini.AskOne _ (Prompt.Input "Application to test:" _) "" = r5 at h
      obtain ⟨app, e5⟩ := r5
      dsimp only at h
      cases e5 with
      | some e5 =>
        dsimp only at h
        subst h
        refine ⟨[_, _], append_two _ _ _, ⟨hr1, hr5, trivial⟩, by simp, ?_, ?_⟩
        · intro e he
          simp only [Option.some.injEq] at he
          subst he
          exact ⟨rfl, Or.inr (Or.inr (Or.inl ⟨hF2, _, _, rfl, hname, rfl, rfl⟩))⟩
        · simp
      | none =>
        dsimp only at h
        generalize hr6 : ini.AskOne _ (Prompt.Input "Test application:" _) "" = r6 at h
        obtain ⟨testApp, e6⟩ := r6
        dsimp only at h
        cases e6 with
        | some e6 =>
          dsimp only at h
          subst h
          refine ⟨[_, _, _], append_three _ _ _ _, ⟨hr1, hr5, hr6, trivial⟩, by simp, ?_, ?_⟩
          · intro e he
            simp only [Option.some.injEq] at he
            subst he
            exact ⟨rfl, Or.inr (Or.inr (Or.inl ⟨hF2, _, _, rfl, hname, rfl, rfl⟩))⟩
          · simp
        | none =>
          dsimp only at h
          simp only [hnat, if_true, configureDevice, askDevice, ask] at h
          generalize hr7 : ini.AskOne _ (Prompt.Select "Select device pattern:" _ _) "" = r7 at h
          obtain ⟨device, e7⟩ := r7
          dsimp only at h
          cases e7 with
          | some e7 =>
            dsimp only at h
            subst h
            refine ⟨[_, _, _, _], append_four _ _ _ _ _, ⟨hr1, hr5, hr6, hr7, trivial⟩, by simp, ?_, ?_⟩
            · intro e he
              simp only [Option.some.injEq] at he
              subst he
              exact ⟨rfl, Or.inr (Or.inr (Or.inl ⟨hF2, _, _, rfl, hname, rfl, rfl⟩))⟩
            · simp
          | none =>
            dsimp only at h
            cases hemu : needsEmulator fw with
            | true =>
              simp only [hnat, hemu, if_true, configureEmulator] at h
              rcases hG : ini.GetVirtualDevices ini.AndroidEmulator with ⟨vmds, _ | eG⟩
              swap
              · simp only [hG] at h
                subst h
                refine ⟨[_, _, _, _], append_four _ _ _ _ _, ⟨hr1, hr5, hr6, hr7, trivial⟩, by simp, ?_, ?_⟩
                · intro e he
                  simp only [Option.some.injEq] at he
                  subst he
                  refine ⟨rfl, Or.inr (Or.inr (Or.inr (Or.inr ⟨hF2, _, rfl, hname, ?_, ?_, by simp, ?_, ?_⟩)))⟩
                  · simp only [hfw, hemu]
                  · simp only [hfw, hV2]
                  · simp [Prompt.message]
                  · rw [hG]
                · simp
              have hG2 : (ini.GetVirtualDevices ini.AndroidEmulator).2 = none := by rw [hG]
              simp only [hG, askEmulator, ask] at h
              generalize hr8 : ini.AskOne _ (Prompt.Select "Select emulator:" _ _) "" = r8 at h
              obtain ⟨emulator, e8⟩ := r8
              dsimp only at h
              cases e8 with
              | some e8 =>
                dsimp only at h
                subst h
                refine ⟨[_, _, _, _, _], append_five _ _ _ _ _ _, ⟨hr1, hr5, hr6, hr7, hr8, trivial⟩, by simp, ?_, ?_⟩
                · intro e he
                  simp only [Option.some.injEq] at he
                  subst he
                  exact ⟨rfl, Or.inr (Or.inr (Or.inl ⟨hF2, _, _, rfl, hname, rfl, rfl⟩))⟩
                · simp
              | none =>
                dsimp only at h
                simp only [hnat, hemu, Bool.not_false, Bool.not_true, if_true, Bool.false_eq_true, if_false, askDownloadWhen, ask] at h
                generalize hr9 : ini.AskOne _ (Prompt.Select "Download artifacts:" _ _) "" = r9 at h
                obtain ⟨policy, e9⟩ := r9
                dsimp only at h
                cases e9 with
                | some e9 =>
                  dsimp only at h
                  subst h
                  refine ⟨[_, _, _, _, _, _], append_six _ _ _ _ _ _ _, ⟨hr1, hr5, hr6, hr7, hr8, hr9, trivial⟩, by simp, ?_, ?_⟩
                  · intro e he
                    simp only [Option.some.injEq] at he
                    subst he
                    exact ⟨rfl, Or.inr (Or.inr (Or.inl ⟨hF2, _, _, rfl, hname, rfl, rfl⟩))⟩
                  · simp
                | none =>
                  dsimp only at h
                  subst h
                  refine ⟨[_, _, _, _, _, _], append_six _ _ _ _ _ _ _, ⟨hr1, hr5, hr6, hr7, hr8, hr9, trivial⟩, by simp, ?_, ?_⟩
                  · intro e he
                    exact absurd he (by simp)
                  · intro _
                    refine ⟨hF2, by simp, name, policy, hname, ?_, ?_, ?_, ?_⟩
                    · rw [hfw]
                      exact hV2
                    · rw [hfw, hemu]
                      intro hx
                      exact hG2
                    · intro hn
                      rw [hfw, hnat] at hn
                      exact absurd hn (by decide)
                    · intro _
                      rw [hfw]
                      refine ⟨app, testApp, device, emulator, ?_, ?_, rfl, rfl, rfl, rfl, rfl⟩
                      · simp [Prompt.message, hemu]
                      · simp [hemu]
            | false =>
              simp only [hnat, hemu, Bool.not_false, Bool.not_true, if_true, Bool.false_eq_true, if_false, askDownloadWhen, ask] at h
              generalize hr9 : ini.AskOne _ (Prompt.Select "Download artifacts:" _ _) "" = r9 at h
              obtain ⟨policy, e9⟩ := r9
              dsimp only at h
              cases e9 with
              | some e9 =>
                dsimp only at h
                subst h
                refine ⟨[_, _, _, _, _], append_five _ _ _ _ _ _, ⟨hr1, hr5, hr6, hr7, hr9, trivial⟩, by simp, ?_, ?_⟩
                · intro e he
                  simp only [Option.some.injEq] at he
                  subst he
                  exact ⟨rfl, Or.inr (Or.inr (Or.inl ⟨hF2, _, _, rfl, hname, rfl, rfl⟩))⟩
                · simp
              | none =>
                dsimp only at h
                subst h
                refine ⟨[_, _, _, _, _], append_five _ _ _ _ _ _, ⟨hr1, hr5, hr6, hr7, hr9, trivial⟩, by simp, ?_, ?_⟩
                · intro e he
                  exact absurd he (by simp)
                · intro _
                  refine ⟨hF2, by simp, name, policy, hname, ?_, ?_, ?_, ?_⟩
                  · rw [hfw]
                    exact hV2
                  · rw [hfw, hemu]
                    intro hx
                    exact absurd hx (by decide)
                  · intro hn
                    rw [hfw, hnat] at hn
                    exact absurd hn (by decide)
                  · intro _
                    rw [hfw]
                    refine ⟨app, testApp, device, "", ?_, ?_, rfl, rfl, rfl, rfl, rfl⟩
                    · simp [Prompt.message, hemu]
                    · simp [hemu]


/-- C29: `configure` is all-or-nothing. It asks the questions `evs`, recorded as
`survey.AskOne` answered them, and asks none after a failing one. Whenever a step
fails it returns that error with the empty configuration: the error of reading
the frameworks, the interruption for an empty framework selection, the error of
the question asked last, the error of reading the versions of the selected
framework, or the error of reading the virtual devices of an emulator framework
once the applications and the device pattern were given. It returns no error only
when no step failed, and then the configuration holds the answers and nothing
else: for a framework that is not native the lower-cased framework, the version,
the cypress configuration file if the framework is cypress, the platform (or
mode docker), the browser and the download policy; for a native framework the
lower-cased framework, both applications, the device pattern, the emulator if
the framework takes one, and the download policy, with empty frameworkVersion,
platformName, browserName, mode and cypressJson. -/
theorem configure_all_or_nothing (ini : initiator) (asked : List Asked) :
    ∃ evs, (configure ini asked).2 = asked ++ evs ∧
      Recorded ini asked evs ∧
      (∀ a ∈ evs.dropLast, a.err = none) ∧
      (∀ e, (configure ini asked).1.2 = some e →
        (configure ini asked).1.1 = {} ∧
        ((ini.Frameworks.2 = some e ∧ evs = []) ∨
          (ini.Frameworks.2 = none ∧ e = "interrupting configuration" ∧
            ∃ first, evs = [first] ∧ first.answer = "") ∨
          (ini.Frameworks.2 = none ∧
            ∃ first last, evs.head? = some first ∧ first.answer ≠ "" ∧
              evs.getLast? = some last ∧ last.err = some e) ∨
          (ini.Frameworks.2 = none ∧
            ∃ first, evs = [first] ∧ first.answer ≠ "" ∧ first.err = none ∧
              (ini.Versions (ini.ToLower first.answer)).2 = some e) ∨
          (ini.Frameworks.2 = none ∧
            ∃ first, evs.head? = some first ∧ first.answer ≠ "" ∧
              needsEmulator (ini.ToLower first.answer) = true ∧
              (ini.Versions (ini.ToLower first.answer)).2 = none ∧
              (∀ a ∈ evs, a.err = none) ∧
              evs.map (fun a => a.prompt.message)
                = ["Select framework:", "Application to test:", "Test application:",
                    "Select device pattern:"] ∧
              (ini.GetVirtualDevices ini.AndroidEmulator).2 = some e))) ∧
      ((configure ini asked).1.2 = none →
        ini.Frameworks.2 = none ∧ (∀ a ∈ evs, a.err = none) ∧
        ∃ name policy, name ≠ "" ∧
          (ini.Versions (ini.ToLower name)).2 = none ∧
          (needsEmulator (ini.ToLower name) = true →
            (ini.GetVirtualDevices ini.AndroidEmulator).2 = none) ∧
          (isNativeFramework (ini.ToLower name) = false →
            ∃ version json platform browser,
              evs.map (fun a => (a.prompt.message, a.answer))
                = [("Select framework:", name),
                    ("Select " ++ ini.ToLower name ++ " version:", version)]
                  ++ (if needsCypressJson (ini.ToLower name) = true then
                      [("Cypress configuration file:", json)] else [])
                  ++ [("Select platform:", platform), ("Select Browser:", browser),
                      ("Download artifacts:", policy)] ∧
              (configure ini asked).1.1
                = { frameworkName := ini.ToLower name
                    frameworkVersion := version
                    cypressJson := if needsCypressJson (ini.ToLower name) = true then json else ""
                    platformName := if platform = "docker" then "" else platform
                    mode := if platform = "docker" then "docker" else "sauce"
                    browserName := browser
                    artifactWhen := mapWhenAt policy }) ∧
          (isNativeFramework (ini.ToLower name) = true →
            ∃ app testApp device emulator,
              evs.map (fun a => (a.prompt.message, a.answer))
                = [("Select framework:", name), ("Application to test:", app),
                    ("Test application:", testApp), ("Select device pattern:", device)]
                  ++ (if needsEmulator (ini.ToLower name) = true then
                      [("Select emulator:", emulator)] else [])
                  ++ [("Download artifacts:", policy)] ∧
              (configure ini asked).1.1
                = { frameworkName := ini.ToLower name
                    app := app
                    testApp := testApp
                    device := ⟨"", device, "", ""⟩
                    emulator :=
                      ⟨if needsEmulator (ini.ToLower name) = true then emulator else "", "", []⟩
                    artifactWhen := mapWhenAt policy } ∧
              (configure ini asked).1.1.frameworkVersion = "" ∧ (configure ini asked).1.1.platformName = "" ∧
              (configure ini asked).1.1.browserName = "" ∧ (configure ini asked).1.1.mode = "" ∧ (configure ini asked).1.1.cypressJson = "")) :=
  configure_outcome ini asked (configure ini asked) rfl

end initcmd

end Saucectl
